import Mathlib

/-!
# hgw: sealed kexec packages, the OCRAM stripe and the kexec trigger

A shallow embedding of `homegw-libs/kexec/lib.go`, `kexec-sealer/main.go`,
`homegw-init/ocram.go`, `homegw-init/bootstrap.go` and the kexec handler of
`homegw-init/http.go`.

Byte slices are lists of `Fin 256`.  Third-party library calls (XChaCha20-Poly1305,
SHA-256, OpenPGP clearsign, cosign, `encoding/json`) and the state of the operating
system are fields of `Env`; everything the repository itself computes (length
framing, bounds checks, the hash-line regular expression, hex decoding, the
version comparison, the stripe layout) is defined concretely.
-/

namespace Hgw

/-- A byte. -/
abbrev Byte := Fin 256

/-- A Go byte slice, by value. -/
abbrev Bytes := List Byte

/-! ## Little-endian `uint32` framing -/

/-- The four bytes `binary.LittleEndian.AppendUint32` appends for `uint32(n)`;
the conversion `uint32(len(..))` truncates modulo `2^32`. -/
def putUint32 (n : Nat) : Bytes :=
  [Fin.ofNat (n % 4294967296 % 256), Fin.ofNat (n % 4294967296 / 256 % 256),
   Fin.ofNat (n % 4294967296 / 65536 % 256), Fin.ofNat (n % 4294967296 / 16777216 % 256)]

/-- The value `binary.LittleEndian.Uint32` reads from the first four bytes of `b`
(callers check `len(b) >= 4` first; a missing byte counts as zero here). -/
def Uint32 (b : Bytes) : Nat :=
  (b.getD 0 0).val + 256 * (b.getD 1 0).val + 65536 * (b.getD 2 0).val
    + 16777216 * (b.getD 3 0).val

/-- The conversion `int(x)` of a `uint32` value `x` on a platform whose `int` has
`w` bits (`w` is 32 or 64): the value itself when it fits, its two's complement
reinterpretation otherwise. -/
def goInt (w : Nat) (x : Nat) : Int :=
  if x < 2 ^ (w - 1) then (x : Int) else (x : Int) - 2 ^ w

/-! ## Results -/

/-- The errors `Unseal` and `decryptAndVerify` can return, one constructor per
`return nil, ...` of `homegw-libs/kexec/lib.go`. -/
inductive UnsealError where
  /-- `ErrInvalidBlob` -/
  | invalidBlob
  /-- `ErrInvalidExtSig` -/
  | invalidExtSig
  /-- the error returned by `cosign.VerifyBlobSignature`, passed through -/
  | verifyBlobSignature
  /-- `bundle not verified` -/
  | bundleNotVerified
  /-- `failed to stat /homegw-init` -/
  | statFailed
  /-- `bundle time is before self mod time` -/
  | bundleTimeBeforeSelfModTime
  /-- the error returned by `chacha20poly1305.NewX`, passed through -/
  | newX
  /-- the error returned by `aead.Open`, passed through -/
  | aeadOpen
  /-- `failed to decode signature` -/
  | decodeSignature
  /-- `failed to verify signature` -/
  | verifySignature
  /-- `failed to parse hash file` -/
  | parseHashFile
  /-- `failed to parse hash` -/
  | parseHash
  /-- `unsupported filename: %s` -/
  | unsupportedFilename (filename : Bytes)
  /-- `hash mismatch` -/
  | hashMismatch
  /-- `cannot rollback from %d to %d` -/
  | rollback (currentVersion : Int) (version : Int)
  deriving DecidableEq, Repr

/-- What a Go call that returns `(value, error)` does: return a value, return an
error, or panic at run time (a slice expression out of range, a nil dereference). -/
inductive Outcome (α : Type) where
  | ok (value : α)
  | err (e : UnsealError)
  | panic
  deriving DecidableEq, Repr

/-- Sequencing of two calls, `if err != nil { return nil, err }` in between; a
panic unwinds. -/
def Outcome.bind {α β : Type} (x : Outcome α) (f : α → Outcome β) : Outcome β :=
  match x with
  | .ok a => f a
  | .err e => .err e
  | .panic => .panic

/-! ## Library types -/

/-- The part of `clearsign.Block` the code reads: the signed cleartext, and the
signature packet that `VerifySignature` checks against it. -/
structure ClearsignBlock where
  Plaintext : Bytes
  ArmoredSignature : Bytes
  deriving DecidableEq, Repr

/-- A `time.Time` wall-clock instant: whole seconds since the Unix epoch and
nanoseconds within the second (`0 <= nsec < 10^9`).  The `int64` range of Go's
internal representation is not modelled. -/
structure GoTime where
  sec : Int
  nsec : Nat
  deriving DecidableEq, Repr

/-- `time.Unix(sec, nsec)` for `0 <= nsec < 10^9`. -/
def GoTime.Unix (sec : Int) (nsec : Nat) : GoTime := ⟨sec, nsec⟩

/-- `t.Before(u)`: seconds first, then nanoseconds. -/
def GoTime.Before (t u : GoTime) : Bool :=
  decide (t.sec < u.sec) || (decide (t.sec = u.sec) && decide (t.nsec < u.nsec))

/-- The instant of a `GoTime` in nanoseconds since the epoch. -/
def GoTime.nanos (t : GoTime) : Int := t.sec * 1000000000 + (t.nsec : Int)

/-- The field of `bundle.RekorBundle` the code reads: `Payload.IntegratedTime`. -/
structure RekorBundle where
  IntegratedTime : Int
  deriving DecidableEq, Repr

/-- `cosign.LocalSignedPayload`; `Bundle` is a pointer and may be nil. -/
structure LocalSignedPayload where
  Base64Signature : String
  Bundle : Option RekorBundle
  deriving DecidableEq, Repr

/-- The `oci.Signature` built by `static.NewSignature(blob, b64sig, WithBundle(b))`. -/
structure OciSignature where
  payload : Bytes
  b64sig : String
  bundle : Option RekorBundle
  deriving DecidableEq, Repr

/-- `InitConfig` of `homegw-init/config.go`, restricted to the field the modelled
code reads after the parse (`Version`, copied to `ApiServer.Version` in `main`). -/
structure InitConfig where
  Version : Int
  deriving DecidableEq, Repr

/-- The third-party library calls and the platform the code runs on.

Each function field stands for one library call of the source, applied to the
embedded key material (`keyring.Keyring`, `keyring.KmsPub`, `keyring.RekorPub`);
`none` stands for a non-nil `error`. -/
structure Env where
  /-- width of Go's `int` in bits -/
  intBits : Nat
  /-- `sha256.Sum256` -/
  sha256 : Bytes → Bytes
  /-- `sha256.Sum256` returns a `[32]byte` -/
  sha256_length : ∀ b, (sha256 b).length = 32
  /-- `aead.Seal(dst[:0], nonce, plaintext, nil)` for `aead = NewX(key)` -/
  aeadSeal : (key nonce plaintext : Bytes) → Bytes
  /-- `aead.Open(dst[:0], nonce, ciphertext, nil)` for `aead = NewX(key)` -/
  aeadOpen : (key nonce ciphertext : Bytes) → Option Bytes
  /-- `clearsign.Decode(sig)`, first result; `none` is a nil block -/
  clearsignDecode : Bytes → Option ClearsignBlock
  /-- `sigBlock.VerifySignature(keyring.Keyring, nil)` returned a nil error -/
  verifySignature : ClearsignBlock → Bool
  /-- `json.Unmarshal(configImage, &minConfig)`: the decoded `Version` -/
  unmarshalMinimalConfig : Bytes → Option Int
  /-- `json.Unmarshal(configText, &config)` into an `InitConfig` -/
  unmarshalInitConfig : Bytes → Option InitConfig
  /-- `signature.LoadPublicKeyRaw(keyring.KmsPub, crypto.SHA256)` returned a nil error -/
  loadPublicKeyRaw : Bool
  /-- `json.Unmarshal([]byte(extSig), &payload)` -/
  unmarshalLocalSignedPayload : String → Option LocalSignedPayload
  /-- `static.NewSignature(blob, b64sig, static.WithBundle(bundle))` -/
  newSignature : Bytes → String → Option RekorBundle → Option OciSignature
  /-- `cosign.VerifyBlobSignature(ctx, sig, co)`: `bundleVerified`, or an error -/
  verifyBlobSignature : OciSignature → Option Bool
  /-- `sig.Bundle()`: a bundle pointer (possibly nil), or an error -/
  sigBundle : OciSignature → Option (Option RekorBundle)
  /-- `os.Stat("/homegw-init")` followed by `ModTime()`; `none` when stat fails -/
  statSelf : Option GoTime

/-! ## `homegw-libs/kexec/lib.go` -/

/-- `append([]byte("HGW-KEXEC"), 0)` (lib.go line 152, sealer line 18). -/
def magicHeader : Bytes := [72, 71, 87, 45, 75, 69, 88, 69, 67, 0]

/-- `aead.NonceSize()` of XChaCha20-Poly1305 (`chacha20poly1305.NonceSizeX`). -/
def nonceSize : Nat := 24

/-- The bytes of the string `"homegw-kexec.v1.bin"`. -/
def kexecFilename : Bytes :=
  [104, 111, 109, 101, 103, 119, 45, 107, 101, 120, 101, 99, 46, 118, 49, 46, 98, 105, 110]

/-- The class `[0-9a-f]` of `sha256sumRegex`. -/
def isLowerHexDigit (c : Byte) : Bool :=
  (decide (48 ≤ c.val) && decide (c.val ≤ 57)) || (decide (97 ≤ c.val) && decide (c.val ≤ 102))

/-- `sha256sumRegex.FindStringSubmatch(line)` for the pattern
`^([0-9a-f]{64})  (.+)$` (line 29): the two captures, or `none` for a nil
result.  `.` matches anything but a line feed, `$` only the end of the text. -/
def sha256sumRegex (line : Bytes) : Option (Bytes × Bytes) :=
  let hexsum := line.take 64
  let rest := line.drop 64
  let filename := rest.drop 2
  if hexsum.length = 64 ∧ hexsum.all isLowerHexDigit = true ∧ rest.take 2 = [32, 32]
      ∧ filename ≠ [] ∧ (10 : Byte) ∉ filename then
    some (hexsum, filename)
  else none

/-- `strings.Split(s, "\n")[0]`: the bytes before the first line feed. -/
def firstLine (s : Bytes) : Bytes := s.takeWhile (fun c => c != 10)

/-- `fromHexChar` of `encoding/hex`: digits and both letter cases. -/
def fromHexChar (c : Byte) : Option Nat :=
  if 48 ≤ c.val ∧ c.val ≤ 57 then some (c.val - 48)
  else if 97 ≤ c.val ∧ c.val ≤ 102 then some (c.val - 97 + 10)
  else if 65 ≤ c.val ∧ c.val ≤ 70 then some (c.val - 65 + 10)
  else none

/-- `hex.DecodeString`: `none` on an odd length or a byte that is no hex digit. -/
def hexDecodeString : Bytes → Option Bytes
  | [] => some []
  | [_] => none
  | a :: b :: rest =>
    match fromHexChar a, fromHexChar b, hexDecodeString rest with
    | some x, some y, some r => some (Fin.ofNat (16 * x + y) :: r)
    | _, _, _ => none

/-- One digit of `hex.EncodeToString` (table `0123456789abcdef`), for `n < 16`. -/
def hexDigit (n : Nat) : Byte := if n < 10 then Fin.ofNat (48 + n) else Fin.ofNat (87 + n)

/-- `hex.EncodeToString`. -/
def hexEncodeToString : Bytes → Bytes
  | [] => []
  | b :: rest => hexDigit (b.val / 16) :: hexDigit (b.val % 16) :: hexEncodeToString rest

/-- The `if useExtSig { ... }` block of `decryptAndVerify` (lines 91-145). -/
def verifyExternal (E : Env) (blob : Bytes) (extSig : String) : Outcome Unit :=
  if E.loadPublicKeyRaw = false then .err .invalidExtSig else
  match E.unmarshalLocalSignedPayload extSig with
  | none => .err .invalidExtSig
  | some payload =>
  match E.newSignature blob payload.Base64Signature payload.Bundle with
  | none => .err .invalidExtSig
  | some sig =>
  match E.verifyBlobSignature sig with
  | none => .err .verifyBlobSignature
  | some bundleVerified =>
  if bundleVerified = false then .err .bundleNotVerified else
  match E.sigBundle sig with
  | none => .err .invalidExtSig
  | some bundle =>
  match E.statSelf with
  | none => .err .statFailed
  | some selfModTime =>
  match bundle with
  | none => .panic
  | some b =>
    let bundleTime := GoTime.Unix b.IntegratedTime 0
    -- Reject if bundleTime < selfModTime
    if bundleTime.Before selfModTime = true then .err .bundleTimeBeforeSelfModTime
    else .ok ()

/-- Lines 147-171 of `decryptAndVerify`: `NewX`, the magic header, the nonce and
`aead.Open`; the result is the decrypted payload. -/
def openEnvelope (E : Env) (encryptionKey blob : Bytes) : Outcome Bytes :=
  if encryptionKey.length ≠ 32 then .err .newX else
  if blob.length < magicHeader.length then .err .invalidBlob else
  if blob.take magicHeader.length ≠ magicHeader then .err .invalidBlob else
  let blob := blob.drop magicHeader.length
  if blob.length < nonceSize then .err .invalidBlob else
  let nonce := blob.take nonceSize
  let blob := blob.drop nonceSize
  match E.aeadOpen encryptionKey nonce blob with
  | none => .err .aeadOpen
  | some blob => .ok blob

/-- The two-field length framing, as parsed by lines 175-196 of `decryptAndVerify`
(`sigLen`, `sig`, `dataLen`, `data`) and, statement for statement, by lines 49-70
of `Unseal` (`kernelImageLen`, `kernelImage`, `configImageLen`, `configImage`).
`w` is the width of `int`; a slice expression whose bound exceeds the length
panics. -/
def readFrame (w : Nat) (blob : Bytes) : Outcome (Bytes × Bytes) :=
  if blob.length < 4 then .err .invalidBlob else
  let sigLen := Uint32 (blob.take 4)
  let blob := blob.drop 4
  if (blob.length : Int) < goInt w sigLen then .err .invalidBlob else
  if blob.length < sigLen then .panic else
  let sig := blob.take sigLen
  let blob := blob.drop sigLen
  if blob.length < 4 then .err .invalidBlob else
  let dataLen := Uint32 (blob.take 4)
  let blob := blob.drop 4
  if (blob.length : Int) ≠ goInt w dataLen then .err .invalidBlob else
  .ok (sig, blob)

/-- The `if !useExtSig { ... }` block of `decryptAndVerify` (lines 198-229). -/
def verifyPgp (E : Env) (sig data : Bytes) : Outcome Unit :=
  match E.clearsignDecode sig with
  | none => .err .decodeSignature
  | some sigBlock =>
  if E.verifySignature sigBlock = false then .err .verifySignature else
  match sha256sumRegex (firstLine sigBlock.Plaintext) with
  | none => .err .parseHashFile
  | some (hexsum, filename) =>
  match hexDecodeString hexsum with
  | none => .err .parseHash
  | some sha256sum =>
  if filename ≠ kexecFilename then .err (.unsupportedFilename filename) else
  if sha256sum ≠ E.sha256 data then .err .hashMismatch else
  .ok ()

/-- `decryptAndVerify` (lines 88-232). -/
def decryptAndVerify (E : Env) (encryptionKey blob : Bytes) (extSig : String) :
    Outcome Bytes :=
  let useExtSig := extSig != ""
  (if useExtSig then verifyExternal E blob extSig else .ok ()).bind fun _ =>
  (openEnvelope E encryptionKey blob).bind fun payload =>
  (readFrame E.intBits payload).bind fun (sig, data) =>
  (if !useExtSig then verifyPgp E sig data else .ok ()).bind fun _ =>
  .ok data

/-- `UnsealedPackage` (lines 31-34). -/
structure UnsealedPackage where
  Kernel : Bytes
  Config : Bytes
  deriving DecidableEq, Repr

/-- `Unseal` (lines 43-86). -/
def Unseal (E : Env) (currentVersion : Int) (encryptionKey blob : Bytes) (extSig : String) :
    Outcome UnsealedPackage :=
  (decryptAndVerify E encryptionKey blob extSig).bind fun data =>
  (readFrame E.intBits data).bind fun (kernelImage, configImage) =>
  match E.unmarshalMinimalConfig configImage with
  | none => .err .invalidBlob
  | some version =>
    if version < currentVersion then .err (.rollback currentVersion version)
    else .ok { Kernel := kernelImage, Config := configImage }

/-! ## `kexec-sealer/main.go` -/

/-- The buffer `data` of the sealer (lines 56-61). -/
def sealerData (kernelData configData : Bytes) : Bytes :=
  putUint32 kernelData.length ++ kernelData ++ putUint32 configData.length ++ configData

/-- The line the sealer asks the operator to clearsign (lines 63-64):
the hex SHA-256 of `data`, two spaces, `homegw-kexec.v1.bin`. -/
def signingPayload (E : Env) (data : Bytes) : Bytes :=
  hexEncodeToString (E.sha256 data) ++ [32, 32] ++ kexecFilename

/-- The plaintext the sealer encrypts (lines 73-77). -/
def sealerPlaintext (signature data : Bytes) : Bytes :=
  putUint32 signature.length ++ signature ++ putUint32 data.length ++ data

/-- What `kexec-sealer` writes to standard output (lines 31-33 and 56-82) for a
key file `keyData`, the random `nonce`, the two input files and the signature
read from standard input; `none` when the key is not 32 bytes long. -/
def sealerMain (E : Env) (keyData nonce kernelData configData signature : Bytes) :
    Option Bytes :=
  if keyData.length ≠ 32 then none else
  let data := sealerData kernelData configData
  let out := sealerPlaintext signature data
  some (magicHeader ++ nonce ++ E.aeadSeal keyData nonce out)

/-! ## A small concrete environment

Stand-ins for the library calls, simple enough to evaluate, used to instantiate
the theorems below at concrete inputs. -/

/-- The config text `{"version":1}`. -/
def configV1 : Bytes := [123, 34, 118, 101, 114, 115, 105, 111, 110, 34, 58, 49, 125]

/-- The config text `{"version":0}`. -/
def configV0 : Bytes := [123, 34, 118, 101, 114, 115, 105, 111, 110, 34, 58, 48, 125]

/-- The config text `{"version":5,"hostname":7}`: `hostname` is a string field of
`InitConfig`, so `json.Unmarshal` into an `InitConfig` returns an
`UnmarshalTypeError`, while `minimalConfig` has no such field and decodes. -/
def configBadHostname : Bytes :=
  [123, 34, 118, 101, 114, 115, 105, 111, 110, 34, 58, 53, 44,
   34, 104, 111, 115, 116, 110, 97, 109, 101, 34, 58, 55, 125]

/-- A 32-byte digest that depends on every byte and on the length. -/
def sampleSha256 (b : Bytes) : Bytes :=
  let h := b.foldl (fun acc x => (acc * 31 + x.val + 1) % 65521) 7
  (List.range 32).map (fun i => Fin.ofNat (h / (i + 1) + i))

/-- `json.Unmarshal` into `minimalConfig`, at the three config texts above. -/
def sampleUnmarshalMinimalConfig (b : Bytes) : Option Int :=
  if b = configV1 then some 1
  else if b = configV0 then some 0
  else if b = configBadHostname then some 5
  else none

/-- `json.Unmarshal` into `InitConfig`, at the three config texts above. -/
def sampleUnmarshalInitConfig (b : Bytes) : Option InitConfig :=
  if b = configV1 then some { Version := 1 }
  else if b = configV0 then some { Version := 0 }
  else none

/-- An authenticated "cipher" that stores the plaintext behind a one-byte tag
derived from the key and nonce lengths. -/
def sampleAeadSeal (key nonce plaintext : Bytes) : Bytes :=
  Fin.ofNat (key.length + nonce.length) :: plaintext

/-- Opens what `sampleAeadSeal` produced; any other tag fails authentication. -/
def sampleAeadOpen (key nonce ciphertext : Bytes) : Option Bytes :=
  match ciphertext with
  | [] => none
  | tag :: plaintext => if tag = Fin.ofNat (key.length + nonce.length) then some plaintext else none

/-- A "clearsigned message": the byte 1 followed by the cleartext. -/
def sampleClearsign (plaintext : Bytes) : Bytes := 1 :: plaintext

/-- Decodes what `sampleClearsign` produced. -/
def sampleClearsignDecode (sig : Bytes) : Option ClearsignBlock :=
  match sig with
  | [] => none
  | tag :: plaintext =>
    if tag = 1 then some { Plaintext := plaintext, ArmoredSignature := [] } else none

/-- The environment built from the stand-ins: a 64-bit `int`, a keyring that
accepts every decoded block, an external signature whose text length is the
bundle's integrated time, and `/homegw-init` last modified at second 100. -/
def sampleEnv : Env where
  intBits := 64
  sha256 := sampleSha256
  sha256_length := fun b => by simp [sampleSha256]
  aeadSeal := sampleAeadSeal
  aeadOpen := sampleAeadOpen
  clearsignDecode := sampleClearsignDecode
  verifySignature := fun _ => true
  unmarshalMinimalConfig := sampleUnmarshalMinimalConfig
  unmarshalInitConfig := sampleUnmarshalInitConfig
  loadPublicKeyRaw := true
  unmarshalLocalSignedPayload := fun s =>
    some { Base64Signature := s, Bundle := some { IntegratedTime := s.length } }
  newSignature := fun blob b64sig bundle =>
    some { payload := blob, b64sig := b64sig, bundle := bundle }
  verifyBlobSignature := fun sig => some sig.bundle.isSome
  sigBundle := fun sig => some sig.bundle
  statSelf := some { sec := 100, nsec := 0 }

/-- A 32-byte key. -/
def sampleKey : Bytes := List.replicate 32 7

/-- A 24-byte nonce. -/
def sampleNonce : Bytes := List.replicate 24 9

/-- The three-byte kernel image `abc`. -/
def sampleKernel : Bytes := [97, 98, 99]

/-- The clearsigned signing line for a kernel and a config. -/
def sampleSignature (kernel config : Bytes) : Bytes :=
  sampleClearsign (signingPayload sampleEnv (sealerData kernel config) ++ [10])

/-- The envelope the sealer emits for a kernel and a config under the sample key. -/
def sampleEnvelope (kernel config : Bytes) : Bytes :=
  magicHeader ++ sampleNonce
    ++ sampleAeadSeal sampleKey sampleNonce
        (sealerPlaintext (sampleSignature kernel config) (sealerData kernel config))

/-- A kernel image of 4294967275 zero bytes: with the 13-byte `configV1` and the
two length fields the sealer's inner data is exactly 2^32 bytes long. -/
def oversizeKernel : Bytes := List.replicate 4294967275 0

/-- The bytes of the string `"foo.bin"`. -/
def fooFilename : Bytes := [102, 111, 111, 46, 98, 105, 110]

/-- Scenario S4: the sample inner data with one extra byte appended, signed and
sealed like the sample envelope. -/
def trailingByteEnvelope : Bytes :=
  let data := sealerData sampleKernel configV1 ++ [0]
  let signature := sampleClearsign (signingPayload sampleEnv data ++ [10])
  magicHeader ++ sampleNonce
    ++ sampleAeadSeal sampleKey sampleNonce (sealerPlaintext signature data)

/-- Scenario S5: the sample package with a clearsigned line that names `foo.bin`. -/
def fooEnvelope : Bytes :=
  let data := sealerData sampleKernel configV1
  let signature := sampleClearsign
    (hexEncodeToString (sampleEnv.sha256 data) ++ [32, 32] ++ fooFilename ++ [10])
  magicHeader ++ sampleNonce
    ++ sampleAeadSeal sampleKey sampleNonce (sealerPlaintext signature data)

/-! ## `homegw-init/ocram.go` -/

/-- `OCRAM_START` (line 12). -/
def OCRAM_START : Nat := 0x901000

/-- `OCRAM_END` (line 13). -/
def OCRAM_END : Nat := 0x920000

/-- `/dev/mem` as the two functions use it: whether `os.OpenFile` and
`syscall.Mmap` succeed, and the bytes of the physical range
`[OCRAM_START, OCRAM_END)` that the mapping exposes. -/
structure DevMem where
  openOk : Bool
  mmapOk : Bool
  ocram : Bytes

/-- The builtin `copy(dst, src)`: the new contents of `dst`, whose first
`min(len(dst), len(src))` bytes are taken from `src`. -/
def goCopy (dst src : Bytes) : Bytes := src.take dst.length ++ dst.drop src.length

/-- The loop of `loadConfigFromOcram` (lines 21-27), entered at index `i`:
the index of the first zero byte, or the zero value of `dataLen` when the loop
ends without a `break`. -/
def scanZero : Bytes → Nat → Nat
  | [], _ => 0
  | b :: rest, i => if b = 0 then i else scanZero rest (i + 1)

/-- `dumpAndEraseOcram` (lines 62-82): the snapshot and the erased region;
`none` stands for `log.Fatalf`. -/
def dumpAndEraseOcram (m : DevMem) : Option (Bytes × DevMem) :=
  if m.openOk = false then none
  else if m.mmapOk = false then none
  else
    let ocramMapping := m.ocram
    let ocram := goCopy (List.replicate (OCRAM_END - OCRAM_START) 0) ocramMapping
    some (ocram, { m with ocram := ocramMapping.map fun _ => 0 })

/-- `loadConfigFromOcram` (lines 15-36): the pair it returns (`none` is a nil
slice) and the state of the region afterwards. -/
def loadConfigFromOcram (E : Env) (m : DevMem) : Option ((Option Bytes × Bool) × DevMem) :=
  match dumpAndEraseOcram m with
  | none => none
  | some (ocram, m') =>
    let expectedConfigHash := ocram.take 32
    let config := ocram.drop 32
    -- Config is zero-terminated, find the zero byte
    let dataLen := scanZero config 0
    let config := config.take dataLen
    let actualConfigHash := E.sha256 config
    if expectedConfigHash ≠ actualConfigHash then some ((none, false), m')
    else some ((some config, true), m')

/-- The errors of `writeConfigToOcram`. -/
inductive OcramError where
  /-- `config is too big` -/
  | tooBig
  /-- `failed to open /dev/mem` -/
  | openFailed
  /-- `failed to mmap OCRAM` -/
  | mmapFailed
  deriving DecidableEq, Repr

/-- `writeConfigToOcram` (lines 38-60): the state of the region afterwards, or
the error. -/
def writeConfigToOcram (E : Env) (m : DevMem) (config : Bytes) : Except OcramError DevMem :=
  if 32 + config.length + 1 > OCRAM_END - OCRAM_START then .error .tooBig
  else if m.openOk = false then .error .openFailed
  else if m.mmapOk = false then .error .mmapFailed
  else
    let ocramMapping := m.ocram
    let configHash := E.sha256 config
    let ocramMapping := goCopy (ocramMapping.take 32) configHash ++ ocramMapping.drop 32
    let ocramMapping := ocramMapping.take 32
      ++ goCopy ((ocramMapping.drop 32).take config.length) config
      ++ ocramMapping.drop (32 + config.length)
    let ocramMapping := ocramMapping.set (32 + config.length) 0
    .ok { m with ocram := ocramMapping }

/-- A region of `OCRAM_END - OCRAM_START` zero bytes behind a working `/dev/mem`. -/
def zeroDevMem : DevMem :=
  { openOk := true, mmapOk := true, ocram := List.replicate (OCRAM_END - OCRAM_START) 0 }

/-- A region that holds the digest of the empty config followed by 126944
non-zero bytes, so that no zero byte follows offset 32. -/
def unterminatedDevMem : DevMem :=
  { openOk := true, mmapOk := true,
    ocram := sampleSha256 [] ++ List.replicate (OCRAM_END - OCRAM_START - 32) 1 }

/-! ## `homegw-init/bootstrap.go`: `loadConfig` -/

/-- `loadConfig` (lines 18-45).  `configPath` is `none` when `HOMEGW_CONFIG_PATH`
is empty and otherwise the result of `os.ReadFile` on it; `gs0` is what
`loadConfigFromGs0()` returns when it is called.  The result is the pair
`(&config, configText)` and the state of the region; `none` stands for
`log.Fatalf`. -/
def loadConfig (E : Env) (configPath : Option (Option Bytes)) (m : DevMem) (gs0 : Bytes) :
    Option ((InitConfig × Bytes) × DevMem) :=
  let source : Option (Bytes × DevMem) :=
    match configPath with
    | none =>
      match loadConfigFromOcram E m with
      | none => none
      | some ((text, ok), m') => some (if ok = true then text.getD [] else gs0, m')
    | some none => none
    | some (some text) => some (text, m)
  match source with
  | none => none
  | some (configText, m') =>
    match E.unmarshalInitConfig configText with
    | none => none
    | some config => some ((config, configText), m')

/-! ## `homegw-init/http.go`: `ApiServer.kexec` -/

/-- The fields of `ApiServer` that the kexec handler reads: `Disks` holds the
mountpoints, `KexecSshKill` tells whether the channel is non-nil. -/
structure ApiServer where
  Version : Int
  KexecEnabled : Bool
  KexecEncryptionKey : Bytes
  Disks : List String
  KexecSshKill : Bool

/-- What the handler reads of the request: `ContentLength`, the bytes the body
yields before it ends, and the header `X-External-Signature`. -/
structure Request where
  ContentLength : Int
  Body : Bytes
  ExternalSignature : String

/-- The process and operating-system state one run of the handler meets. -/
structure Sys where
  /-- `globalKexecLock` is held when the handler starts -/
  kexecLocked : Bool
  /-- `KexecSshKillCompletion` gets closed after `KexecSshKill` is closed -/
  sshKillCompletes : Bool
  /-- the `i`-th run of `pkill` returns a non-nil error -/
  pkillFails : Nat → Bool
  devMem : DevMem
  /-- errno of the `kexec_load` system call -/
  kexecLoadErrno : Nat
  /-- errno of the `reboot` system call -/
  rebootErrno : Nat

/-- The steps of the handler that act on the world, in the order they happen. -/
inductive Event where
  | tryLock (acquired : Bool)
  | unlock
  | readBody (length : Nat)
  | unseal
  | sshKill
  | pkill
  | unmount (path : String)
  | writeOcram (config : Bytes)
  | kexecLoad (kernel : Bytes) (destination capacity : Nat)
  | response (status : Nat) (message : String)
  | reboot
  deriving DecidableEq, Repr

/-- How a run of the handler ends: it returns, it panics (gin's recovery then
answers 500), it waits forever, the machine reboots, or `Logger.Fatal` exits. -/
inductive Ending where
  | returned
  | panicked
  | blocked
  | rebooted
  | fatal
  deriving DecidableEq, Repr

/-- One run of the handler: what it did, how it ended, and the region afterwards. -/
structure Run where
  events : List Event
  ending : Ending
  devMem : DevMem

/-- The `for` loop of lines 373-386 from the `i`-th run of `pkill` on: the number
of runs made when it breaks, or `none` when `fuel` iterations do not reach the
`break`. -/
def pkillLoop (fails : Nat → Bool) : Nat → Nat → Option Nat
  | 0, _ => none
  | fuel + 1, i =>
    if fails i = true then
      if fails (i + 1) = true then some (i + 2)
      else pkillLoop fails fuel (i + 2)
    else pkillLoop fails fuel (i + 1)

/-- `ApiServer.kexec` (lines 333-449); `none` when the `pkill` loop does not end
within `fuel` iterations. -/
def ApiServer.kexec (E : Env) (s : ApiServer) (r : Request) (sys : Sys) (fuel : Nat) :
    Option Run :=
  if s.KexecEnabled = false then
    some { events := [.response 400 "kexec disabled"], ending := .returned,
           devMem := sys.devMem }
  else if sys.kexecLocked = true then
    some { events := [.tryLock false, .response 409 "kexec already in progress"],
           ending := .returned, devMem := sys.devMem }
  else if r.ContentLength > 128 * 1048576 then
    some { events := [.tryLock true, .response 400 "kexec package is too big", .unlock],
           ending := .returned, devMem := sys.devMem }
  else if r.ContentLength < 0 then
    -- make([]byte, n) with a negative n panics
    some { events := [.tryLock true, .unlock, .response 500 ""], ending := .panicked,
           devMem := sys.devMem }
  else
    let n := r.ContentLength.toNat
    if r.Body.length < n then
      some { events := [.tryLock true, .readBody r.Body.length,
                        .response 400 "failed to read request body", .unlock],
             ending := .returned, devMem := sys.devMem }
    else
    let input := r.Body.take n
    let start : List Event := [.tryLock true, .readBody n, .unseal]
    match Unseal E s.Version s.KexecEncryptionKey input r.ExternalSignature with
    | .err _ =>
      some { events := start ++ [.response 400 "failed to unseal kexec package", .unlock],
             ending := .returned, devMem := sys.devMem }
    | .panic =>
      some { events := start ++ [.unlock, .response 500 ""], ending := .panicked,
             devMem := sys.devMem }
    | .ok pkg =>
      -- Kill SSH
      if s.KexecSshKill = true ∧ sys.sshKillCompletes = false then
        some { events := start ++ [.sshKill], ending := .blocked, devMem := sys.devMem }
      else
      -- Kill user processes
      match pkillLoop sys.pkillFails fuel 0 with
      | none => none
      | some runs =>
        let teardown : List Event :=
          start ++ (if s.KexecSshKill = true then [.sshKill] else [])
            ++ List.replicate runs .pkill
            ++ [.unmount "/vroot/tmp"] ++ s.Disks.map .unmount
            ++ [.writeOcram pkg.Config]
        -- Save config for the new kernel
        match writeConfigToOcram E sys.devMem pkg.Config with
        | .error _ =>
          some { events := teardown
                   ++ [.response 400 "failed to write config to ocram", .unlock],
                 ending := .returned, devMem := sys.devMem }
        | .ok devMem =>
          if pkg.Kernel = [] then
            -- &pkg.Kernel[0] is out of range
            some { events := teardown ++ [.unlock, .response 500 ""], ending := .panicked,
                   devMem := devMem }
          else
          let loaded := teardown ++ [.kexecLoad pkg.Kernel 0x80000000 0x8000000]
          if sys.kexecLoadErrno ≠ 0 then
            some { events := loaded ++ [.response 400 "failed to load kexec package", .unlock],
                   ending := .returned, devMem := devMem }
          else if sys.rebootErrno ≠ 0 then
            some { events := loaded ++ [.response 200 "Rebooting into new kernel\n", .reboot],
                   ending := .fatal, devMem := devMem }
          else
            some { events := loaded ++ [.response 200 "Rebooting into new kernel\n", .reboot],
                   ending := .rebooted, devMem := devMem }

/-- A kexec-enabled server that runs config version 1 under the sample key. -/
def sampleServer : ApiServer :=
  { Version := 1, KexecEnabled := true, KexecEncryptionKey := sampleKey, Disks := [],
    KexecSshKill := false }

/-- A request that carries the sample envelope of a kernel and a config. -/
def sampleRequest (kernel config : Bytes) : Request :=
  { ContentLength := (sampleEnvelope kernel config).length,
    Body := sampleEnvelope kernel config, ExternalSignature := "" }

/-- A free mutex, a `pkill` that finds nothing to kill, a zeroed region and
system calls that succeed. -/
def sampleSys : Sys :=
  { kexecLocked := false, sshKillCompletes := true, pkillFails := fun _ => true,
    devMem := zeroDevMem, kexecLoadErrno := 0, rebootErrno := 0 }

/-- The region after a call of `writeConfigToOcram`: every error return of the
function comes before its first store, so a failed call leaves the region as
it was. -/
def ocramAfterWrite (E : Env) (m : DevMem) (config : Bytes) : DevMem :=
  match writeConfigToOcram E m config with
  | .ok m' => m'
  | .error _ => m

/-- A zeroed region behind a `/dev/mem` that cannot be opened. -/
def closedDevMem : DevMem :=
  { openOk := false, mmapOk := true, ocram := List.replicate (OCRAM_END - OCRAM_START) 0 }

/-! ## `homegw-init/emergency_kexec.go`: the `/emergency-kexec` handler -/

/-- The handler registered by `emergencyKexecEntry` (lines 42-124), for the key
`decodedKeyArray` read at start-up.  `errorText` gives `err.Error()` for the
errors `Unseal` returns.  A panic is recovered by `net/http`, which sends no
response; `none` when the `pkill` loop does not end within `fuel` iterations. -/
def emergencyKexec (E : Env) (errorText : UnsealError → String) (decodedKeyArray : Bytes)
    (r : Request) (sys : Sys) (fuel : Nat) : Option Run :=
  if sys.kexecLocked = true then
    some { events := [.tryLock false, .response 429 ""], ending := .returned,
           devMem := sys.devMem }
  else if r.ContentLength > 128 * 1048576 then
    some { events := [.tryLock true, .response 400 "kexec package is too big", .unlock],
           ending := .returned, devMem := sys.devMem }
  else if r.ContentLength < 0 then
    -- make([]byte, n) with a negative n panics
    some { events := [.tryLock true, .unlock], ending := .panicked, devMem := sys.devMem }
  else
    let n := r.ContentLength.toNat
    if r.Body.length < n then
      some { events := [.tryLock true, .readBody r.Body.length, .response 400 "", .unlock],
             ending := .returned, devMem := sys.devMem }
    else
    let input := r.Body.take n
    let start : List Event := [.tryLock true, .readBody n, .unseal]
    match Unseal E 1 decodedKeyArray input r.ExternalSignature with
    | .err e =>
      some { events := start ++ [.response 400 ("unseal failed: " ++ errorText e), .unlock],
             ending := .returned, devMem := sys.devMem }
    | .panic =>
      some { events := start ++ [.unlock], ending := .panicked, devMem := sys.devMem }
    | .ok pkg =>
      -- Kill user processes
      match pkillLoop sys.pkillFails fuel 0 with
      | none => none
      | some runs =>
        let teardown : List Event :=
          start ++ List.replicate runs .pkill ++ [.unmount "/vroot/tmp"]
            ++ [.writeOcram pkg.Config]
        -- Save config for the new kernel
        match writeConfigToOcram E sys.devMem pkg.Config with
        | .error _ =>
          some { events := teardown ++ [.response 500 "", .unlock],
                 ending := .returned, devMem := sys.devMem }
        | .ok devMem =>
          if pkg.Kernel = [] then
            -- &pkg.Kernel[0] is out of range
            some { events := teardown ++ [.unlock], ending := .panicked, devMem := devMem }
          else
          let loaded := teardown ++ [.kexecLoad pkg.Kernel 0x80000000 0x8000000]
          if sys.kexecLoadErrno ≠ 0 then
            some { events := loaded ++ [.response 500 "", .unlock],
                   ending := .returned, devMem := devMem }
          else if sys.rebootErrno ≠ 0 then
            some { events := loaded ++ [.reboot], ending := .fatal, devMem := devMem }
          else
            some { events := loaded ++ [.reboot], ending := .rebooted, devMem := devMem }

/-! ## Reading a trace -/

/-- The effect of one step on `globalKexecLock`: a successful `TryLock` takes it,
`Unlock` frees it. -/
def lockStep (held : Bool) : Event → Bool
  | .tryLock true => true
  | .unlock => false
  | _ => held

/-- Whether `globalKexecLock` is held after a trace, given whether it was held
before. -/
def lockAfter (held : Bool) (events : List Event) : Bool := events.foldl lockStep held

/-- The teardown and hand-over steps of the orchestrator (sections 4.5 and 4.6 of
the design): everything but the mutex, the body read, `Unseal` and the answer. -/
def Event.isTeardown : Event → Bool
  | .sshKill => true
  | .pkill => true
  | .unmount _ => true
  | .writeOcram _ => true
  | .kexecLoad _ _ _ => true
  | .reboot => true
  | _ => false

/-- The answers written during a trace: status and message. -/
def responses (events : List Event) : List (Nat × String) :=
  events.filterMap fun
    | .response status message => some (status, message)
    | _ => none

/-- Checks a trace from left to right, given whether an SRAM write and a
`kexec_load` have been seen so far: every `kexec_load` must come after an SRAM
write and every `reboot` after a `kexec_load`. -/
def teardownOrdered : Bool → Bool → List Event → Bool
  | _, _, [] => true
  | _, loaded, .writeOcram _ :: es => teardownOrdered true loaded es
  | written, _, .kexecLoad _ _ _ :: es => written && teardownOrdered written true es
  | written, loaded, .reboot :: es => loaded && teardownOrdered written loaded es
  | written, loaded, _ :: es => teardownOrdered written loaded es

/-! ## The mutex gate under concurrent requests -/

/-- Where a request to `/kexec/trigger` stands with respect to lines 339-343:
not yet at `TryLock`, past it with the mutex held, answered 409, or returned. -/
inductive GatePhase where
  | arrived
  | pastGate
  | rejected
  | returned
  deriving DecidableEq, Repr

/-- The mutex and the phase of every request, numbered from 0. -/
structure GateState where
  locked : Bool
  phase : Nat → GatePhase

/-- No request has reached the gate and the mutex is free. -/
def GateState.init : GateState := { locked := false, phase := fun _ => .arrived }

/-- One scheduling step, taken by request `i` on a kexec-enabled server: a
request that has arrived runs `TryLock`, which is atomic, and either goes past
the gate with the mutex or is answered 409; a request past the gate returns and
its deferred `Unlock` runs.  A request that reboots the machine or waits forever
simply takes no further step. -/
def gateStep (st : GateState) (i : Nat) : GateState :=
  match st.phase i with
  | .arrived =>
    if st.locked = true then { st with phase := Function.update st.phase i .rejected }
    else { locked := true, phase := Function.update st.phase i .pastGate }
  | .pastGate => { locked := false, phase := Function.update st.phase i .returned }
  | .rejected => st
  | .returned => st

/-- A request whose body is the magic header, the sample nonce and a one-byte
ciphertext, which fails AEAD-open. -/
def tamperedRequest : Request :=
  { ContentLength := 35, Body := magicHeader ++ (sampleNonce ++ [0]), ExternalSignature := "" }

/-- What has to hold of every run of an orchestrator for its teardown to be in
order: a `kexec_load` comes after an SRAM write, a `reboot` after a
`kexec_load`; a `kexec_load` is only issued when the write of the staged config
succeeded, and a `reboot` only when `kexec_load` returned errno 0. -/
def TeardownInOrder (E : Env) (sys : Sys) (run : Run) : Prop :=
  (∀ p q kernel d c, run.events = p ++ Event.kexecLoad kernel d c :: q →
    ∃ config, Event.writeOcram config ∈ p) ∧
  (∀ p q, run.events = p ++ Event.reboot :: q →
    ∃ kernel d c, Event.kexecLoad kernel d c ∈ p) ∧
  ((∃ kernel d c, Event.kexecLoad kernel d c ∈ run.events) →
    ∃ config devMem, Event.writeOcram config ∈ run.events ∧
      writeConfigToOcram E sys.devMem config = .ok devMem) ∧
  (Event.reboot ∈ run.events → sys.kexecLoadErrno = 0)

/-! ## `homegw-init/bootstrap.go`: `loadConfigFromGs0` -/

/-- The bytes of the line `<BEGIN>`. -/
def beginMarker : Bytes := [60, 66, 69, 71, 73, 78, 62]

/-- The bytes of the line `<END>`. -/
def endMarker : Bytes := [60, 69, 78, 68, 62]

/-- The first inner loop of `loadConfigFromGs0` (lines 90-94) over the lines the
scanner still has: the lines left after the first `<BEGIN>`, none when the
scanner ends first. -/
def skipToBegin : List Bytes → List Bytes
  | [] => []
  | line :: rest => if line = beginMarker then rest else skipToBegin rest

/-- The second inner loop (lines 101-107): `configDataB64`, the concatenation of
the lines up to `<END>` or to the end of the scanner, and the lines left after it. -/
def readUntilEnd : List Bytes → Bytes × List Bytes
  | [] => ([], [])
  | line :: rest =>
    if line = endMarker then ([], rest)
    else (line ++ (readUntilEnd rest).1, (readUntilEnd rest).2)

/-- Lines 109-131: decode and check one attempt; `none` stands for `continue`.
`base64` is `base64.StdEncoding.DecodeString`, with `none` for an error. -/
def gs0Attempt (E : Env) (base64 : Bytes → Option Bytes)
    (configHashB64 configDataB64 : Bytes) : Option Bytes :=
  match base64 configHashB64 with
  | none => none
  | some expectedHash =>
    if expectedHash.length ≠ 32 then none
    else
      match base64 configDataB64 with
      | none => none
      | some configData =>
        if E.sha256 configData ≠ expectedHash then none else some configData

/-- `loadConfigFromGs0` (lines 85-132) over the lines that the scanner yields
before it stops: the config it returns, or `none` for `log.Fatalf` when no line
is left for the hash. -/
def loadConfigFromGs0 (E : Env) (base64 : Bytes → Option Bytes) (lines : List Bytes) :
    Option Bytes :=
  match h : skipToBegin lines with
  | [] => none
  | configHashB64 :: rest =>
    match gs0Attempt E base64 configHashB64 (readUntilEnd rest).1 with
    | some configData => some configData
    | none => loadConfigFromGs0 E base64 (readUntilEnd rest).2
termination_by lines.length
decreasing_by
  have hskip : ∀ l : List Bytes, (skipToBegin l).length ≤ l.length := by
    intro l
    induction l with
    | nil => exact Nat.le_refl _
    | cons x xs ih =>
      unfold skipToBegin
      split
      · exact Nat.le_succ _
      · exact Nat.le_trans ih (Nat.le_succ _)
  have hread : ∀ l : List Bytes, (readUntilEnd l).2.length ≤ l.length := by
    intro l
    induction l with
    | nil => exact Nat.le_refl _
    | cons x xs ih =>
      unfold readUntilEnd
      split
      · exact Nat.le_succ _
      · exact Nat.le_trans ih (Nat.le_succ _)
  have h1 := hskip lines
  have h2 := hread rest
  rw [h] at h1
  simp only [List.length_cons] at h1
  omega

/-- A stand-in for the base64 decoder: a text is the byte `b` followed by the
bytes it stands for; any other text fails to decode. -/
def sampleBase64 (text : Bytes) : Option Bytes :=
  match text with
  | [] => none
  | tag :: rest => if tag = 98 then some rest else none

/-- A paste with a line of noise, an attempt whose hash line does not decode, and
then a well-formed attempt for `configV1` whose data is split over two lines. -/
def samplePaste : List Bytes :=
  [[110, 111, 105, 115, 101], beginMarker, [33], 98 :: configV0, endMarker,
    beginMarker, 98 :: sampleEnv.sha256 configV1, 98 :: configV1.take 4, configV1.drop 4,
    endMarker]

/-- A paste for `configV1` after which the scanner stops before any `<END>` line. -/
def unterminatedPaste : List Bytes :=
  [beginMarker, 98 :: sampleEnv.sha256 configV1, 98 :: configV1]

/-! ## Inputs for a 32-bit `int` -/

/-- The sample environment on a platform whose `int` has 32 bits. -/
def sampleEnv32 : Env := { sampleEnv with intBits := 32 }

/-- A decrypted payload whose `sigLen` field is `0x80000000` and that ends there. -/
def overlongSigPayload : Bytes := [0, 0, 0, 128]

/-- The envelope that opens, under the sample key, to `overlongSigPayload`. -/
def overlongSigEnvelope : Bytes :=
  magicHeader ++ sampleNonce ++ sampleAeadSeal sampleKey sampleNonce overlongSigPayload

/-- Inner data whose `kernelImageLen` field is `0x80000000` and that ends there. -/
def overlongKernelData : Bytes := [0, 0, 0, 128]

/-- The envelope the sealer's framing and a valid clearsigned line give for the
inner data `overlongKernelData`. -/
def overlongKernelEnvelope : Bytes :=
  magicHeader ++ sampleNonce
    ++ sampleAeadSeal sampleKey sampleNonce
        (sealerPlaintext
          (sampleClearsign (signingPayload sampleEnv overlongKernelData ++ [10]))
          overlongKernelData)

/-- A request whose body is `body` and whose `Content-Length` is its length. -/
def requestOf (body : Bytes) : Request :=
  { ContentLength := body.length, Body := body, ExternalSignature := "" }

/-- A request sent with chunked transfer encoding: `net/http` sets its
`ContentLength` to `-1`; the body is the sample envelope. -/
def chunkedRequest : Request :=
  { ContentLength := -1, Body := sampleEnvelope sampleKernel configV1, ExternalSignature := "" }

/-! ## Comparing the two handlers -/

/-- Whether a step of a trace is an HTTP response. -/
def Event.isResponse : Event → Bool
  | .response _ _ => true
  | _ => false

/-- The steps of a run other than its responses, in order. -/
def Run.steps (run : Run) : List Event := run.events.filter fun ev => !ev.isResponse

/-- What a run did apart from answering: its steps, how it ended and the region. -/
def Run.outline (run : Run) : List Event × Ending × DevMem :=
  (run.steps, run.ending, run.devMem)

/-- The server of `/kexec/trigger` with step 1 (the SSH kill, guarded by
`s.KexecSshKill != nil`) and step 4 (the loop over `s.Disks`) removed. -/
def ApiServer.withoutSteps1And4 (s : ApiServer) : ApiServer :=
  { s with Disks := [], KexecSshKill := false }

/-- A server that runs config version 5 under the sample key. -/
def sampleServerV5 : ApiServer := { sampleServer with Version := 5 }

/-! ## `homegw-init/http.go`: the middleware of `ApiServer.Run` -/

/-- What one request does on its way through the handler chain. -/
inductive ChainEvent where
  /-- `sem <- struct{}{}` went through -/
  | acquire
  /-- the deferred `<-sem` -/
  | release
  /-- `ctx.JSON(429, gin.H{"error": "too many requests"})` -/
  | tooManyRequests
  /-- the handlers of the route (Basic auth and the API function) ran -/
  | handled
  deriving DecidableEq, Repr

/-- The part of `gin.Context`, and of the closure of `Run`, that the middleware
touches: `pending` is the number of handlers of the chain that have not been
entered (`len(c.handlers) - 1 - c.index`), `sem` the number of tokens in the
channel `sem`, `log` what the request has done so far. -/
structure GinContext where
  pending : Nat
  sem : Nat
  log : List ChainEvent
  deriving DecidableEq, Repr

/-- A `gin.HandlerFunc`; its first argument is what `c.Next()` does when the
handler calls it. -/
abbrev HandlerFunc := (GinContext → GinContext) → GinContext → GinContext

/-- `(*gin.Context).Next` of the library, over the handlers not yet entered:
`c.index++; for c.index < len(c.handlers) { c.handlers[c.index](c); c.index++ }`.
A handler that called `Next` itself returns with every handler entered, which
ends the loop; after a handler that returned without calling `Next` (and without
`Abort`) the loop goes on to the next handler. -/
def ginNext : List HandlerFunc → GinContext → GinContext
  | [], c => c
  | handler :: rest, c =>
    let c' := handler (fun c => { ginNext rest c with pending := 0 })
      { c with pending := rest.length }
    if c'.pending = 0 then c' else ginNext rest c'

/-- The test `strings.HasPrefix(ctx.Request.URL.Path, "/kexec/")` of line 83. -/
def isKexecPath (path : String) : Bool := "/kexec/".toList.isPrefixOf path.toList

/-- The middleware registered at lines 81-97 for a request with URL path `path`. -/
def rateLimit (path : String) : HandlerFunc := fun next ctx =>
  -- kexec is not subject to rate limiting
  if isKexecPath path then next ctx
  else if ctx.sem < 10 then
    let ctx := next { ctx with sem := ctx.sem + 1, log := ctx.log ++ [.acquire] }
    { ctx with sem := ctx.sem - 1, log := ctx.log ++ [.release] }
  else { ctx with log := ctx.log ++ [.tooManyRequests] }

/-- The handlers of a route, which never call `Next`, taken as one. -/
def routeHandler : HandlerFunc := fun _ ctx => { ctx with log := ctx.log ++ [.handled] }

/-- The context of a request that arrives while `inFlight` requests hold a slot. -/
def arriving (inFlight : Nat) : GinContext := { pending := 2, sem := inFlight, log := [] }

/-! ## `homegw-init/http.go`: the scope groups of `ApiServer.Run` -/

/-- `ClientKey` (lines 48-52). -/
structure ClientKey where
  Id : String
  Secret : String
  Scopes : List String
  deriving DecidableEq, Repr

/-- A `gin.Accounts` map as the list of its entries, one per key. -/
abbrev Accounts := List (String × String)

/-- The map assignment `accounts[id] = secret`: an entry under the same key is
replaced. -/
def Accounts.set (accounts : Accounts) (id secret : String) : Accounts :=
  (id, secret) :: accounts.filter fun entry => entry.1 != id

/-- The loop that fills `accounts` for one scope (lines 100-105, 114-119 and
128-133, which differ in the scope name only). -/
def scopeAccounts (scope : String) (clientKeys : List ClientKey) : Accounts :=
  clientKeys.foldl (fun accounts clientKey =>
    if clientKey.Scopes.contains scope && clientKey.Secret != "" then
      accounts.set clientKey.Id clientKey.Secret
    else accounts) []

/-- The test `len(accounts) != 0` that guards the registration of the route group
of a scope (lines 106, 120 and 134). -/
def groupRegistered (scope : String) (clientKeys : List ClientKey) : Bool :=
  (scopeAccounts scope clientKeys).length != 0

/-- The route groups that `Run` registers, by their path. -/
def registeredGroups (clientKeys : List ClientKey) : List String :=
  (if groupRegistered "tesla" clientKeys then ["/tesla"] else [])
    ++ (if groupRegistered "kexec" clientKeys then ["/kexec"] else [])
    ++ (if groupRegistered "debug" clientKeys then ["/debug"] else [])

/-- Three keys: one for the vehicle API, one for kexec whose secret is empty, and
one for the vehicle API and debugging. -/
def sampleClientKeys : List ClientKey :=
  [{ Id := "car", Secret := "s1", Scopes := ["tesla"] },
   { Id := "ops", Secret := "", Scopes := ["kexec"] },
   { Id := "dev", Secret := "s3", Scopes := ["debug", "tesla"] }]

/-! ## `homegw-init/ssh.go` and `main.go`: the SSH completion channel -/

/-- What the calls at the start of `Spawn` meet: `os.Pipe`, the base64 decoding
of `c.HostKey` and `memfd.NewMemfdReadonlyBuffer`. -/
structure SpawnSys where
  pipeOk : Bool
  hostKeyDecodes : Bool
  memfdOk : Bool
  deriving DecidableEq, Repr

/-- The errors `Spawn` returns. -/
inductive SpawnError where
  /-- `failed to create pipe` -/
  | pipe
  /-- `failed to decode host key` -/
  | decodeHostKey
  /-- `failed to create memfd for host key` -/
  | memfd
  deriving DecidableEq, Repr

/-- `SshServerConfig.Spawn` (lines 23-152): the error it returns, and whether it
got as far as line 114 and started the goroutine that runs dropbear under
`defer close(killCompletion)`. -/
def SshServerConfig.Spawn (sys : SpawnSys) : Option SpawnError × Bool :=
  if sys.pipeOk = false then (some .pipe, false)
  else if sys.hostKeyDecodes = false then (some .decodeHostKey, false)
  else if sys.memfdOk = false then (some .memfd, false)
  else (none, true)

/-- The state of the channel `sshKillCompletion`. -/
inductive Completion where
  /-- it has been closed -/
  | closed
  /-- it is open and the supervisor goroutine of `Spawn` will close it -/
  | supervised
  /-- it is open and no goroutine holds its sending end -/
  | abandoned
  deriving DecidableEq, Repr

/-- The SSH setup of `main` (lines 112-123) for `config.SshServer`, `none` being a
nil pointer: an error of `Spawn` is logged and nothing else. -/
def sshSetup (sshServer : Option SpawnSys) : Completion :=
  match sshServer with
  | some sys =>
    match SshServerConfig.Spawn sys with
    | (_, true) => .supervised
    | (_, false) => .abandoned
  | none => .closed

/-- Whether a receive from the channel returns once `sshKill` has been closed. -/
def Completion.arrives : Completion → Bool
  | .closed => true
  | .supervised => true
  | .abandoned => false

/-- The server `main` builds (lines 140-150): `KexecSshKill` is always the channel
`sshKill`, never nil. -/
def sampleServerSsh : ApiServer := { sampleServer with KexecSshKill := true }

/-- The sample system after the SSH setup left the channel in state `c`. -/
def sysAfterSetup (c : Completion) : Sys := { sampleSys with sshKillCompletes := c.arrives }

/-- An `ssh_server` section whose `host_key` is not base64. -/
def badHostKey : SpawnSys := { pipeOk := true, hostKeyDecodes := false, memfdOk := true }

/-! # Theorems -/

/-! ## C1: the seal/unseal round trip -/

theorem putUint32_length (n : Nat) : (putUint32 n).length = 4 := rfl

theorem Uint32_putUint32 (n : Nat) (rest : Bytes) :
    Uint32 (putUint32 n ++ rest) = n % 4294967296 := by
  simp [Uint32, putUint32, Fin.ofNat]
  omega

theorem Uint32_take_four (b : Bytes) : Uint32 (b.take 4) = Uint32 b := by
  match b with
  | [] => rfl
  | [_] => rfl
  | [_, _] => rfl
  | [_, _, _] => rfl
  | _ :: _ :: _ :: _ :: _ => rfl

theorem goInt_of_lt (w x : Nat) (h : x < 2 ^ (w - 1)) : goInt w x = (x : Int) := by
  simp [goInt, h]

/-- The framing parser returns the two fields of a frame whose length fields
are exact. -/
theorem readFrame_frame (w : Nat) (a b : Bytes)
    (ha : a.length < 4294967296) (hb : b.length < 4294967296)
    (haw : a.length < 2 ^ (w - 1)) (hbw : b.length < 2 ^ (w - 1)) :
    readFrame w (putUint32 a.length ++ a ++ putUint32 b.length ++ b) = .ok (a, b) := by
  have e1 : Uint32 (putUint32 a.length ++ (a ++ (putUint32 b.length ++ b))) = a.length := by
    rw [Uint32_putUint32]; exact Nat.mod_eq_of_lt ha
  have e2 : Uint32 (putUint32 b.length ++ b) = b.length := by
    rw [Uint32_putUint32]; exact Nat.mod_eq_of_lt hb
  have d1 : List.drop 4 (putUint32 a.length ++ (a ++ (putUint32 b.length ++ b)))
      = a ++ (putUint32 b.length ++ b) := List.drop_left' (putUint32_length _)
  have d2 : List.drop 4 (putUint32 b.length ++ b) = b := List.drop_left' (putUint32_length _)
  unfold readFrame
  simp only [List.append_assoc, Uint32_take_four, e1, d1, List.take_left, List.drop_left, e2, d2,
    goInt_of_lt w _ haw, goInt_of_lt w _ hbw]
  simp [putUint32_length]
  omega

theorem fromHexChar_hexDigit (n : Nat) (h : n < 16) : fromHexChar (hexDigit n) = some n := by
  interval_cases n <;> decide

theorem isLowerHexDigit_hexDigit (n : Nat) (h : n < 16) : isLowerHexDigit (hexDigit n) = true := by
  interval_cases n <;> decide

theorem hexEncodeToString_length (b : Bytes) : (hexEncodeToString b).length = 2 * b.length := by
  induction b with
  | nil => rfl
  | cons x xs ih => simp [hexEncodeToString, ih]; omega

theorem hexEncodeToString_all (b : Bytes) :
    (hexEncodeToString b).all isLowerHexDigit = true := by
  induction b with
  | nil => rfl
  | cons x xs ih =>
    have h1 : x.val / 16 < 16 := by have := x.isLt; omega
    have h2 : x.val % 16 < 16 := Nat.mod_lt _ (by decide)
    simp only [hexEncodeToString, List.all_cons, isLowerHexDigit_hexDigit _ h1,
      isLowerHexDigit_hexDigit _ h2, ih, Bool.and_self]

theorem hexDecodeString_hexEncodeToString (b : Bytes) :
    hexDecodeString (hexEncodeToString b) = some b := by
  induction b with
  | nil => rfl
  | cons x xs ih =>
    have h1 : x.val / 16 < 16 := by have := x.isLt; omega
    have h2 : x.val % 16 < 16 := Nat.mod_lt _ (by decide)
    have h3 : (Fin.ofNat (16 * (x.val / 16) + x.val % 16) : Fin 256) = x := by
      apply Fin.ext
      have := x.isLt
      simp [Fin.ofNat]
      omega
    simp only [hexEncodeToString, hexDecodeString, fromHexChar_hexDigit _ h1,
      fromHexChar_hexDigit _ h2, ih, h3]

theorem sha256sumRegex_line (hexsum filename : Bytes) (h64 : hexsum.length = 64)
    (hhex : hexsum.all isLowerHexDigit = true) (hne : filename ≠ [])
    (hlf : (10 : Byte) ∉ filename) :
    sha256sumRegex (hexsum ++ [32, 32] ++ filename) = some (hexsum, filename) := by
  have t1 : List.take 64 (hexsum ++ ([32, 32] ++ filename)) = hexsum := List.take_left' h64
  have d1 : List.drop 64 (hexsum ++ ([32, 32] ++ filename)) = [32, 32] ++ filename :=
    List.drop_left' h64
  unfold sha256sumRegex
  simp only [List.append_assoc, t1, d1]
  simp [h64, hhex, hne, hlf]

theorem kexecFilename_ne_nil : kexecFilename ≠ [] := by decide

theorem kexecFilename_no_lf : (10 : Byte) ∉ kexecFilename := by decide

/-- PGP verification accepts a verifying block whose first line is the signing line. -/
theorem verifyPgp_signingPayload (E : Env) (sig data : Bytes) (blk : ClearsignBlock)
    (hdec : E.clearsignDecode sig = some blk) (hver : E.verifySignature blk = true)
    (hline : firstLine blk.Plaintext = signingPayload E data) :
    verifyPgp E sig data = .ok () := by
  have h64 : (hexEncodeToString (E.sha256 data)).length = 64 := by
    rw [hexEncodeToString_length, E.sha256_length]
  have hre := sha256sumRegex_line (hexEncodeToString (E.sha256 data)) kexecFilename h64
    (hexEncodeToString_all _) kexecFilename_ne_nil kexecFilename_no_lf
  unfold verifyPgp
  simp only [hdec, hver, hline, signingPayload, hre, hexDecodeString_hexEncodeToString]
  simp

theorem openEnvelope_sealed (E : Env) (key nonce ct : Bytes) (hk : key.length = 32)
    (hn : nonce.length = 24) :
    openEnvelope E key (magicHeader ++ nonce ++ ct)
      = match E.aeadOpen key nonce ct with
        | none => .err .aeadOpen
        | some p => .ok p := by
  have hm : magicHeader.length = 10 := rfl
  have t1 : List.take 10 (magicHeader ++ (nonce ++ ct)) = magicHeader := List.take_left' hm
  have d1 : List.drop 10 (magicHeader ++ (nonce ++ ct)) = nonce ++ ct := List.drop_left' hm
  have t2 : List.take 24 (nonce ++ ct) = nonce := List.take_left' hn
  have d2 : List.drop 24 (nonce ++ ct) = ct := List.drop_left' hn
  unfold openEnvelope
  simp only [hm, nonceSize, List.append_assoc, t1, d1, t2, d2]
  simp [hk, hm, hn]

/-! ## Inversion lemmas -/

theorem Outcome.bind_eq_ok {α β : Type} (x : Outcome α) (f : α → Outcome β) (b : β) :
    x.bind f = .ok b ↔ ∃ a, x = .ok a ∧ f a = .ok b := by
  cases x <;> simp [Outcome.bind]

theorem goInt_le (w x : Nat) : goInt w x ≤ (x : Int) := by
  unfold goInt
  split
  · exact le_refl _
  · have : (0 : Int) ≤ 2 ^ w := by positivity
    omega

theorem goInt_eq_or_neg (w x : Nat) (hw : 32 ≤ w) (hx : x < 4294967296) :
    goInt w x = (x : Int) ∨ goInt w x < 0 := by
  unfold goInt
  split
  · exact Or.inl rfl
  · right
    have h1 : (2 : Int) ^ 32 ≤ 2 ^ w := pow_le_pow_right₀ (by norm_num) hw
    have h2 : (x : Int) < 4294967296 := by exact_mod_cast hx
    norm_num at h1
    omega

theorem Uint32_lt (b : Bytes) : Uint32 b < 4294967296 := by
  unfold Uint32
  have h0 := (b.getD 0 0).isLt
  have h1 := (b.getD 1 0).isLt
  have h2 := (b.getD 2 0).isLt
  have h3 := (b.getD 3 0).isLt
  omega

theorem Uint32_append (a rest : Bytes) (ha : a.length = 4) : Uint32 (a ++ rest) = Uint32 a := by
  match a, ha with
  | [_, _, _, _], _ => rfl

/-- A frame whose second length field disagrees with the bytes that follow it is
an invalid blob. -/
theorem readFrame_second_length_mismatch (w : Nat) (hw : 32 ≤ w) (a4 a d4 rest : Bytes)
    (ha4 : a4.length = 4) (ha : Uint32 a4 = a.length) (hd4 : d4.length = 4)
    (hne : Uint32 d4 ≠ rest.length) :
    readFrame w (a4 ++ a ++ d4 ++ rest) = .err .invalidBlob := by
  have e1 : Uint32 (a4 ++ (a ++ (d4 ++ rest))) = a.length := by
    rw [Uint32_append _ _ ha4]; exact ha
  have e2 : Uint32 (d4 ++ rest) = Uint32 d4 := Uint32_append _ _ hd4
  have d1 : List.drop 4 (a4 ++ (a ++ (d4 ++ rest))) = a ++ (d4 ++ rest) := List.drop_left' ha4
  have d2 : List.drop 4 (d4 ++ rest) = rest := List.drop_left' hd4
  have g1 := goInt_le w a.length
  have g2 := goInt_eq_or_neg w (Uint32 d4) hw (Uint32_lt d4)
  unfold readFrame
  simp only [List.append_assoc, Uint32_take_four, e1, d1, List.take_left, List.drop_left, e2, d2]
  have c1 : ¬ ((a4 ++ (a ++ (d4 ++ rest))).length < 4) := by simp [ha4]
  have c2 : ¬ (((a ++ (d4 ++ rest)).length : Int) < goInt w a.length) := by
    simp only [List.length_append, Nat.cast_add]; omega
  have c3 : ¬ ((a ++ (d4 ++ rest)).length < a.length) := by simp
  have c4 : ¬ ((d4 ++ rest).length < 4) := by simp [hd4]
  have c5 : (rest.length : Int) ≠ goInt w (Uint32 d4) := by
    rcases g2 with h | h
    · rw [h]; exact_mod_cast (Ne.symm hne)
    · omega
  simp only [c1, c2, c3, c4, c5, if_false, ne_eq, not_false_eq_true, if_true]

theorem sealerData_length (kernel config : Bytes) :
    (sealerData kernel config).length = kernel.length + config.length + 8 := by
  simp [sealerData, putUint32_length]; omega

theorem sealerPlaintext_length (signature data : Bytes) :
    (sealerPlaintext signature data).length = signature.length + data.length + 8 := by
  simp [sealerPlaintext, putUint32_length]; omega

/-- On the PGP path `decryptAndVerify` is the composition of its three stages. -/
theorem decryptAndVerify_pgp (E : Env) (key blob payload sig data : Bytes)
    (hopen : openEnvelope E key blob = .ok payload)
    (hframe : readFrame E.intBits payload = .ok (sig, data)) :
    decryptAndVerify E key blob "" = (verifyPgp E sig data).bind fun _ => .ok data := by
  simp [decryptAndVerify, Outcome.bind, hopen, hframe]

/-- On the PGP path, once the envelope has opened, `decryptAndVerify` is the frame
parser followed by the PGP check. -/
theorem decryptAndVerify_of_open (E : Env) (key blob payload : Bytes)
    (hopen : openEnvelope E key blob = .ok payload) :
    decryptAndVerify E key blob ""
      = (readFrame E.intBits payload).bind fun sd =>
          (verifyPgp E sd.1 sd.2).bind fun _ => .ok sd.2 := by
  simp [decryptAndVerify, Outcome.bind, hopen]

/-- With a non-empty external signature `decryptAndVerify` never looks at `sig`. -/
theorem decryptAndVerify_ext (E : Env) (key blob payload sig data : Bytes) (extSig : String)
    (hext : extSig ≠ "") (hver : verifyExternal E blob extSig = .ok ())
    (hopen : openEnvelope E key blob = .ok payload)
    (hframe : readFrame E.intBits payload = .ok (sig, data)) :
    decryptAndVerify E key blob extSig = .ok data := by
  simp [decryptAndVerify, Outcome.bind, hopen, hframe, hext, hver]

/-- The tail of `Unseal` after `decryptAndVerify` has returned `data`. -/
theorem Unseal_of_data (E : Env) (c v : Int) (key blob data kernel config : Bytes)
    (extSig : String) (hdata : decryptAndVerify E key blob extSig = .ok data)
    (hframe : readFrame E.intBits data = .ok (kernel, config))
    (hjson : E.unmarshalMinimalConfig config = some v) :
    Unseal E c key blob extSig
      = if v < c then .err (.rollback c v) else .ok { Kernel := kernel, Config := config } := by
  simp [Unseal, Outcome.bind, hdata, hframe, hjson]

/-- C1 (amended): the envelope `kexec-sealer` emits unseals, on the PGP path, to
exactly the kernel and config that went in, provided the signature and the
inner data (8 + len kernel + len config bytes) are each shorter than 2^32 bytes
(and, as Go slices, no longer than the largest `int`), the key has 32 and the
nonce 24 bytes, AEAD-open inverts AEAD-seal, the config decodes to a version not
below the current one, and the signature decodes to a block that verifies and
whose first line is the sealer's signing line. -/
theorem seal_unseal_roundtrip (E : Env) (currentVersion version : Int)
    (key nonce kernel config signature : Bytes) (blk : ClearsignBlock)
    (hkey : key.length = 32) (hnonce : nonce.length = 24)
    (hsig : signature.length < 4294967296)
    (hdata : (sealerData kernel config).length < 4294967296)
    (hint : (sealerPlaintext signature (sealerData kernel config)).length
      < 2 ^ (E.intBits - 1))
    (haead : ∀ p, E.aeadOpen key nonce (E.aeadSeal key nonce p) = some p)
    (hjson : E.unmarshalMinimalConfig config = some version)
    (hver : currentVersion ≤ version)
    (hdec : E.clearsignDecode signature = some blk) (hsigok : E.verifySignature blk = true)
    (hline : firstLine blk.Plaintext = signingPayload E (sealerData kernel config)) :
    ∃ envelope, sealerMain E key nonce kernel config signature = some envelope ∧
      Unseal E currentVersion key envelope "" = .ok { Kernel := kernel, Config := config } := by
  have hlenP := sealerPlaintext_length signature (sealerData kernel config)
  have hlenD := sealerData_length kernel config
  refine ⟨magicHeader ++ nonce ++ E.aeadSeal key nonce
    (sealerPlaintext signature (sealerData kernel config)), by simp [sealerMain, hkey], ?_⟩
  have hopen : openEnvelope E key (magicHeader ++ nonce ++ E.aeadSeal key nonce
      (sealerPlaintext signature (sealerData kernel config)))
      = .ok (sealerPlaintext signature (sealerData kernel config)) := by
    rw [openEnvelope_sealed E key nonce _ hkey hnonce, haead]
  have houter : readFrame E.intBits (sealerPlaintext signature (sealerData kernel config))
      = .ok (signature, sealerData kernel config) :=
    readFrame_frame _ _ _ hsig hdata (by omega) (by omega)
  have hinner : readFrame E.intBits (sealerData kernel config) = .ok (kernel, config) :=
    readFrame_frame _ _ _ (by omega) (by omega) (by omega) (by omega)
  have hdv := decryptAndVerify_pgp E key _ _ _ _ hopen houter
  rw [verifyPgp_signingPayload E _ _ blk hdec hsigok hline] at hdv
  rw [Unseal_of_data E currentVersion version key _ _ kernel config "" hdv hinner hjson]
  simp [not_lt.mpr hver]

theorem sampleAead_roundtrip (key nonce p : Bytes) :
    sampleEnv.aeadOpen key nonce (sampleEnv.aeadSeal key nonce p) = some p := by
  simp [sampleEnv, sampleAeadOpen, sampleAeadSeal]

theorem not_lf_of_isLowerHexDigit (c : Byte) (h : isLowerHexDigit c = true) : c ≠ 10 := by
  rintro rfl
  exact absurd h (by decide)

theorem firstLine_append_lf (s t : Bytes) (h : (10 : Byte) ∉ s) :
    firstLine (s ++ 10 :: t) = s := by
  induction s with
  | nil => simp [firstLine]
  | cons x xs ih =>
    have hx : x ≠ 10 := fun e => h (by simp [e])
    have hxs : (10 : Byte) ∉ xs := fun e => h (by simp [e])
    simp only [firstLine, List.cons_append] at ih ⊢
    rw [List.takeWhile_cons_of_pos (by simpa using hx), ih hxs]

theorem signingPayload_no_lf (E : Env) (data : Bytes) :
    (10 : Byte) ∉ signingPayload E data := by
  intro h
  simp only [signingPayload, List.append_assoc, List.mem_append] at h
  rcases h with h | h | h
  · have := List.all_eq_true.mp (hexEncodeToString_all (E.sha256 data)) _ h
    exact not_lf_of_isLowerHexDigit _ this rfl
  · revert h; decide
  · exact kexecFilename_no_lf h

theorem signingPayload_length (E : Env) (data : Bytes) :
    (signingPayload E data).length = 85 := by
  simp [signingPayload, hexEncodeToString_length, E.sha256_length, kexecFilename]

/-- The sample signature decodes to a verifying block whose first line is the
signing line. -/
theorem sampleSignature_verifies (kernel config : Bytes) :
    ∃ blk, sampleEnv.clearsignDecode (sampleSignature kernel config) = some blk ∧
      sampleEnv.verifySignature blk = true ∧
      firstLine blk.Plaintext = signingPayload sampleEnv (sealerData kernel config) :=
  ⟨{ Plaintext := signingPayload sampleEnv (sealerData kernel config) ++ [10],
     ArmoredSignature := [] }, rfl, rfl, firstLine_append_lf _ _ (signingPayload_no_lf _ _)⟩

theorem sampleSignature_length (kernel config : Bytes) :
    (sampleSignature kernel config).length = 87 := by
  simp [sampleSignature, sampleClearsign, signingPayload_length]

/-- Witness for C1: the sample kernel `abc` with config `{"version":1}`. -/
theorem seal_unseal_roundtrip_witness :
    sampleKey.length = 32 ∧ sampleNonce.length = 24 ∧
    ∃ envelope, sealerMain sampleEnv sampleKey sampleNonce sampleKernel configV1
        (sampleSignature sampleKernel configV1) = some envelope ∧
      Unseal sampleEnv 1 sampleKey envelope ""
        = .ok { Kernel := sampleKernel, Config := configV1 } :=
  ⟨rfl, rfl,
   seal_unseal_roundtrip sampleEnv 1 1 sampleKey sampleNonce sampleKernel configV1
    (sampleSignature sampleKernel configV1)
    { Plaintext := signingPayload sampleEnv (sealerData sampleKernel configV1) ++ [10],
      ArmoredSignature := [] }
    rfl rfl
    (by rw [sampleSignature_length]; decide)
    (by rw [sealerData_length]; decide)
    (by rw [sealerPlaintext_length, sampleSignature_length, sealerData_length]; decide)
    (sampleAead_roundtrip sampleKey sampleNonce)
    rfl (le_refl _) rfl rfl
    (firstLine_append_lf _ _ (signingPayload_no_lf _ _))⟩

theorem oversizeKernel_length : oversizeKernel.length = 4294967275 :=
  List.length_replicate _ _

/-- Counterexample to C1 as stated: a kernel of 4294967275 bytes and the 13-byte
config `{"version":1}` are each shorter than 2^32 bytes, but the inner data is
exactly 2^32 bytes long, the sealer writes `uint32(len(data)) = 0` as its length,
and `Unseal` rejects the sealer's own envelope with `ErrInvalidBlob`. -/
theorem seal_unseal_roundtrip_overflow :
    oversizeKernel.length < 4294967296 ∧
    configV1.length < 4294967296 ∧
    sampleEnv.unmarshalMinimalConfig configV1 = some 1 ∧
    (∃ blk, sampleEnv.clearsignDecode
          (sampleSignature oversizeKernel configV1) = some blk ∧
        sampleEnv.verifySignature blk = true ∧
        firstLine blk.Plaintext
          = signingPayload sampleEnv (sealerData oversizeKernel configV1)) ∧
    ∃ envelope, sealerMain sampleEnv sampleKey sampleNonce oversizeKernel
        configV1 (sampleSignature oversizeKernel configV1) = some envelope ∧
      Unseal sampleEnv 1 sampleKey envelope "" = .err .invalidBlob := by
  refine ⟨by rw [oversizeKernel_length]; decide, by decide, rfl, sampleSignature_verifies _ _, _, rfl, ?_⟩
  have hlen : (sealerData oversizeKernel configV1).length
      = 4294967296 := by
    rw [sealerData_length, oversizeKernel_length]; rfl
  have hopen : openEnvelope sampleEnv sampleKey (magicHeader ++ sampleNonce
      ++ sampleEnv.aeadSeal sampleKey sampleNonce
        (sealerPlaintext (sampleSignature oversizeKernel configV1)
          (sealerData oversizeKernel configV1)))
      = .ok (sealerPlaintext (sampleSignature oversizeKernel configV1)
          (sealerData oversizeKernel configV1)) := by
    rw [openEnvelope_sealed sampleEnv sampleKey sampleNonce _ rfl rfl, sampleAead_roundtrip]
  have hframe : readFrame sampleEnv.intBits
      (sealerPlaintext (sampleSignature oversizeKernel configV1)
          (sealerData oversizeKernel configV1)) = .err .invalidBlob := by
    unfold sealerPlaintext
    apply readFrame_second_length_mismatch _ (by decide) _ _ _ _ (putUint32_length _)
      _ (putUint32_length _)
    · have h := Uint32_putUint32 (sealerData oversizeKernel configV1).length []
      rw [List.append_nil] at h
      rw [h, hlen]; decide
    · have h := Uint32_putUint32 (sampleSignature oversizeKernel configV1).length []
      rw [List.append_nil] at h
      rw [h, sampleSignature_length]
  rw [Unseal, decryptAndVerify_of_open _ _ _ _ hopen, hframe]
  rfl


/-! ## C2: anti-rollback -/

/-- C2: for an envelope that passes decryption, signature verification and both
structural parses and whose config decodes to version `v`, `Unseal` returns the
rollback error (and no package) when `v < c` and returns the package when
`c <= v`, equality included; so it succeeds if and only if `c <= v`. -/
theorem unseal_anti_rollback (E : Env) (c v : Int) (key blob data kernel config : Bytes)
    (extSig : String) (hdata : decryptAndVerify E key blob extSig = .ok data)
    (hframe : readFrame E.intBits data = .ok (kernel, config))
    (hjson : E.unmarshalMinimalConfig config = some v) :
    (v < c → Unseal E c key blob extSig = .err (.rollback c v)) ∧
    (c ≤ v → Unseal E c key blob extSig = .ok { Kernel := kernel, Config := config }) ∧
    (v = c → Unseal E c key blob extSig = .ok { Kernel := kernel, Config := config }) ∧
    ((∃ pkg, Unseal E c key blob extSig = .ok pkg) ↔ c ≤ v) := by
  have h := Unseal_of_data E c v key blob data kernel config extSig hdata hframe hjson
  refine ⟨fun hlt => by rw [h, if_pos hlt], fun hle => by rw [h, if_neg (not_lt.mpr hle)],
    fun he => by rw [h, if_neg (not_lt.mpr (le_of_eq he.symm))], ?_⟩
  constructor
  · rintro ⟨pkg, hpkg⟩
    by_contra hlt
    rw [h, if_pos (not_le.mp hlt)] at hpkg
    exact Outcome.noConfusion hpkg
  · intro hle
    exact ⟨_, by rw [h, if_neg (not_lt.mpr hle)]⟩

set_option maxRecDepth 100000 in
/-- Witness for C2: scenario S2, the sample package with config `{"version":0}`
against current version 1. -/
theorem unseal_anti_rollback_witness :
    Unseal sampleEnv 1 sampleKey (sampleEnvelope sampleKernel configV0) ""
      = .err (.rollback 1 0) :=
  (unseal_anti_rollback sampleEnv 1 0 sampleKey (sampleEnvelope sampleKernel configV0)
    (sealerData sampleKernel configV0) sampleKernel configV0 ""
    (by decide) (by decide) (by decide)).1 (by decide)

/-! ## C3: the verification gate -/

theorem verifyExternal_eq_ok (E : Env) (blob : Bytes) (extSig : String)
    (h : verifyExternal E blob extSig = .ok ()) :
    E.loadPublicKeyRaw = true ∧ ∃ payload sig bundle selfModTime,
      E.unmarshalLocalSignedPayload extSig = some payload ∧
      E.newSignature blob payload.Base64Signature payload.Bundle = some sig ∧
      E.verifyBlobSignature sig = some true ∧
      E.sigBundle sig = some (some bundle) ∧
      E.statSelf = some selfModTime ∧
      (GoTime.Unix bundle.IntegratedTime 0).Before selfModTime = false := by
  unfold verifyExternal at h
  split at h
  · exact Outcome.noConfusion h
  rename_i hkms
  split at h
  · exact Outcome.noConfusion h
  rename_i payload hp
  split at h
  · exact Outcome.noConfusion h
  rename_i sig hs
  split at h
  · exact Outcome.noConfusion h
  rename_i bv hv
  split at h
  · exact Outcome.noConfusion h
  rename_i hbv
  split at h
  · exact Outcome.noConfusion h
  rename_i bundle hb
  split at h
  · exact Outcome.noConfusion h
  rename_i m hm
  split at h
  · exact Outcome.noConfusion h
  rename_i b
  simp only at h
  split at h
  · exact Outcome.noConfusion h
  rename_i hbefore
  refine ⟨by simpa using hkms, payload, sig, b, m, hp, hs, ?_, hb, hm, by simpa using hbefore⟩
  rw [hv]
  simpa using hbv

theorem sha256sumRegex_eq_some (line hexsum filename : Bytes)
    (h : sha256sumRegex line = some (hexsum, filename)) :
    line = hexsum ++ [32, 32] ++ filename ∧ hexsum.length = 64 ∧
      hexsum.all isLowerHexDigit = true ∧ filename ≠ [] ∧ (10 : Byte) ∉ filename := by
  unfold sha256sumRegex at h
  simp only at h
  split at h
  · rename_i hc
    obtain ⟨h1, h2, h3, h4, h5⟩ := hc
    simp only [Option.some.injEq, Prod.mk.injEq] at h
    obtain ⟨e1, e2⟩ := h
    subst e1 e2
    refine ⟨?_, h1, h2, h4, h5⟩
    rw [List.append_assoc, ← h3, List.take_append_drop, List.take_append_drop]
  · exact Option.noConfusion h

set_option maxRecDepth 100000 in
theorem hexDigit_fromHexChar : ∀ c : Byte, isLowerHexDigit c = true →
    ∃ n, n < 16 ∧ fromHexChar c = some n ∧ hexDigit n = c := by
  decide

theorem hexEncode_pair (x y : Nat) (hx : x < 16) (hy : y < 16) (rest : Bytes) :
    hexEncodeToString ((Fin.ofNat (16 * x + y) : Byte) :: rest)
      = hexDigit x :: hexDigit y :: hexEncodeToString rest := by
  have h1 : ((Fin.ofNat (16 * x + y) : Byte)).val = 16 * x + y := by
    simp only [Fin.ofNat, Nat.reduceAdd]
    omega
  have h2 : (16 * x + y) / 16 = x := by omega
  have h3 : (16 * x + y) % 16 = y := by omega
  simp only [hexEncodeToString, h1, h2, h3]

/-- Lower-case hex digits decode to exactly the bytes that encode to them. -/
theorem hexDecodeString_lower : ∀ (h d : Bytes), h.all isLowerHexDigit = true →
    hexDecodeString h = some d → h = hexEncodeToString d
  | [], d, _, hd => by
    simp only [hexDecodeString, Option.some.injEq] at hd
    subst hd; rfl
  | [_], d, _, hd => by simp [hexDecodeString] at hd
  | a :: b :: rest, d, hall, hd => by
    simp only [List.all_cons, Bool.and_eq_true] at hall
    obtain ⟨ha, hb, hrest⟩ := hall
    obtain ⟨x, hx, hxa, hxd⟩ := hexDigit_fromHexChar a ha
    obtain ⟨y, hy, hyb, hyd⟩ := hexDigit_fromHexChar b hb
    simp only [hexDecodeString, hxa, hyb] at hd
    cases hr : hexDecodeString rest with
    | none => simp [hr] at hd
    | some r =>
      simp only [hr, Option.some.injEq] at hd
      subst hd
      rw [hexEncode_pair x y hx hy, hxd, hyd, ← hexDecodeString_lower rest r hrest hr]

/-- An even number of lower-case hex digits always decodes. -/
theorem hexDecodeString_isSome : ∀ (n : Nat) (h : Bytes), h.length = 2 * n →
    h.all isLowerHexDigit = true → ∃ d, hexDecodeString h = some d
  | 0, h, hl, _ => by
    have : h = [] := List.length_eq_zero.mp (by omega)
    subst this
    exact ⟨[], rfl⟩
  | n + 1, h, hl, hall => by
    match h, hl, hall with
    | a :: b :: rest, hl, hall =>
      simp only [List.all_cons, Bool.and_eq_true] at hall
      obtain ⟨ha, hb, hrest⟩ := hall
      obtain ⟨x, _, hxa, _⟩ := hexDigit_fromHexChar a ha
      obtain ⟨y, _, hyb, _⟩ := hexDigit_fromHexChar b hb
      obtain ⟨r, hr⟩ := hexDecodeString_isSome n rest (by simp at hl; omega) hrest
      exact ⟨Fin.ofNat (16 * x + y) :: r, by simp only [hexDecodeString, hxa, hyb, hr]⟩

/-- What the PGP block of `decryptAndVerify` returns for a block that decodes and
verifies, in terms of the regular-expression match on its first line. -/
theorem verifyPgp_of_block (E : Env) (sig data : Bytes) (blk : ClearsignBlock)
    (hdec : E.clearsignDecode sig = some blk) (hver : E.verifySignature blk = true) :
    verifyPgp E sig data =
      match sha256sumRegex (firstLine blk.Plaintext) with
      | none => .err .parseHashFile
      | some (hexsum, filename) =>
        match hexDecodeString hexsum with
        | none => .err .parseHash
        | some sha256sum =>
          if filename ≠ kexecFilename then .err (.unsupportedFilename filename)
          else if sha256sum ≠ E.sha256 data then .err .hashMismatch
          else .ok () := by
  simp [verifyPgp, hdec, hver]

/-- The PGP block succeeds exactly when the first line of the cleartext is the
signing line of `data`. -/
theorem verifyPgp_eq_ok_iff (E : Env) (sig data : Bytes) (blk : ClearsignBlock)
    (hdec : E.clearsignDecode sig = some blk) (hver : E.verifySignature blk = true) :
    verifyPgp E sig data = .ok () ↔ firstLine blk.Plaintext = signingPayload E data := by
  constructor
  · intro h
    rw [verifyPgp_of_block E sig data blk hdec hver] at h
    split at h
    · exact Outcome.noConfusion h
    rename_i hexsum filename hre
    obtain ⟨hline, h64, hall, -, -⟩ := sha256sumRegex_eq_some _ _ _ hre
    split at h
    · exact Outcome.noConfusion h
    rename_i sha256sum hdecode
    split at h
    · exact Outcome.noConfusion h
    rename_i hfn
    split at h
    · exact Outcome.noConfusion h
    rename_i hsum
    have hfn' : filename = kexecFilename := by simpa using hfn
    have hsum' : sha256sum = E.sha256 data := by simpa using hsum
    rw [hline, hfn', hexDecodeString_lower hexsum sha256sum hall hdecode, hsum', signingPayload]
  · intro h
    exact verifyPgp_signingPayload E sig data blk hdec hver h

theorem verifyPgp_eq_ok (E : Env) (sig data : Bytes) (h : verifyPgp E sig data = .ok ()) :
    ∃ blk, E.clearsignDecode sig = some blk ∧ E.verifySignature blk = true ∧
      firstLine blk.Plaintext = signingPayload E data := by
  cases hdec : E.clearsignDecode sig with
  | none => simp [verifyPgp, hdec] at h
  | some blk =>
    cases hver : E.verifySignature blk with
    | false => simp [verifyPgp, hdec, hver] at h
    | true => exact ⟨blk, rfl, hver, (verifyPgp_eq_ok_iff E sig data blk hdec hver).mp h⟩

/-- What a successful `decryptAndVerify` went through. -/
theorem decryptAndVerify_eq_ok (E : Env) (key blob data : Bytes) (extSig : String)
    (h : decryptAndVerify E key blob extSig = .ok data) :
    (extSig ≠ "" → verifyExternal E blob extSig = .ok ()) ∧
    ∃ payload sig, openEnvelope E key blob = .ok payload ∧
      readFrame E.intBits payload = .ok (sig, data) ∧
      (extSig = "" → verifyPgp E sig data = .ok ()) := by
  unfold decryptAndVerify at h
  simp only [Outcome.bind_eq_ok] at h
  obtain ⟨u, hu, payload, hopen, ⟨sig, data'⟩, hframe, u', hpgp, hd⟩ := h
  simp only [Outcome.ok.injEq] at hd
  subst hd
  refine ⟨fun hne => ?_, payload, sig, hopen, hframe, fun he => ?_⟩
  · simpa [hne] using hu
  · simpa [he] using hpgp

theorem Unseal_eq_ok (E : Env) (c : Int) (key blob : Bytes) (extSig : String)
    (pkg : UnsealedPackage) (h : Unseal E c key blob extSig = .ok pkg) :
    ∃ data v, decryptAndVerify E key blob extSig = .ok data ∧
      readFrame E.intBits data = .ok (pkg.Kernel, pkg.Config) ∧
      E.unmarshalMinimalConfig pkg.Config = some v ∧ c ≤ v := by
  unfold Unseal at h
  simp only [Outcome.bind_eq_ok] at h
  obtain ⟨data, hd, ⟨kernel, config⟩, hframe, h⟩ := h
  cases hj : E.unmarshalMinimalConfig config with
  | none => simp [hj] at h
  | some v =>
    simp only [hj] at h
    split at h
    · exact Outcome.noConfusion h
    rename_i hlt
    simp only [Outcome.ok.injEq] at h
    subst h
    exact ⟨data, v, hd, hframe, hj, not_lt.mp hlt⟩

/-- With a non-empty external signature the result of `Unseal` does not depend on
the clearsign decoder or on the PGP keyring check. -/
theorem Unseal_ext_ignores_pgp (E : Env) (c : Int) (key blob : Bytes) (extSig : String)
    (hext : extSig ≠ "") (cd : Bytes → Option ClearsignBlock) (vs : ClearsignBlock → Bool) :
    Unseal { E with clearsignDecode := cd, verifySignature := vs } c key blob extSig
      = Unseal E c key blob extSig := by
  have hb : (extSig != "") = true := by simpa using hext
  simp only [Unseal, decryptAndVerify, hb, if_true, Bool.not_true, Bool.false_eq_true, if_false]
  rfl

/-- With an empty external signature the result of `Unseal` does not depend on any
of the external-verification calls. -/
theorem Unseal_pgp_ignores_ext (E : Env) (c : Int) (key blob : Bytes)
    (kms : Bool) (up : String → Option LocalSignedPayload)
    (ns : Bytes → String → Option RekorBundle → Option OciSignature)
    (vb : OciSignature → Option Bool) (sb : OciSignature → Option (Option RekorBundle))
    (st : Option GoTime) :
    Unseal { E with loadPublicKeyRaw := kms, unmarshalLocalSignedPayload := up,
                    newSignature := ns, verifyBlobSignature := vb, sigBundle := sb,
                    statSelf := st } c key blob ""
      = Unseal E c key blob "" := by
  have hb : (("" : String) != "") = false := by decide
  simp only [Unseal, decryptAndVerify, hb, Bool.false_eq_true, if_false, Bool.not_false, if_true]
  rfl

/-- C3: whenever `Unseal` returns a package, the verifier selected by the
external-signature string accepted it.  With a non-empty string every step of
the external verification over the raw envelope succeeded (key load, payload
decode, signature object over `blob`, `VerifyBlobSignature` with the bundle
verified, bundle present, stat, bundle time not before the binary's mtime) and
the PGP functions play no part in the result; with an empty string the
signature field decodes to a block that verifies against the keyring and whose
first line is the signing line of the decrypted data, and the external
verification calls play no part. -/
theorem unseal_verification_gate (E : Env) (c : Int) (key blob : Bytes) (extSig : String)
    (pkg : UnsealedPackage) (h : Unseal E c key blob extSig = .ok pkg) :
    (extSig ≠ "" →
      (E.loadPublicKeyRaw = true ∧ ∃ payload sig bundle selfModTime,
        E.unmarshalLocalSignedPayload extSig = some payload ∧
        E.newSignature blob payload.Base64Signature payload.Bundle = some sig ∧
        E.verifyBlobSignature sig = some true ∧
        E.sigBundle sig = some (some bundle) ∧
        E.statSelf = some selfModTime ∧
        (GoTime.Unix bundle.IntegratedTime 0).Before selfModTime = false) ∧
      (∀ (cd : Bytes → Option ClearsignBlock) (vs : ClearsignBlock → Bool),
        Unseal { E with clearsignDecode := cd, verifySignature := vs } c key blob extSig
          = .ok pkg)) ∧
    (extSig = "" →
      (∃ payload sig data blk, openEnvelope E key blob = .ok payload ∧
        readFrame E.intBits payload = .ok (sig, data) ∧
        E.clearsignDecode sig = some blk ∧ E.verifySignature blk = true ∧
        firstLine blk.Plaintext = signingPayload E data) ∧
      (∀ (kms : Bool) (up : String → Option LocalSignedPayload)
          (ns : Bytes → String → Option RekorBundle → Option OciSignature)
          (vb : OciSignature → Option Bool)
          (sb : OciSignature → Option (Option RekorBundle)) (st : Option GoTime),
        Unseal { E with loadPublicKeyRaw := kms, unmarshalLocalSignedPayload := up,
                        newSignature := ns, verifyBlobSignature := vb, sigBundle := sb,
                        statSelf := st } c key blob extSig = .ok pkg)) := by
  obtain ⟨data, v, hdv, -, -, -⟩ := Unseal_eq_ok E c key blob extSig pkg h
  obtain ⟨hextok, payload, sig, hopen, hframe, hpgpok⟩ :=
    decryptAndVerify_eq_ok E key blob data extSig hdv
  constructor
  · intro hne
    exact ⟨verifyExternal_eq_ok E blob extSig (hextok hne),
      fun cd vs => by rw [Unseal_ext_ignores_pgp E c key blob extSig hne, h]⟩
  · intro he
    obtain ⟨blk, hdec, hver, hline⟩ := verifyPgp_eq_ok E sig data (hpgpok he)
    refine ⟨⟨payload, sig, data, blk, hopen, hframe, hdec, hver, hline⟩, ?_⟩
    intro kms up ns vb sb st
    subst he
    rw [Unseal_pgp_ignores_ext, h]

set_option maxRecDepth 100000 in
/-- Witness for C3: the sample package on the PGP path. -/
theorem unseal_verification_gate_witness :
    ∃ payload sig data blk, openEnvelope sampleEnv sampleKey
        (sampleEnvelope sampleKernel configV1) = .ok payload ∧
      readFrame sampleEnv.intBits payload = .ok (sig, data) ∧
      sampleEnv.clearsignDecode sig = some blk ∧ sampleEnv.verifySignature blk = true ∧
      firstLine blk.Plaintext = signingPayload sampleEnv data :=
  ((unseal_verification_gate sampleEnv 1 sampleKey (sampleEnvelope sampleKernel configV1) ""
    { Kernel := sampleKernel, Config := configV1 } (by decide)).2 rfl).1

/-! ## C4: AEAD failure -/

/-- C4 (amended): for an envelope that starts with the magic header and has at
least 24 further bytes, if AEAD-open of the remainder fails then `Unseal` returns
no package; on the PGP path, or once the external verification has passed, the
error is the one `aead.Open` returned, passed through unchanged (it is not
`ErrInvalidBlob`). -/
theorem unseal_aead_failure (E : Env) (c : Int) (key rest : Bytes) (extSig : String)
    (hkey : key.length = 32) (hrest : 24 ≤ rest.length)
    (hfail : E.aeadOpen key (rest.take 24) (rest.drop 24) = none) :
    (∀ pkg, Unseal E c key (magicHeader ++ rest) extSig ≠ .ok pkg) ∧
    ((extSig = "" ∨ verifyExternal E (magicHeader ++ rest) extSig = .ok ()) →
      Unseal E c key (magicHeader ++ rest) extSig = .err .aeadOpen) := by
  have hopen : openEnvelope E key (magicHeader ++ rest) = .err .aeadOpen := by
    have h := openEnvelope_sealed E key (rest.take 24) (rest.drop 24) hkey
      (by rw [List.length_take]; omega)
    rw [List.append_assoc, List.take_append_drop, hfail] at h
    exact h
  constructor
  · intro pkg hpkg
    obtain ⟨data, v, hdv, -, -, -⟩ := Unseal_eq_ok E c key _ extSig pkg hpkg
    obtain ⟨-, payload, sig, hopen', -, -⟩ := decryptAndVerify_eq_ok E key _ data extSig hdv
    rw [hopen] at hopen'
    exact Outcome.noConfusion hopen'
  · rintro (he | hv)
    · subst he
      simp [Unseal, decryptAndVerify, Outcome.bind, hopen]
    · by_cases he : extSig = ""
      · subst he
        simp [Unseal, decryptAndVerify, Outcome.bind, hopen]
      · simp [Unseal, decryptAndVerify, Outcome.bind, hopen, he, hv]

/-- Witness for C4: magic, the sample nonce and a one-byte ciphertext. -/
theorem unseal_aead_failure_witness :
    Unseal sampleEnv 1 sampleKey (magicHeader ++ (sampleNonce ++ [0])) "" = .err .aeadOpen :=
  (unseal_aead_failure sampleEnv 1 sampleKey (sampleNonce ++ [0]) "" (by decide) (by decide)
    (by decide)).2 (Or.inl rfl)

set_option maxRecDepth 100000 in
/-- Counterexample to C4 as stated: the envelope made of the magic header, a
24-byte nonce and a one-byte ciphertext (shorter than any authentication tag)
fails AEAD-open, and `Unseal` returns the AEAD error, which is not
`ErrInvalidBlob`. -/
theorem unseal_aead_failure_not_invalidBlob :
    (magicHeader ++ (sampleNonce ++ [0])).take 10 = magicHeader ∧
    24 ≤ ((magicHeader ++ (sampleNonce ++ [0])).drop 10).length ∧
    sampleEnv.aeadOpen sampleKey sampleNonce [0] = none ∧
    Unseal sampleEnv 1 sampleKey (magicHeader ++ (sampleNonce ++ [0])) "" = .err .aeadOpen ∧
    Unseal sampleEnv 1 sampleKey (magicHeader ++ (sampleNonce ++ [0])) ""
      ≠ .err .invalidBlob := by
  decide

/-! ## C5: strict length equality -/

/-- C5: after decryption, a payload whose `data_len` field is not the exact
number of bytes that follow it is rejected with `ErrInvalidBlob`; and when the
payload parses and the verification of `data` has passed, inner data whose
`config_len` field is not the exact number of bytes that follow it is rejected
with `ErrInvalidBlob` as well, whether the field is too small or too large. -/
theorem unseal_length_strictness (E : Env) (c : Int) (key blob payload : Bytes)
    (extSig : String) (hw : 32 ≤ E.intBits)
    (hext : extSig = "" ∨ verifyExternal E blob extSig = .ok ())
    (hopen : openEnvelope E key blob = .ok payload) :
    (∀ a4 sig d4 rest : Bytes, payload = a4 ++ sig ++ d4 ++ rest → a4.length = 4 →
        Uint32 a4 = sig.length → d4.length = 4 → Uint32 d4 ≠ rest.length →
        Unseal E c key blob extSig = .err .invalidBlob) ∧
    (∀ sig data k4 kernel c4 rest : Bytes, readFrame E.intBits payload = .ok (sig, data) →
        (extSig = "" → verifyPgp E sig data = .ok ()) →
        data = k4 ++ kernel ++ c4 ++ rest → k4.length = 4 →
        Uint32 k4 = kernel.length → c4.length = 4 → Uint32 c4 ≠ rest.length →
        Unseal E c key blob extSig = .err .invalidBlob) := by
  have hpre : (if (extSig != "") = true then verifyExternal E blob extSig else .ok ())
      = .ok () := by
    by_cases he : extSig = ""
    · simp [he]
    · rcases hext with h | h
      · exact absurd h he
      · simp [he, h]
  constructor
  · intro a4 sig d4 rest hp ha4 ha hd4 hne
    have hframe := readFrame_second_length_mismatch E.intBits hw a4 sig d4 rest ha4 ha hd4 hne
    rw [← hp] at hframe
    simp only [Unseal, decryptAndVerify, hpre, Outcome.bind, hopen, hframe]
  · intro sig data k4 kernel c4 rest hframe hpgp hd hk4 hk hc4 hne
    have hinner := readFrame_second_length_mismatch E.intBits hw k4 kernel c4 rest hk4 hk hc4 hne
    rw [← hd] at hinner
    have hpost : (if (!(extSig != "")) = true then verifyPgp E sig data else .ok ())
        = .ok () := by
      by_cases he : extSig = ""
      · simp [he, hpgp he]
      · simp [he]
    simp only [Unseal, decryptAndVerify, hpre, Outcome.bind, hopen, hframe, hpost, hinner]

set_option maxRecDepth 100000 in
/-- Witness for C5: scenario S4, one extra byte appended to the inner data. -/
theorem unseal_length_strictness_witness :
    Unseal sampleEnv 1 sampleKey trailingByteEnvelope "" = .err .invalidBlob :=
  (unseal_length_strictness sampleEnv 1 sampleKey trailingByteEnvelope
    (sealerPlaintext
      (sampleClearsign (signingPayload sampleEnv (sealerData sampleKernel configV1 ++ [0])
        ++ [10]))
      (sealerData sampleKernel configV1 ++ [0]))
    "" (by decide) (Or.inl rfl) (by decide)).2
    (sampleClearsign (signingPayload sampleEnv (sealerData sampleKernel configV1 ++ [0])
        ++ [10]))
    (sealerData sampleKernel configV1 ++ [0])
    (putUint32 3) sampleKernel (putUint32 13) (configV1 ++ [0])
    (by decide) (fun _ => by decide) (by decide) (by decide) (by decide) (by decide)
    (by decide)

/-! ## C6: the clearsigned line -/

/-- C6: on the PGP path, for a signature field that decodes to a block that
verifies against the keyring, `Unseal` returns a package only if the first line
of the cleartext matches the regular expression with the filename capture equal
to `homegw-kexec.v1.bin` and hex digits that decode to SHA-256 of the decrypted
data (so the line is exactly the sealer's signing line); a line that does not
match, names another filename or carries another hash is rejected. -/
theorem unseal_pgp_line_binding (E : Env) (c : Int) (key blob payload sig data : Bytes)
    (blk : ClearsignBlock) (hopen : openEnvelope E key blob = .ok payload)
    (hframe : readFrame E.intBits payload = .ok (sig, data))
    (hdec : E.clearsignDecode sig = some blk) (hver : E.verifySignature blk = true) :
    ((∃ pkg, Unseal E c key blob "" = .ok pkg) →
      (∃ hexsum, sha256sumRegex (firstLine blk.Plaintext) = some (hexsum, kexecFilename) ∧
        hexDecodeString hexsum = some (E.sha256 data)) ∧
      firstLine blk.Plaintext = signingPayload E data) ∧
    (sha256sumRegex (firstLine blk.Plaintext) = none →
      Unseal E c key blob "" = .err .parseHashFile) ∧
    (∀ hexsum filename, sha256sumRegex (firstLine blk.Plaintext) = some (hexsum, filename) →
      filename ≠ kexecFilename →
      Unseal E c key blob "" = .err (.unsupportedFilename filename)) ∧
    (∀ hexsum, sha256sumRegex (firstLine blk.Plaintext) = some (hexsum, kexecFilename) →
      hexDecodeString hexsum ≠ some (E.sha256 data) →
      Unseal E c key blob "" = .err .hashMismatch) := by
  have hdv : decryptAndVerify E key blob "" = (verifyPgp E sig data).bind fun _ => .ok data :=
    decryptAndVerify_pgp E key blob payload sig data hopen hframe
  have hpgp := verifyPgp_of_block E sig data blk hdec hver
  refine ⟨?_, ?_, ?_, ?_⟩
  · rintro ⟨pkg, hpkg⟩
    obtain ⟨data', v, hdv', -, -, -⟩ := Unseal_eq_ok E c key blob "" pkg hpkg
    rw [hdv, Outcome.bind_eq_ok] at hdv'
    obtain ⟨u, hu, -⟩ := hdv'
    have hline := (verifyPgp_eq_ok_iff E sig data blk hdec hver).mp hu
    refine ⟨⟨hexEncodeToString (E.sha256 data), ?_, hexDecodeString_hexEncodeToString _⟩, hline⟩
    rw [hline, signingPayload]
    exact sha256sumRegex_line _ _ (by rw [hexEncodeToString_length, E.sha256_length])
      (hexEncodeToString_all _) kexecFilename_ne_nil kexecFilename_no_lf
  · intro hnone
    rw [hnone] at hpgp
    simp only [Unseal, hdv, hpgp, Outcome.bind]
  · intro hexsum filename hre hfn
    obtain ⟨-, h64, hall, -, -⟩ := sha256sumRegex_eq_some _ _ _ hre
    obtain ⟨d, hd⟩ := hexDecodeString_isSome 32 hexsum h64 hall
    rw [hre] at hpgp
    simp only [hd, hfn, ne_eq, not_false_eq_true, if_true] at hpgp
    simp only [Unseal, hdv, hpgp, Outcome.bind]
  · intro hexsum hre hne
    obtain ⟨-, h64, hall, -, -⟩ := sha256sumRegex_eq_some _ _ _ hre
    obtain ⟨d, hd⟩ := hexDecodeString_isSome 32 hexsum h64 hall
    have hd' : d ≠ E.sha256 data := fun e => hne (by rw [hd, e])
    rw [hre] at hpgp
    simp only [hd, hd', ne_eq, not_true_eq_false, not_false_eq_true, if_true, if_false] at hpgp
    simp only [Unseal, hdv, hpgp, Outcome.bind]

set_option maxRecDepth 100000 in
/-- Witness for C6: scenario S5, a verifying clearsigned line that names `foo.bin`. -/
theorem unseal_pgp_line_binding_witness :
    Unseal sampleEnv 1 sampleKey fooEnvelope "" = .err (.unsupportedFilename fooFilename) :=
  (unseal_pgp_line_binding sampleEnv 1 sampleKey fooEnvelope
    (sealerPlaintext
      (sampleClearsign (hexEncodeToString (sampleEnv.sha256 (sealerData sampleKernel configV1))
        ++ [32, 32] ++ fooFilename ++ [10]))
      (sealerData sampleKernel configV1))
    (sampleClearsign (hexEncodeToString (sampleEnv.sha256 (sealerData sampleKernel configV1))
        ++ [32, 32] ++ fooFilename ++ [10]))
    (sealerData sampleKernel configV1)
    { Plaintext := hexEncodeToString (sampleEnv.sha256 (sealerData sampleKernel configV1))
        ++ [32, 32] ++ fooFilename ++ [10],
      ArmoredSignature := [] }
    (by decide) (by decide) (by decide) (by decide)).2.2.1
    (hexEncodeToString (sampleEnv.sha256 (sealerData sampleKernel configV1))) fooFilename
    (by decide) (by decide)

/-! ## C7: freshness of the external signature -/

theorem GoTime.Before_iff (t u : GoTime) (ht : t.nsec < 1000000000) (hu : u.nsec < 1000000000) :
    t.Before u = true ↔ t.nanos < u.nanos := by
  simp only [GoTime.Before, GoTime.nanos, Bool.or_eq_true, Bool.and_eq_true, decide_eq_true_eq]
  constructor
  · rintro (h | ⟨h1, h2⟩) <;> omega
  · intro h
    by_cases h1 : t.sec < u.sec
    · exact Or.inl h1
    · right
      constructor <;> omega

theorem readFrame_err (w : Nat) (blob : Bytes) (e : UnsealError)
    (h : readFrame w blob = .err e) : e = .invalidBlob := by
  unfold readFrame at h
  simp only at h
  repeat' split at h
  all_goals first
    | exact Outcome.noConfusion h
    | (simp only [Outcome.err.injEq] at h; exact h.symm)

theorem openEnvelope_err (E : Env) (key blob : Bytes) (e : UnsealError)
    (h : openEnvelope E key blob = .err e) :
    e = .newX ∨ e = .invalidBlob ∨ e = .aeadOpen := by
  unfold openEnvelope at h
  simp only at h
  repeat' split at h
  all_goals first
    | exact Outcome.noConfusion h
    | (simp only [Outcome.err.injEq] at h; subst h; simp)

/-- Once the external verification has passed, no later stage of `Unseal`
reports the freshness error. -/
theorem Unseal_ne_freshness_error (E : Env) (c : Int) (key blob : Bytes) (extSig : String)
    (hext : extSig ≠ "") (hv : verifyExternal E blob extSig = .ok ()) :
    Unseal E c key blob extSig ≠ .err .bundleTimeBeforeSelfModTime := by
  have hb : (extSig != "") = true := by simpa using hext
  intro h
  simp only [Unseal, decryptAndVerify, hb, if_true, hv, Bool.not_true, Bool.false_eq_true,
    if_false, Outcome.bind] at h
  cases ho : openEnvelope E key blob with
  | err e =>
    rw [ho] at h
    simp only [Outcome.err.injEq] at h
    rcases openEnvelope_err E key blob e ho with r | r | r <;> rw [r] at h <;>
      exact UnsealError.noConfusion h
  | panic => rw [ho] at h; exact Outcome.noConfusion h
  | ok payload =>
    rw [ho] at h
    simp only at h
    cases hf : readFrame E.intBits payload with
    | err e =>
      rw [hf] at h
      simp only [Outcome.err.injEq] at h
      rw [readFrame_err _ _ e hf] at h
      exact UnsealError.noConfusion h
    | panic => rw [hf] at h; exact Outcome.noConfusion h
    | ok sd =>
      rw [hf] at h
      simp only at h
      cases hi : readFrame E.intBits sd.2 with
      | err e =>
        rw [hi] at h
        simp only [Outcome.err.injEq] at h
        rw [readFrame_err _ _ e hi] at h
        exact UnsealError.noConfusion h
      | panic => rw [hi] at h; exact Outcome.noConfusion h
      | ok kc =>
        rw [hi] at h
        simp only at h
        split at h
        · simp only [Outcome.err.injEq] at h
          exact UnsealError.noConfusion h
        · split at h
          · simp only [Outcome.err.injEq] at h
            exact UnsealError.noConfusion h
          · exact Outcome.noConfusion h

/-- C7: on the external-signature path, for a bundle that passes every check
before the time comparison, with integrated time `t` seconds and with
`/homegw-init` last modified at the instant `m`, the freshness check rejects
(and `Unseal` returns the time error) if and only if the instant `t` is strictly
earlier than `m`; when `t` is at or after `m`, `m` itself included, the external
verification passes and `Unseal` does not fail for freshness. -/
theorem external_signature_freshness (E : Env) (c : Int) (key blob : Bytes)
    (extSig : String) (payload : LocalSignedPayload) (sig : OciSignature) (t : Int)
    (m : GoTime) (hext : extSig ≠ "") (hkms : E.loadPublicKeyRaw = true)
    (hp : E.unmarshalLocalSignedPayload extSig = some payload)
    (hs : E.newSignature blob payload.Base64Signature payload.Bundle = some sig)
    (hv : E.verifyBlobSignature sig = some true)
    (hb : E.sigBundle sig = some (some { IntegratedTime := t }))
    (hm : E.statSelf = some m) (hns : m.nsec < 1000000000) :
    (verifyExternal E blob extSig = .err .bundleTimeBeforeSelfModTime
      ↔ t * 1000000000 < m.nanos) ∧
    (t * 1000000000 < m.nanos →
      Unseal E c key blob extSig = .err .bundleTimeBeforeSelfModTime) ∧
    (¬ t * 1000000000 < m.nanos →
      verifyExternal E blob extSig = .ok () ∧
      Unseal E c key blob extSig ≠ .err .bundleTimeBeforeSelfModTime) ∧
    (m = GoTime.Unix t 0 → verifyExternal E blob extSig = .ok ()) := by
  have hbefore : (GoTime.Unix t 0).Before m = true ↔ t * 1000000000 < m.nanos := by
    rw [GoTime.Before_iff _ _ (by simp [GoTime.Unix]) hns]
    simp [GoTime.Unix, GoTime.nanos]
  have hve : verifyExternal E blob extSig
      = if (GoTime.Unix t 0).Before m = true then .err .bundleTimeBeforeSelfModTime
        else .ok () := by
    simp [verifyExternal, hkms, hp, hs, hv, hb, hm]
  have hbool : (extSig != "") = true := by simpa using hext
  have hrej : t * 1000000000 < m.nanos → verifyExternal E blob extSig
      = .err .bundleTimeBeforeSelfModTime := fun h => by rw [hve, if_pos (hbefore.mpr h)]
  have hacc : ¬ t * 1000000000 < m.nanos → verifyExternal E blob extSig = .ok () :=
    fun h => by rw [hve, if_neg (fun hb' => h (hbefore.mp hb'))]
  refine ⟨⟨fun h => ?_, hrej⟩, fun h => ?_, fun h => ⟨hacc h, ?_⟩, fun h => ?_⟩
  · by_contra hn
    rw [hacc hn] at h
    exact Outcome.noConfusion h
  · simp only [Unseal, decryptAndVerify, hbool, if_true, hrej h, Outcome.bind]
  · exact Unseal_ne_freshness_error E c key blob extSig hext (hacc h)
  · apply hacc
    subst h
    simp [GoTime.Unix, GoTime.nanos]

set_option maxRecDepth 100000 in
/-- Witness for C7: in the sample environment `/homegw-init` was modified at
second 100 and the external signature `abc` carries integrated time 3. -/
theorem external_signature_freshness_witness :
    Unseal sampleEnv 1 sampleKey (sampleEnvelope sampleKernel configV1) "abc"
      = .err .bundleTimeBeforeSelfModTime :=
  (external_signature_freshness sampleEnv 1 sampleKey (sampleEnvelope sampleKernel configV1)
    "abc" { Base64Signature := "abc", Bundle := some { IntegratedTime := 3 } }
    { payload := sampleEnvelope sampleKernel configV1, b64sig := "abc",
      bundle := some { IntegratedTime := 3 } }
    3 { sec := 100, nsec := 0 } (by decide) rfl (by decide) rfl rfl rfl rfl
    (by decide)).2.1 (by decide)


/-! ## The OCRAM stripe -/

theorem goCopy_of_length_eq (dst src : Bytes) (h : dst.length = src.length) :
    goCopy dst src = src := by
  unfold goCopy
  rw [h, List.take_length, ← h, List.drop_length, List.append_nil]

theorem scanZero_append (c rest : Bytes) (i : Nat) (hc : (0 : Byte) ∉ c) :
    scanZero (c ++ 0 :: rest) i = i + c.length := by
  induction c generalizing i with
  | nil => simp [scanZero]
  | cons x xs ih =>
    have hx : x ≠ 0 := fun e => hc (by simp [e])
    have hxs : (0 : Byte) ∉ xs := fun e => hc (by simp [e])
    show scanZero (x :: (xs ++ 0 :: rest)) i = i + (x :: xs).length
    rw [scanZero, if_neg hx, ih (i + 1) hxs, List.length_cons]
    omega

theorem scanZero_of_not_mem (l : Bytes) (i : Nat) (h : (0 : Byte) ∉ l) : scanZero l i = 0 := by
  induction l generalizing i with
  | nil => rfl
  | cons x xs ih =>
    have hx : x ≠ 0 := fun e => h (by simp [e])
    have hxs : (0 : Byte) ∉ xs := fun e => h (by simp [e])
    simp only [scanZero, hx, if_false, ih (i + 1) hxs]

/-- A list that holds a zero byte splits at its first zero byte. -/
theorem split_at_first_zero (l : Bytes) (h : (0 : Byte) ∈ l) :
    ∃ c rest, l = c ++ 0 :: rest ∧ (0 : Byte) ∉ c ∧ c = l.takeWhile (fun b => b != 0) := by
  induction l with
  | nil => simp at h
  | cons x xs ih =>
    by_cases hx : x = 0
    · exact ⟨[], xs, by simp [hx], by simp, by simp [hx]⟩
    · have hxs : (0 : Byte) ∈ xs := by
        rcases List.mem_cons.mp h with e | e
        · exact absurd e.symm hx
        · exact e
      obtain ⟨c, rest, e1, e2, e3⟩ := ih hxs
      refine ⟨x :: c, rest, by rw [e1]; rfl, ?_, ?_⟩
      · intro hm
        rcases List.mem_cons.mp hm with e | e
        · exact hx e.symm
        · exact e2 e
      · rw [List.takeWhile_cons_of_pos (by simpa using hx), ← e3]

/-- The bytes the loader keeps: those before the first zero byte, or none at all
when there is no zero byte. -/
theorem take_scanZero (l : Bytes) :
    l.take (scanZero l 0)
      = if (0 : Byte) ∈ l then l.takeWhile (fun b => b != 0) else [] := by
  by_cases h : (0 : Byte) ∈ l
  · obtain ⟨c, rest, e1, e2, e3⟩ := split_at_first_zero l h
    rw [if_pos h, ← e3]
    conv_lhs => rw [e1]
    rw [scanZero_append c rest 0 e2, Nat.zero_add, List.take_left]
  · rw [if_neg h, scanZero_of_not_mem l 0 h, List.take_zero]

theorem regionLen_eq : OCRAM_END - OCRAM_START = 126976 := by decide

/-- `dumpAndEraseOcram` on a working `/dev/mem`: the snapshot is the region and
the region is zero afterwards. -/
theorem dumpAndEraseOcram_eq (m : DevMem) (hopen : m.openOk = true) (hmmap : m.mmapOk = true)
    (hlen : m.ocram.length = OCRAM_END - OCRAM_START) :
    dumpAndEraseOcram m
      = some (m.ocram, { m with ocram := List.replicate (OCRAM_END - OCRAM_START) 0 }) := by
  have hmap : (m.ocram.map fun _ => (0 : Byte)) = List.replicate (OCRAM_END - OCRAM_START) 0 := by
    rw [← hlen]
    exact List.map_const' m.ocram 0
  have hcopy : goCopy (List.replicate (OCRAM_END - OCRAM_START) (0 : Byte)) m.ocram = m.ocram :=
    goCopy_of_length_eq _ _ (by rw [List.length_replicate, hlen])
  simp only [dumpAndEraseOcram, hopen, hmmap, Bool.true_eq_false, if_false, hcopy, hmap]

/-- What `loadConfigFromOcram` returns on a working `/dev/mem`, for every region
content. -/
theorem loadConfigFromOcram_eq (E : Env) (m : DevMem) (hopen : m.openOk = true)
    (hmmap : m.mmapOk = true) (hlen : m.ocram.length = OCRAM_END - OCRAM_START) :
    loadConfigFromOcram E m
      = some ((if E.sha256 (if (0 : Byte) ∈ m.ocram.drop 32
                  then (m.ocram.drop 32).takeWhile (fun b => b != 0) else [])
                = m.ocram.take 32
              then (some (if (0 : Byte) ∈ m.ocram.drop 32
                  then (m.ocram.drop 32).takeWhile (fun b => b != 0) else []), true)
              else (none, false)),
          { m with ocram := List.replicate (OCRAM_END - OCRAM_START) 0 }) := by
  simp only [loadConfigFromOcram, dumpAndEraseOcram_eq m hopen hmmap hlen, take_scanZero]
  by_cases h : E.sha256 (if (0 : Byte) ∈ m.ocram.drop 32
      then (m.ocram.drop 32).takeWhile (fun b => b != 0) else []) = m.ocram.take 32
  · rw [if_pos h, if_neg (by simpa using h.symm)]
  · rw [if_neg h, if_pos (by simpa using fun e => h e.symm)]

/-- The region after a successful `writeConfigToOcram`: digest, config, a zero
byte, and the old bytes beyond. -/
theorem writeConfigToOcram_eq (E : Env) (m : DevMem) (config : Bytes)
    (hopen : m.openOk = true) (hmmap : m.mmapOk = true)
    (hlen : m.ocram.length = OCRAM_END - OCRAM_START)
    (hfit : 32 + config.length + 1 ≤ OCRAM_END - OCRAM_START) :
    writeConfigToOcram E m config
      = .ok { m with ocram := E.sha256 config ++ config ++ 0 :: m.ocram.drop (32 + config.length + 1) } := by
  have h32 : (m.ocram.take 32).length = (E.sha256 config).length := by
    rw [List.length_take, E.sha256_length]; omega
  have c1 : goCopy (m.ocram.take 32) (E.sha256 config) = E.sha256 config :=
    goCopy_of_length_eq _ _ h32
  have hsl := E.sha256_length config
  have t1 : (E.sha256 config ++ m.ocram.drop 32).take 32 = E.sha256 config :=
    List.take_left' hsl
  have d1 : (E.sha256 config ++ m.ocram.drop 32).drop 32 = m.ocram.drop 32 :=
    List.drop_left' hsl
  have c2 : goCopy ((m.ocram.drop 32).take config.length) config = config :=
    goCopy_of_length_eq _ _ (by rw [List.length_take, List.length_drop]; omega)
  have d2 : (E.sha256 config ++ m.ocram.drop 32).drop (32 + config.length)
      = m.ocram.drop (32 + config.length) := by
    rw [← hsl, List.drop_append, List.drop_drop, hsl]
  have hnot : ¬ (32 + config.length + 1 > OCRAM_END - OCRAM_START) := by omega
  simp only [writeConfigToOcram, hnot, if_false, hopen, hmmap, Bool.true_eq_false, c1, t1, d1,
    c2, d2]
  congr 2
  have hne : m.ocram.drop (32 + config.length) ≠ [] := by
    intro e
    have := congrArg List.length e
    rw [List.length_drop] at this
    simp at this
    omega
  obtain ⟨x, xs, hx⟩ := List.exists_cons_of_ne_nil hne
  have hxs : xs = m.ocram.drop (32 + config.length + 1) := by
    rw [← List.drop_drop, hx]; rfl
  rw [hx, ← hxs, List.append_assoc]
  have hidx : 32 + config.length = (E.sha256 config ++ config).length := by
    rw [List.length_append, hsl]
  rw [← List.append_assoc, hidx, List.set_append_right _ _ (le_refl _), Nat.sub_self]
  simp

theorem takeWhile_append_zero (c rest : Bytes) (hc : (0 : Byte) ∉ c) :
    (c ++ 0 :: rest).takeWhile (fun b => b != 0) = c := by
  induction c with
  | nil => simp
  | cons x xs ih =>
    have hx : x ≠ 0 := fun e => hc (by simp [e])
    have hxs : (0 : Byte) ∉ xs := fun e => hc (by simp [e])
    show (x :: (xs ++ 0 :: rest)).takeWhile (fun b => b != 0) = x :: xs
    rw [List.takeWhile_cons_of_pos (by simpa using hx), ih hxs]

/-- Loading a region that holds a digest, a zero-free config and a zero byte. -/
theorem loadConfigFromOcram_stripe (E : Env) (m : DevMem) (h c rest : Bytes)
    (hopen : m.openOk = true) (hmmap : m.mmapOk = true)
    (hlen : m.ocram.length = OCRAM_END - OCRAM_START)
    (hm : m.ocram = h ++ c ++ 0 :: rest) (hh : h.length = 32) (hc : (0 : Byte) ∉ c) :
    loadConfigFromOcram E m
      = some ((if E.sha256 c = h then (some c, true) else (none, false)),
          { m with ocram := List.replicate (OCRAM_END - OCRAM_START) 0 }) := by
  have ht : m.ocram.take 32 = h := by
    rw [hm, List.append_assoc]; exact List.take_left' hh
  have hd : m.ocram.drop 32 = c ++ 0 :: rest := by
    rw [hm, List.append_assoc]; exact List.drop_left' hh
  have hmem : (0 : Byte) ∈ c ++ 0 :: rest := by simp
  rw [loadConfigFromOcram_eq E m hopen hmmap hlen, ht, hd, if_pos hmem,
    takeWhile_append_zero c rest hc]

/-- The region keeps its length across a write. -/
theorem written_length (E : Env) (m : DevMem) (config : Bytes)
    (hlen : m.ocram.length = OCRAM_END - OCRAM_START)
    (hfit : 32 + config.length + 1 ≤ OCRAM_END - OCRAM_START) :
    (E.sha256 config ++ config ++ 0 :: m.ocram.drop (32 + config.length + 1)).length
      = OCRAM_END - OCRAM_START := by
  simp only [List.length_append, List.length_cons, List.length_drop, E.sha256_length, hlen]
  omega

/-- C9 (amended): for every config `C` without a zero byte that `write_config`
accepts (`32 + len(C) + 1 <= region length`, `/dev/mem` opens and maps) and every
prior content of the region, `write_config(C)` succeeds and `load_config` called
next returns `(C, true)`, leaving the region zeroed. -/
theorem ocram_handoff_roundtrip (E : Env) (m : DevMem) (config : Bytes)
    (hopen : m.openOk = true) (hmmap : m.mmapOk = true)
    (hlen : m.ocram.length = OCRAM_END - OCRAM_START)
    (hfit : 32 + config.length + 1 ≤ OCRAM_END - OCRAM_START)
    (hzero : (0 : Byte) ∉ config) :
    ∃ m', writeConfigToOcram E m config = .ok m' ∧
      loadConfigFromOcram E m'
        = some ((some config, true),
            { m' with ocram := List.replicate (OCRAM_END - OCRAM_START) 0 }) := by
  refine ⟨_, writeConfigToOcram_eq E m config hopen hmmap hlen hfit, ?_⟩
  have hlen' := written_length E m config hlen hfit
  rw [loadConfigFromOcram_stripe E
    { m with ocram := E.sha256 config ++ config ++ 0 :: m.ocram.drop (32 + config.length + 1) }
    (E.sha256 config) config
    (m.ocram.drop (32 + config.length + 1)) hopen hmmap hlen' rfl (E.sha256_length config) hzero,
    if_pos rfl]

theorem zeroDevMem_length : zeroDevMem.ocram.length = OCRAM_END - OCRAM_START :=
  List.length_replicate _ _

/-- Witness for C9: the config `{"version":1}` written over a zeroed region. -/
theorem ocram_handoff_roundtrip_witness :
    ∃ m', writeConfigToOcram sampleEnv zeroDevMem configV1 = .ok m' ∧
      loadConfigFromOcram sampleEnv m'
        = some ((some configV1, true),
            { m' with ocram := List.replicate (OCRAM_END - OCRAM_START) 0 }) :=
  ocram_handoff_roundtrip sampleEnv zeroDevMem configV1 rfl rfl zeroDevMem_length
    (by decide) (by decide)

/-- Counterexample to C9 as stated: `write_config` accepts the one-byte config
that consists of a zero byte, and the `load_config` that follows reads the empty
string before that byte, finds the digest of the written config in front of it
and returns `(nil, false)`. -/
theorem ocram_handoff_zero_byte :
    32 + ([0] : Bytes).length + 1 ≤ OCRAM_END - OCRAM_START ∧
    ∃ m', writeConfigToOcram sampleEnv zeroDevMem [0] = .ok m' ∧
      ∃ m'', loadConfigFromOcram sampleEnv m' = some ((none, false), m'') := by
  refine ⟨by decide,
    { zeroDevMem with ocram := sampleEnv.sha256 [0] ++ [0]
        ++ 0 :: zeroDevMem.ocram.drop (32 + ([0] : Bytes).length + 1) },
    writeConfigToOcram_eq sampleEnv zeroDevMem [0] rfl rfl zeroDevMem_length (by decide),
    { zeroDevMem with ocram := List.replicate (OCRAM_END - OCRAM_START) 0 }, ?_⟩
  have hlen' := written_length sampleEnv zeroDevMem [0] zeroDevMem_length (by decide)
  have hstripe : sampleEnv.sha256 [0] ++ [0]
      ++ 0 :: zeroDevMem.ocram.drop (32 + ([0] : Bytes).length + 1)
      = sampleEnv.sha256 [0] ++ []
        ++ 0 :: (0 :: zeroDevMem.ocram.drop (32 + ([0] : Bytes).length + 1)) := by
    simp only [List.append_nil, List.append_assoc, List.singleton_append]
  rw [loadConfigFromOcram_stripe sampleEnv
    { zeroDevMem with ocram := sampleEnv.sha256 [0] ++ [0]
        ++ 0 :: zeroDevMem.ocram.drop (32 + ([0] : Bytes).length + 1) }
    (sampleEnv.sha256 [0]) []
    (0 :: zeroDevMem.ocram.drop (32 + ([0] : Bytes).length + 1)) rfl rfl hlen' hstripe
    (sampleEnv.sha256_length _) (by simp),
    if_neg (by decide)]

/-- C10 (amended): on a working `/dev/mem`, for every region content, with `h`
its first 32 bytes and `c` the bytes from offset 32 up to the first zero byte
(the empty string when no zero byte follows offset 32), `load_config` returns
`(c, true)` if SHA-256(c) = h and `(nil, false)` otherwise; in both cases the
region is all zero afterwards. -/
theorem load_config_integrity (E : Env) (m : DevMem) (hopen : m.openOk = true)
    (hmmap : m.mmapOk = true) (hlen : m.ocram.length = OCRAM_END - OCRAM_START) :
    ∃ r m', loadConfigFromOcram E m = some (r, m') ∧
      m'.ocram.length = OCRAM_END - OCRAM_START ∧ (∀ b ∈ m'.ocram, b = 0) ∧
      (∀ h c rest : Bytes, m.ocram = h ++ c ++ 0 :: rest → h.length = 32 → (0 : Byte) ∉ c →
        r = if E.sha256 c = h then (some c, true) else (none, false)) ∧
      ((0 : Byte) ∉ m.ocram.drop 32 →
        r = if E.sha256 [] = m.ocram.take 32 then (some [], true) else (none, false)) := by
  refine ⟨_, _, loadConfigFromOcram_eq E m hopen hmmap hlen, List.length_replicate _ _,
    fun b hb => (List.mem_replicate.mp hb).2, ?_, ?_⟩
  · intro h c rest hm hh hc
    have := loadConfigFromOcram_stripe E m h c rest hopen hmmap hlen hm hh hc
    rw [loadConfigFromOcram_eq E m hopen hmmap hlen] at this
    simp only [Option.some.injEq, Prod.mk.injEq, and_true] at this
    exact this
  · intro hnz
    rw [if_neg hnz]

/-- Witness for C10: a zeroed region, whose digest prefix is not the digest of the
empty config. -/
theorem load_config_integrity_witness :
    ∃ r m', loadConfigFromOcram sampleEnv zeroDevMem = some (r, m') ∧
      m'.ocram.length = OCRAM_END - OCRAM_START ∧ (∀ b ∈ m'.ocram, b = 0) ∧
      (∀ h c rest : Bytes, zeroDevMem.ocram = h ++ c ++ 0 :: rest → h.length = 32 →
        (0 : Byte) ∉ c →
        r = if sampleEnv.sha256 c = h then (some c, true) else (none, false)) ∧
      ((0 : Byte) ∉ zeroDevMem.ocram.drop 32 →
        r = if sampleEnv.sha256 [] = zeroDevMem.ocram.take 32 then (some [], true)
            else (none, false)) :=
  load_config_integrity sampleEnv zeroDevMem rfl rfl zeroDevMem_length

theorem unterminatedDevMem_length :
    unterminatedDevMem.ocram.length = OCRAM_END - OCRAM_START := by
  show (sampleSha256 [] ++ List.replicate (OCRAM_END - OCRAM_START - 32) 1).length = _
  have h : (sampleSha256 []).length = 32 := sampleEnv.sha256_length []
  rw [List.length_append, List.length_replicate, h]
  decide

theorem unterminatedDevMem_drop :
    unterminatedDevMem.ocram.drop 32 = List.replicate (OCRAM_END - OCRAM_START - 32) 1 :=
  List.drop_left' (sampleEnv.sha256_length [])

theorem unterminatedDevMem_take : unterminatedDevMem.ocram.take 32 = sampleEnv.sha256 [] :=
  List.take_left' (sampleEnv.sha256_length [])

/-- Counterexample to C10 as stated: a region whose first 32 bytes are the digest
of the empty string and whose remaining 126944 bytes are all non-zero holds no
zero-terminated string at offset 32, yet `load_config` returns `(c, true)` with
`c` empty: neither the bytes that start at offset 32 nor `(nil, false)`. -/
theorem load_config_unterminated :
    (0 : Byte) ∉ unterminatedDevMem.ocram.drop 32 ∧
    unterminatedDevMem.ocram.drop 32 ≠ [] ∧
    ∃ m', loadConfigFromOcram sampleEnv unterminatedDevMem = some ((some [], true), m') := by
  have hnz : (0 : Byte) ∉ unterminatedDevMem.ocram.drop 32 := by
    rw [unterminatedDevMem_drop]
    intro h
    exact absurd (List.mem_replicate.mp h).2 (by decide)
  refine ⟨hnz, ?_,
    { unterminatedDevMem with ocram := List.replicate (OCRAM_END - OCRAM_START) 0 }, ?_⟩
  · rw [unterminatedDevMem_drop]
    intro h
    have := congrArg List.length h
    rw [List.length_replicate] at this
    exact absurd this (by decide)
  · rw [loadConfigFromOcram_eq sampleEnv unterminatedDevMem rfl rfl unterminatedDevMem_length,
      if_neg hnz, unterminatedDevMem_take, if_pos rfl]


/-! ## C8: the version across a kexec hop -/

theorem Run.not_rebooted {x run : Run} (h : some x = some run)
    (hok : run.ending = .rebooted) (hx : x.ending ≠ .rebooted) : False := by
  cases h
  exact hx hok

/-- A run of the handler that ends in the reboot unsealed a package and staged
its config. -/
theorem kexec_rebooted (E : Env) (s : ApiServer) (r : Request) (sys : Sys) (fuel : Nat)
    (run : Run) (hrun : s.kexec E r sys fuel = some run) (hok : run.ending = .rebooted) :
    ∃ pkg, Unseal E s.Version s.KexecEncryptionKey (r.Body.take r.ContentLength.toNat)
        r.ExternalSignature = .ok pkg ∧
      writeConfigToOcram E sys.devMem pkg.Config = .ok run.devMem ∧
      Event.writeOcram pkg.Config ∈ run.events := by
  unfold ApiServer.kexec at hrun
  by_cases h1 : s.KexecEnabled = false
  · rw [if_pos h1] at hrun
    exact (Run.not_rebooted hrun hok (by simp)).elim
  rw [if_neg h1] at hrun
  by_cases h2 : sys.kexecLocked = true
  · rw [if_pos h2] at hrun
    exact (Run.not_rebooted hrun hok (by simp)).elim
  rw [if_neg h2] at hrun
  by_cases h3 : r.ContentLength > 128 * 1048576
  · rw [if_pos h3] at hrun
    exact (Run.not_rebooted hrun hok (by simp)).elim
  rw [if_neg h3] at hrun
  by_cases h4 : r.ContentLength < 0
  · rw [if_pos h4] at hrun
    exact (Run.not_rebooted hrun hok (by simp)).elim
  rw [if_neg h4] at hrun
  simp only at hrun
  by_cases h5 : r.Body.length < r.ContentLength.toNat
  · rw [if_pos h5] at hrun
    exact (Run.not_rebooted hrun hok (by simp)).elim
  rw [if_neg h5] at hrun
  cases hu : Unseal E s.Version s.KexecEncryptionKey (r.Body.take r.ContentLength.toNat)
      r.ExternalSignature with
  | err e =>
    rw [hu] at hrun
    exact (Run.not_rebooted hrun hok (by simp)).elim
  | panic =>
    rw [hu] at hrun
    exact (Run.not_rebooted hrun hok (by simp)).elim
  | ok pkg =>
    rw [hu] at hrun
    simp only at hrun
    by_cases h6 : s.KexecSshKill = true ∧ sys.sshKillCompletes = false
    · rw [if_pos h6] at hrun
      exact (Run.not_rebooted hrun hok (by simp)).elim
    rw [if_neg h6] at hrun
    cases hp : pkillLoop sys.pkillFails fuel 0 with
    | none =>
      rw [hp] at hrun
      exact Option.noConfusion hrun
    | some runs =>
      rw [hp] at hrun
      simp only at hrun
      cases hw : writeConfigToOcram E sys.devMem pkg.Config with
      | error e =>
        rw [hw] at hrun
        exact (Run.not_rebooted hrun hok (by simp)).elim
      | ok devMem =>
        rw [hw] at hrun
        simp only at hrun
        by_cases h7 : pkg.Kernel = []
        · rw [if_pos h7] at hrun
          exact (Run.not_rebooted hrun hok (by simp)).elim
        rw [if_neg h7] at hrun
        by_cases h8 : sys.kexecLoadErrno ≠ 0
        · rw [if_pos h8] at hrun
          exact (Run.not_rebooted hrun hok (by simp)).elim
        rw [if_neg h8] at hrun
        by_cases h9 : sys.rebootErrno ≠ 0
        · rw [if_pos h9] at hrun
          exact (Run.not_rebooted hrun hok (by simp)).elim
        rw [if_neg h9] at hrun
        cases hrun
        exact ⟨pkg, rfl, hw, by simp⟩

/-- What the handler does when every step succeeds. -/
theorem kexec_success (E : Env) (s : ApiServer) (r : Request) (sys : Sys) (fuel runs : Nat)
    (pkg : UnsealedPackage) (devMem : DevMem)
    (h1 : s.KexecEnabled = true) (h2 : sys.kexecLocked = false)
    (h3 : r.ContentLength ≤ 128 * 1048576) (h4 : 0 ≤ r.ContentLength)
    (h5 : r.ContentLength.toNat ≤ r.Body.length)
    (hu : Unseal E s.Version s.KexecEncryptionKey (r.Body.take r.ContentLength.toNat)
        r.ExternalSignature = .ok pkg)
    (h6 : s.KexecSshKill = false) (hp : pkillLoop sys.pkillFails fuel 0 = some runs)
    (hw : writeConfigToOcram E sys.devMem pkg.Config = .ok devMem)
    (h7 : pkg.Kernel ≠ []) (h8 : sys.kexecLoadErrno = 0) (h9 : sys.rebootErrno = 0) :
    ∃ run, s.kexec E r sys fuel = some run ∧ run.ending = .rebooted ∧ run.devMem = devMem := by
  unfold ApiServer.kexec
  simp only [h1, h2, not_lt.mpr h3, not_lt.mpr h4, not_lt.mpr h5, hu, h6, hp, hw, h7, h8, h9,
    Bool.true_eq_false, Bool.false_eq_true, if_false, gt_iff_lt, false_and, ne_eq,
    not_true_eq_false]
  exact ⟨_, rfl, rfl, rfl⟩

/-- With `HOMEGW_CONFIG_PATH` unset, `loadConfig` over a region that holds a digest,
its zero-free config and a zero byte parses exactly that config. -/
theorem loadConfig_of_stripe (E : Env) (m : DevMem) (c rest gs0 : Bytes)
    (hopen : m.openOk = true) (hmmap : m.mmapOk = true)
    (hlen : m.ocram.length = OCRAM_END - OCRAM_START)
    (hm : m.ocram = E.sha256 c ++ c ++ 0 :: rest) (hc : (0 : Byte) ∉ c) :
    loadConfig E none m gs0
      = (E.unmarshalInitConfig c).map fun cfg =>
          ((cfg, c), { m with ocram := List.replicate (OCRAM_END - OCRAM_START) 0 }) := by
  have hload := loadConfigFromOcram_stripe E m (E.sha256 c) c rest hopen hmmap hlen hm
    (E.sha256_length _) hc
  rw [if_pos rfl] at hload
  simp only [loadConfig, hload, if_true, Option.getD_some]
  cases E.unmarshalInitConfig c <;> rfl

/-- C8 (amended): when a `/kexec/trigger` request handled by a server that runs
config version `c` ends in the reboot, the region holds the digest of the
package's config, the config itself byte for byte and a zero byte; the config
decodes, under `Unseal`'s parse, to a version `v >= c`; the next boot's
`loadConfig` (with `HOMEGW_CONFIG_PATH` unset) reads exactly those bytes back
and returns them with the `InitConfig` its JSON parse yields, or exits when that
parse rejects them; and whenever the parse accepts them its version is that
same `v >= c`.  `encoding/json` is assumed to decode the `version` field alike
into both structs and to reject a text that contains a zero byte. -/
theorem kexec_hop_version_monotonic (E : Env) (s : ApiServer) (r : Request) (sys : Sys)
    (fuel : Nat) (run : Run)
    (hagree : ∀ b cfg, E.unmarshalInitConfig b = some cfg →
      E.unmarshalMinimalConfig b = some cfg.Version)
    (hnul : ∀ b v, E.unmarshalMinimalConfig b = some v → (0 : Byte) ∉ b)
    (hlen : sys.devMem.ocram.length = OCRAM_END - OCRAM_START)
    (hrun : s.kexec E r sys fuel = some run) (hok : run.ending = .rebooted) :
    ∃ pkg v, Unseal E s.Version s.KexecEncryptionKey (r.Body.take r.ContentLength.toNat)
        r.ExternalSignature = .ok pkg ∧
      run.devMem.ocram = E.sha256 pkg.Config ++ pkg.Config
        ++ 0 :: sys.devMem.ocram.drop (32 + pkg.Config.length + 1) ∧
      (run.devMem.ocram.drop 32).take pkg.Config.length = pkg.Config ∧
      E.unmarshalMinimalConfig pkg.Config = some v ∧ s.Version ≤ v ∧
      (∀ gs0, loadConfig E none run.devMem gs0
        = (E.unmarshalInitConfig pkg.Config).map fun cfg =>
            ((cfg, pkg.Config),
              { run.devMem with ocram := List.replicate (OCRAM_END - OCRAM_START) 0 })) ∧
      (∀ cfg, E.unmarshalInitConfig pkg.Config = some cfg →
        cfg.Version = v ∧ s.Version ≤ cfg.Version) := by
  obtain ⟨pkg, hu, hw, -⟩ := kexec_rebooted E s r sys fuel run hrun hok
  obtain ⟨data, v, -, -, hjson, hv⟩ := Unseal_eq_ok E s.Version _ _ _ pkg hu
  have hzero := hnul pkg.Config v hjson
  -- the write succeeded, so the size check and both system calls passed
  have hfit : 32 + pkg.Config.length + 1 ≤ OCRAM_END - OCRAM_START := by
    by_contra hc
    simp only [writeConfigToOcram, not_le.mp hc, if_true] at hw
    exact Except.noConfusion hw
  have hopen : sys.devMem.openOk = true := by
    by_contra hc
    have hc' : sys.devMem.openOk = false := by simpa using hc
    simp only [writeConfigToOcram, not_lt.mpr hfit, hc', if_true, if_false] at hw
    exact Except.noConfusion hw
  have hmmap : sys.devMem.mmapOk = true := by
    by_contra hc
    have hc' : sys.devMem.mmapOk = false := by simpa using hc
    simp only [writeConfigToOcram, not_lt.mpr hfit, hopen, hc', if_true, if_false,
      Bool.true_eq_false] at hw
    exact Except.noConfusion hw
  rw [writeConfigToOcram_eq E sys.devMem pkg.Config hopen hmmap hlen hfit] at hw
  simp only [Except.ok.injEq] at hw
  have hmem : run.devMem.ocram = E.sha256 pkg.Config ++ pkg.Config
      ++ 0 :: sys.devMem.ocram.drop (32 + pkg.Config.length + 1) := by rw [← hw]
  have hopen' : run.devMem.openOk = true := by rw [← hw]; exact hopen
  have hmmap' : run.devMem.mmapOk = true := by rw [← hw]; exact hmmap
  have hlen' : run.devMem.ocram.length = OCRAM_END - OCRAM_START := by
    rw [hmem]; exact written_length E sys.devMem pkg.Config hlen hfit
  refine ⟨pkg, v, hu, hmem, ?_, hjson, hv, ?_, ?_⟩
  · rw [hmem, List.append_assoc, List.drop_left' (E.sha256_length _), List.take_left]
  · intro gs0
    exact loadConfig_of_stripe E run.devMem pkg.Config _ gs0 hopen' hmmap' hlen' hmem hzero
  · intro cfg hcfg
    have := hagree pkg.Config cfg hcfg
    rw [hjson] at this
    simp only [Option.some.injEq] at this
    exact ⟨this.symm, by rw [← this]; exact hv⟩

theorem sampleEnv_json_agree (b : Bytes) (cfg : InitConfig)
    (h : sampleEnv.unmarshalInitConfig b = some cfg) :
    sampleEnv.unmarshalMinimalConfig b = some cfg.Version := by
  simp only [sampleEnv, sampleUnmarshalInitConfig, sampleUnmarshalMinimalConfig] at h ⊢
  split at h
  · rename_i hb
    simp only [Option.some.injEq] at h
    rw [if_pos hb, ← h]
  · split at h
    · rename_i hb1 hb0
      simp only [Option.some.injEq] at h
      rw [if_neg hb1, if_pos hb0, ← h]
    · exact Option.noConfusion h

theorem sampleEnv_json_no_zero (b : Bytes) (v : Int)
    (h : sampleEnv.unmarshalMinimalConfig b = some v) : (0 : Byte) ∉ b := by
  simp only [sampleEnv, sampleUnmarshalMinimalConfig] at h
  split at h
  · rename_i hb; rw [hb]; decide
  · split at h
    · rename_i hb; rw [hb]; decide
    · split at h
      · rename_i hb; rw [hb]; decide
      · exact Option.noConfusion h

/-- The sample request for a package that unseals runs through to the reboot and
leaves the digest, the config and a zero byte in the region. -/
theorem sample_kexec_run (config : Bytes)
    (hsize : ((sampleEnvelope sampleKernel config).length : Int) ≤ 128 * 1048576)
    (hu : Unseal sampleEnv 1 sampleKey (sampleEnvelope sampleKernel config) ""
      = .ok { Kernel := sampleKernel, Config := config })
    (hfit : 32 + config.length + 1 ≤ OCRAM_END - OCRAM_START) :
    ∃ run, sampleServer.kexec sampleEnv (sampleRequest sampleKernel config) sampleSys 1
        = some run ∧ run.ending = .rebooted ∧
      run.devMem = { zeroDevMem with ocram := sampleEnv.sha256 config ++ config
        ++ 0 :: zeroDevMem.ocram.drop (32 + config.length + 1) } := by
  have htake : (sampleRequest sampleKernel config).Body.take
      (sampleRequest sampleKernel config).ContentLength.toNat
      = sampleEnvelope sampleKernel config := by
    show (sampleEnvelope sampleKernel config).take
      ((sampleEnvelope sampleKernel config).length : Int).toNat = _
    rw [Int.toNat_ofNat, List.take_length]
  exact kexec_success sampleEnv sampleServer (sampleRequest sampleKernel config) sampleSys 1 2
    { Kernel := sampleKernel, Config := config } _ rfl rfl hsize (Int.natCast_nonneg _)
    (by show ((sampleEnvelope sampleKernel config).length : Int).toNat ≤ _
        rw [Int.toNat_ofNat]; exact le_refl _)
    (by rw [htake]; exact hu) rfl rfl
    (writeConfigToOcram_eq sampleEnv zeroDevMem config rfl rfl zeroDevMem_length hfit)
    (List.cons_ne_nil _ _) rfl rfl

set_option maxRecDepth 100000 in
/-- Witness for C8: the sample package with config `{"version":1}` sent to a
server that runs version 1. -/
theorem kexec_hop_version_monotonic_witness :
    ∃ run, sampleServer.kexec sampleEnv (sampleRequest sampleKernel configV1) sampleSys 1
        = some run ∧ run.ending = .rebooted ∧
      ∃ (pkg : UnsealedPackage) (v : Int), (run.devMem.ocram.drop 32).take pkg.Config.length = pkg.Config ∧
        sampleEnv.unmarshalMinimalConfig pkg.Config = some v ∧ sampleServer.Version ≤ v ∧
        (∀ cfg, sampleEnv.unmarshalInitConfig pkg.Config = some cfg →
          cfg.Version = v ∧ sampleServer.Version ≤ cfg.Version) := by
  obtain ⟨run, hrun, hok, -⟩ := sample_kexec_run configV1 (by decide) (by decide) (by decide)
  obtain ⟨pkg, v, -, -, h1, h2, h3, -, h4⟩ :=
    kexec_hop_version_monotonic sampleEnv sampleServer (sampleRequest sampleKernel configV1)
      sampleSys 1 run sampleEnv_json_agree sampleEnv_json_no_zero zeroDevMem_length hrun hok
  exact ⟨run, hrun, hok, pkg, v, h1, h2, h3, h4⟩

set_option maxRecDepth 100000 in
/-- Counterexample to C8 as stated: the package whose config is
`{"version":5,"hostname":7}` unseals on a server that runs version 1 (the
`minimalConfig` parse reads version 5), the request runs through to the reboot
and the region holds exactly those config bytes, but the `InitConfig` parse of
the next boot's `loadConfig` rejects them, so the next boot decodes no version
at all and exits. -/
theorem kexec_hop_parse_rejected :
    ∃ run, sampleServer.kexec sampleEnv (sampleRequest sampleKernel configBadHostname)
        sampleSys 1 = some run ∧ run.ending = .rebooted ∧
      (run.devMem.ocram.drop 32).take configBadHostname.length = configBadHostname ∧
      sampleEnv.unmarshalMinimalConfig configBadHostname = some 5 ∧
      sampleEnv.unmarshalInitConfig configBadHostname = none ∧
      ∀ gs0, loadConfig sampleEnv none run.devMem gs0 = none := by
  obtain ⟨run, hrun, hok, hmem⟩ :=
    sample_kexec_run configBadHostname (by decide) (by decide) (by decide)
  have hlen' := written_length sampleEnv zeroDevMem configBadHostname zeroDevMem_length
    (by decide)
  have hnone : sampleEnv.unmarshalInitConfig configBadHostname = none := by decide
  refine ⟨run, hrun, hok, ?_, by decide, by decide, ?_⟩
  · rw [hmem]
    show ((sampleEnv.sha256 configBadHostname ++ configBadHostname
        ++ 0 :: zeroDevMem.ocram.drop (32 + configBadHostname.length + 1)).drop 32).take
          configBadHostname.length = configBadHostname
    rw [List.append_assoc, List.drop_left' (sampleEnv.sha256_length _), List.take_left]
  · intro gs0
    rw [hmem, loadConfig_of_stripe sampleEnv _ configBadHostname
      (zeroDevMem.ocram.drop (32 + configBadHostname.length + 1)) gs0 rfl rfl hlen' rfl
      (by decide), hnone]
    rfl


/-! ## C11: the destructive dump -/

/-- C11: on a `/dev/mem` that opens and maps, for every content `R` of the region
`dump_and_erase` returns a buffer equal to `R`, of the region's length, and
leaves the region with the same length and every byte zero. -/
theorem dump_and_erase_snapshot (m : DevMem) (hopen : m.openOk = true)
    (hmmap : m.mmapOk = true) (hlen : m.ocram.length = OCRAM_END - OCRAM_START) :
    ∃ snapshot m', dumpAndEraseOcram m = some (snapshot, m') ∧
      snapshot = m.ocram ∧ snapshot.length = OCRAM_END - OCRAM_START ∧
      m'.ocram.length = OCRAM_END - OCRAM_START ∧ (∀ b ∈ m'.ocram, b = 0) ∧
      m'.ocram = List.replicate (OCRAM_END - OCRAM_START) 0 :=
  ⟨_, _, dumpAndEraseOcram_eq m hopen hmmap hlen, rfl, hlen, List.length_replicate _ _,
    fun _ hb => (List.mem_replicate.mp hb).2, rfl⟩

/-- Witness for C11: the region that holds a digest and 126944 non-zero bytes. -/
theorem dump_and_erase_snapshot_witness :
    ∃ snapshot m', dumpAndEraseOcram unterminatedDevMem = some (snapshot, m') ∧
      snapshot = unterminatedDevMem.ocram ∧ snapshot.length = OCRAM_END - OCRAM_START ∧
      m'.ocram.length = OCRAM_END - OCRAM_START ∧ (∀ b ∈ m'.ocram, b = 0) ∧
      m'.ocram = List.replicate (OCRAM_END - OCRAM_START) 0 :=
  dump_and_erase_snapshot unterminatedDevMem rfl rfl unterminatedDevMem_length

/-! ## C12: one generation -/

theorem takeWhile_replicate_zero (n : Nat) :
    (List.replicate (n + 1) (0 : Byte)).takeWhile (fun b => b != 0) = [] := by
  rw [List.replicate_succ]
  rfl

/-- Loading an all-zero region: the digest prefix is 32 zero bytes and the config
read is empty. -/
theorem loadConfigFromOcram_zero (E : Env) (m : DevMem) (hopen : m.openOk = true)
    (hmmap : m.mmapOk = true)
    (hm : m.ocram = List.replicate (OCRAM_END - OCRAM_START) 0) :
    loadConfigFromOcram E m
      = some ((if E.sha256 [] = List.replicate 32 0 then (some [], true) else (none, false)),
          { m with ocram := List.replicate (OCRAM_END - OCRAM_START) 0 }) := by
  have hlen : m.ocram.length = OCRAM_END - OCRAM_START := by
    rw [hm, List.length_replicate]
  have hsplit : m.ocram = List.replicate 32 0 ++ [] ++ 0 :: List.replicate 126943 0 := by
    rw [hm, regionLen_eq, List.append_nil, ← List.replicate_succ, ← List.replicate_add]
  exact loadConfigFromOcram_stripe E m (List.replicate 32 0) [] (List.replicate 126943 0)
    hopen hmmap hlen hsplit (List.length_replicate _ _) (List.not_mem_nil _)

/-- C12: on a `/dev/mem` that opens and maps, and given that SHA-256 of the empty
string is not 32 zero bytes, for every region content one `load_config` call
(whatever it returned) leaves an all-zero region, and a second `load_config`
call with no write in between returns `(nil, false)`. -/
theorem one_generation_resident (E : Env) (m : DevMem) (hopen : m.openOk = true)
    (hmmap : m.mmapOk = true) (hlen : m.ocram.length = OCRAM_END - OCRAM_START)
    (hsha : E.sha256 [] ≠ List.replicate 32 0) :
    ∃ r m₁ m₂, loadConfigFromOcram E m = some (r, m₁) ∧
      m₁.ocram = List.replicate (OCRAM_END - OCRAM_START) 0 ∧
      loadConfigFromOcram E m₁ = some ((none, false), m₂) := by
  refine ⟨_, { m with ocram := List.replicate (OCRAM_END - OCRAM_START) 0 },
    { m with ocram := List.replicate (OCRAM_END - OCRAM_START) 0 },
    loadConfigFromOcram_eq E m hopen hmmap hlen, rfl, ?_⟩
  rw [loadConfigFromOcram_zero E
    { m with ocram := List.replicate (OCRAM_END - OCRAM_START) 0 } hopen hmmap rfl,
    if_neg hsha]

/-- Witness for C12: the region that holds the digest of the empty config and no
zero byte after it; the first load returns the empty config, the second fails. -/
theorem one_generation_resident_witness :
    ∃ r m₁ m₂, loadConfigFromOcram sampleEnv unterminatedDevMem = some (r, m₁) ∧
      m₁.ocram = List.replicate (OCRAM_END - OCRAM_START) 0 ∧
      loadConfigFromOcram sampleEnv m₁ = some ((none, false), m₂) :=
  one_generation_resident sampleEnv unterminatedDevMem rfl rfl unterminatedDevMem_length
    (by decide)


/-! ## C13: the size limit of `write_config` -/

/-- C13 (amended): the region is `0x920000 - 0x901000 = 126976` bytes long.
`write_config(C)` fails for size exactly when `32 + len(C) + 1 > 126976`, that is
when `C` has more than 126943 bytes, and then leaves the region unchanged; it
succeeds exactly when `C` has at most 126943 bytes and `/dev/mem` opens and maps
(it also fails, with the region unchanged, when `/dev/mem` cannot be opened or
mapped); and when it succeeds the region holds SHA-256(C) at offsets 0..32, `C`
at offset 32 and a zero byte at offset `32 + len(C)`. -/
theorem write_config_size_limit (E : Env) (m : DevMem) (config : Bytes)
    (hlen : m.ocram.length = OCRAM_END - OCRAM_START) :
    OCRAM_END - OCRAM_START = 126976 ∧
    (32 + config.length + 1 > OCRAM_END - OCRAM_START ↔ 126943 < config.length) ∧
    (126943 < config.length →
      writeConfigToOcram E m config = .error .tooBig ∧ ocramAfterWrite E m config = m) ∧
    ((∃ m', writeConfigToOcram E m config = .ok m')
      ↔ (config.length ≤ 126943 ∧ m.openOk = true ∧ m.mmapOk = true)) ∧
    ((∀ m', writeConfigToOcram E m config ≠ .ok m') → ocramAfterWrite E m config = m) ∧
    (∀ m', writeConfigToOcram E m config = .ok m' →
      m'.ocram.take 32 = E.sha256 config ∧
      (m'.ocram.drop 32).take config.length = config ∧
      m'.ocram.get? (32 + config.length) = some 0 ∧
      m'.ocram.length = OCRAM_END - OCRAM_START) := by
  have hN := regionLen_eq
  have hbig : 126943 < config.length →
      writeConfigToOcram E m config = .error .tooBig := by
    intro h
    have : 32 + config.length + 1 > OCRAM_END - OCRAM_START := by omega
    simp only [writeConfigToOcram, this, if_true]
  have hfail : (∀ m', writeConfigToOcram E m config ≠ .ok m') →
      ocramAfterWrite E m config = m := by
    intro h
    unfold ocramAfterWrite
    cases hw : writeConfigToOcram E m config with
    | error e => rfl
    | ok m' => exact absurd hw (h m')
  have hok : ∀ m', writeConfigToOcram E m config = .ok m' →
      config.length ≤ 126943 ∧ m.openOk = true ∧ m.mmapOk = true := by
    intro m' hw
    have h1 : config.length ≤ 126943 := by
      by_contra hc
      rw [hbig (not_le.mp hc)] at hw
      exact Except.noConfusion hw
    have hfit : ¬ (32 + config.length + 1 > OCRAM_END - OCRAM_START) := by omega
    have h2 : m.openOk = true := by
      by_contra hc
      have hc' : m.openOk = false := by simpa using hc
      simp only [writeConfigToOcram, hfit, hc', if_true, if_false] at hw
      exact Except.noConfusion hw
    have h3 : m.mmapOk = true := by
      by_contra hc
      have hc' : m.mmapOk = false := by simpa using hc
      simp only [writeConfigToOcram, hfit, h2, hc', if_true, if_false,
        Bool.true_eq_false] at hw
      exact Except.noConfusion hw
    exact ⟨h1, h2, h3⟩
  have hbig' : 126943 < config.length → ocramAfterWrite E m config = m := by
    intro h
    apply hfail
    intro m' hw
    rw [hbig h] at hw
    exact Except.noConfusion hw
  refine ⟨hN, by omega, fun h => ⟨hbig h, hbig' h⟩, ⟨fun ⟨m', hw⟩ => hok m' hw,
    fun ⟨h1, h2, h3⟩ => ⟨_, writeConfigToOcram_eq E m config h2 h3 hlen (by omega)⟩⟩,
    hfail, ?_⟩
  intro m' hw
  obtain ⟨h1, h2, h3⟩ := hok m' hw
  rw [writeConfigToOcram_eq E m config h2 h3 hlen (by omega)] at hw
  simp only [Except.ok.injEq] at hw
  subst hw
  have hsl := E.sha256_length config
  refine ⟨?_, ?_, ?_, written_length E m config hlen (by omega)⟩
  · show (E.sha256 config ++ config ++ 0 :: m.ocram.drop (32 + config.length + 1)).take 32 = _
    rw [List.append_assoc]
    exact List.take_left' hsl
  · show ((E.sha256 config ++ config ++ 0 :: m.ocram.drop (32 + config.length + 1)).drop 32).take
      config.length = _
    rw [List.append_assoc, List.drop_left' hsl, List.take_left]
  · show (E.sha256 config ++ config ++ 0 :: m.ocram.drop (32 + config.length + 1)).get?
      (32 + config.length) = some 0
    have hidx : 32 + config.length = (E.sha256 config ++ config).length := by
      rw [List.length_append, hsl]
    rw [hidx, List.get?_eq_getElem?, List.getElem?_append_right (le_refl _), Nat.sub_self]
    exact List.getElem?_cons_zero

/-- Witness for C13: the config `{"version":1}` over a zeroed region. -/
theorem write_config_size_limit_witness :
    (∃ m', writeConfigToOcram sampleEnv zeroDevMem configV1 = .ok m')
      ↔ (configV1.length ≤ 126943 ∧ zeroDevMem.openOk = true ∧ zeroDevMem.mmapOk = true) :=
  (write_config_size_limit sampleEnv zeroDevMem configV1 zeroDevMem_length).2.2.2.1

/-- Counterexample to C13 as stated: the 13-byte config `{"version":1}` satisfies
`32 + 13 + 1 <= 126976`, yet `write_config` fails on a `/dev/mem` that cannot be
opened. -/
theorem write_config_fails_without_devmem :
    ¬ (32 + configV1.length + 1 > OCRAM_END - OCRAM_START) ∧
    writeConfigToOcram sampleEnv closedDevMem configV1 = .error .openFailed := by
  refine ⟨by decide, ?_⟩
  have hfit : ¬ (32 + configV1.length + 1 > OCRAM_END - OCRAM_START) := by decide
  have hopen : closedDevMem.openOk = false := rfl
  simp only [writeConfigToOcram, hfit, hopen, if_true, if_false]


/-! ## C20: the `pkill` loop -/

/-- If `j` is the first index at or after `i` where two consecutive runs fail,
the loop entered at `i` with enough fuel stops after run `j + 1`. -/
theorem pkillLoop_stops (fails : Nat → Bool) :
    ∀ (fuel i j : Nat), i ≤ j → j + 1 ≤ i + fuel →
      (∀ j', i ≤ j' → j' < j → ¬ (fails j' = true ∧ fails (j' + 1) = true)) →
      fails j = true → fails (j + 1) = true →
      pkillLoop fails fuel i = some (j + 2) := by
  intro fuel
  induction fuel with
  | zero => intro i j hij hfuel; omega
  | succ fuel ih =>
    intro i j hij hfuel hleast hj hj1
    unfold pkillLoop
    by_cases hi : fails i = true
    · rw [if_pos hi]
      by_cases hi1 : fails (i + 1) = true
      · rw [if_pos hi1]
        have : i = j := by
          by_contra hne
          exact hleast i (le_refl _) (by omega) ⟨hi, hi1⟩
        rw [this]
      · rw [if_neg hi1]
        have h1 : i ≠ j := fun e => hi1 (by rw [e]; exact hj1)
        have h2 : i + 1 ≠ j := fun e => hi1 (by rw [e]; exact hj)
        exact ih (i + 2) j (by omega) (by omega)
          (fun j' h1' h2' => hleast j' (by omega) h2') hj hj1
    · rw [if_neg hi]
      have h1 : i ≠ j := fun e => hi (by rw [e]; exact hj)
      exact ih (i + 1) j (by omega) (by omega)
        (fun j' h1' h2' => hleast j' (by omega) h2') hj hj1

/-- When no two consecutive runs at or after `i` both fail, no amount of fuel
brings the loop entered at `i` to its `break`. -/
theorem pkillLoop_runs_on (fails : Nat → Bool) :
    ∀ (fuel i : Nat), (∀ j, i ≤ j → ¬ (fails j = true ∧ fails (j + 1) = true)) →
      pkillLoop fails fuel i = none := by
  intro fuel
  induction fuel with
  | zero => intro i _; rfl
  | succ fuel ih =>
    intro i hno
    unfold pkillLoop
    by_cases hi : fails i = true
    · rw [if_pos hi]
      have hi1 : ¬ fails (i + 1) = true := fun h => hno i (le_refl _) ⟨hi, h⟩
      rw [if_neg hi1]
      exact ih (i + 2) fun j hj => hno j (by omega)
    · rw [if_neg hi]
      exact ih (i + 1) fun j hj => hno j (by omega)

/-- When the loop entered at `i` stops after `n` runs, its last two runs both
failed and no earlier pair of consecutive runs from `i` on did. -/
theorem pkillLoop_eq_some (fails : Nat → Bool) :
    ∀ (fuel i n : Nat), pkillLoop fails fuel i = some n →
      ∃ j, i ≤ j ∧ n = j + 2 ∧ fails j = true ∧ fails (j + 1) = true ∧
        ∀ j', i ≤ j' → j' < j → ¬ (fails j' = true ∧ fails (j' + 1) = true) := by
  intro fuel
  induction fuel with
  | zero => intro i n h; exact Option.noConfusion h
  | succ fuel ih =>
    intro i n h
    unfold pkillLoop at h
    by_cases hi : fails i = true
    · rw [if_pos hi] at h
      by_cases hi1 : fails (i + 1) = true
      · rw [if_pos hi1] at h
        simp only [Option.some.injEq] at h
        exact ⟨i, le_refl _, h.symm, hi, hi1, fun j' h1 h2 => by omega⟩
      · rw [if_neg hi1] at h
        obtain ⟨j, hj, hn, hf, hf1, hleast⟩ := ih (i + 2) n h
        refine ⟨j, by omega, hn, hf, hf1, fun j' h1 h2 hp => ?_⟩
        by_cases e : j' = i
        · rw [e] at hp; exact hi1 hp.2
        · by_cases e1 : j' = i + 1
          · rw [e1] at hp; exact hi1 hp.1
          · exact hleast j' (by omega) h2 hp
    · rw [if_neg hi] at h
      obtain ⟨j, hj, hn, hf, hf1, hleast⟩ := ih (i + 1) n h
      refine ⟨j, by omega, hn, hf, hf1, fun j' h1 h2 hp => ?_⟩
      by_cases e : j' = i
      · rw [e] at hp; exact hi hp.1
      · exact hleast j' (by omega) h2 hp

/-- C20: number the runs of `pkill` from 1 and let `fails (k - 1)` tell whether
run `k` fails.  If `k` is the least index such that runs `k` and `k + 1` both
fail, the loop (given `k` iterations or more) makes exactly `k + 1` runs and
stops; whenever it stops, its last two runs both failed, so it never stops
after a failure that is followed by a success; and if no two consecutive runs
both fail it does not stop, whatever the number of iterations allowed. -/
theorem pkill_double_tap (fails : Nat → Bool) :
    (∀ k, 1 ≤ k → fails (k - 1) = true → fails k = true →
      (∀ k', 1 ≤ k' → k' < k → ¬ (fails (k' - 1) = true ∧ fails k' = true)) →
      ∀ fuel, k ≤ fuel → pkillLoop fails fuel 0 = some (k + 1)) ∧
    (∀ fuel n, pkillLoop fails fuel 0 = some n →
      2 ≤ n ∧ fails (n - 2) = true ∧ fails (n - 1) = true ∧
      ∀ k', 1 ≤ k' → k' < n - 1 → ¬ (fails (k' - 1) = true ∧ fails k' = true)) ∧
    ((∀ k, 1 ≤ k → ¬ (fails (k - 1) = true ∧ fails k = true)) →
      ∀ fuel, pkillLoop fails fuel 0 = none) := by
  refine ⟨?_, ?_, ?_⟩
  · intro k hk hf hf1 hleast fuel hfuel
    have h := pkillLoop_stops fails fuel 0 (k - 1) (Nat.zero_le _) (by omega)
      (fun j' _ h2 hp => hleast (j' + 1) (by omega) (by omega) (by simpa using hp)) hf
      (by rw [Nat.sub_add_cancel hk]; exact hf1)
    rw [h]
    congr 1
    omega
  · intro fuel n h
    obtain ⟨j, -, hn, hf, hf1, hleast⟩ := pkillLoop_eq_some fails fuel 0 n h
    subst hn
    refine ⟨by omega, by simpa using hf, by simpa using hf1, fun k' h1 h2 hp => ?_⟩
    refine hleast (k' - 1) (Nat.zero_le _) (by omega) ?_
    rw [Nat.sub_add_cancel h1]
    exact hp
  · intro hno fuel
    exact pkillLoop_runs_on fails fuel 0 fun j _ hp => hno (j + 1) (by omega) (by simpa using hp)

/-- Witness for C20: runs fail, succeed, fail, fail; the loop stops after four runs. -/
theorem pkill_double_tap_witness :
    pkillLoop (fun i => decide (i ≠ 1)) 3 0 = some 4 :=
  (pkill_double_tap (fun i => decide (i ≠ 1))).1 3 (by decide) (by decide) (by decide)
    (fun k' h1 h2 hp => by
      have : k' = 1 ∨ k' = 2 := by omega
      rcases this with e | e <;> subst e <;> revert hp <;> decide)
    3 (le_refl _)


/-! ## The branches of the two handlers -/

/-- Case analysis on a run of `ApiServer.kexec`: a property that holds of the run
of every branch, under the conditions that lead to it, holds of every run. -/
theorem ApiServer.kexec_cases (E : Env) (s : ApiServer) (r : Request) (sys : Sys)
    (fuel : Nat) (P : Run → Prop)
    (hdisabled : s.KexecEnabled = false →
      P { events := [.response 400 "kexec disabled"], ending := .returned,
          devMem := sys.devMem })
    (hlocked : s.KexecEnabled = true → sys.kexecLocked = true →
      P { events := [.tryLock false, .response 409 "kexec already in progress"],
          ending := .returned, devMem := sys.devMem })
    (hbig : s.KexecEnabled = true → sys.kexecLocked = false →
      r.ContentLength > 128 * 1048576 →
      P { events := [.tryLock true, .response 400 "kexec package is too big", .unlock],
          ending := .returned, devMem := sys.devMem })
    (hneg : s.KexecEnabled = true → sys.kexecLocked = false → r.ContentLength < 0 →
      P { events := [.tryLock true, .unlock, .response 500 ""], ending := .panicked,
          devMem := sys.devMem })
    (hshort : s.KexecEnabled = true → sys.kexecLocked = false →
      ¬ r.ContentLength > 128 * 1048576 → ¬ r.ContentLength < 0 →
      r.Body.length < r.ContentLength.toNat →
      P { events := [.tryLock true, .readBody r.Body.length,
                     .response 400 "failed to read request body", .unlock],
          ending := .returned, devMem := sys.devMem })
    (herr : ∀ e, s.KexecEnabled = true → sys.kexecLocked = false →
      ¬ r.ContentLength > 128 * 1048576 → ¬ r.ContentLength < 0 →
      Unseal E s.Version s.KexecEncryptionKey (r.Body.take r.ContentLength.toNat)
        r.ExternalSignature = .err e →
      P { events := [.tryLock true, .readBody r.ContentLength.toNat, .unseal]
            ++ [.response 400 "failed to unseal kexec package", .unlock],
          ending := .returned, devMem := sys.devMem })
    (hpanic : s.KexecEnabled = true → sys.kexecLocked = false →
      Unseal E s.Version s.KexecEncryptionKey (r.Body.take r.ContentLength.toNat)
        r.ExternalSignature = .panic →
      P { events := [.tryLock true, .readBody r.ContentLength.toNat, .unseal]
            ++ [.unlock, .response 500 ""],
          ending := .panicked, devMem := sys.devMem })
    (hblocked : s.KexecEnabled = true → sys.kexecLocked = false →
      s.KexecSshKill = true → sys.sshKillCompletes = false →
      P { events := [.tryLock true, .readBody r.ContentLength.toNat, .unseal] ++ [.sshKill],
          ending := .blocked, devMem := sys.devMem })
    (hwrite : ∀ (pkg : UnsealedPackage) (runs : Nat) (e : OcramError), s.KexecEnabled = true → sys.kexecLocked = false →
      writeConfigToOcram E sys.devMem pkg.Config = .error e →
      P { events := [.tryLock true, .readBody r.ContentLength.toNat, .unseal]
            ++ (if s.KexecSshKill = true then [.sshKill] else [])
            ++ List.replicate runs .pkill
            ++ [.unmount "/vroot/tmp"] ++ s.Disks.map .unmount
            ++ [.writeOcram pkg.Config]
            ++ [.response 400 "failed to write config to ocram", .unlock],
          ending := .returned, devMem := sys.devMem })
    (hempty : ∀ (pkg : UnsealedPackage) (runs : Nat) (devMem : DevMem), s.KexecEnabled = true → sys.kexecLocked = false →
      writeConfigToOcram E sys.devMem pkg.Config = .ok devMem → pkg.Kernel = [] →
      P { events := [.tryLock true, .readBody r.ContentLength.toNat, .unseal]
            ++ (if s.KexecSshKill = true then [.sshKill] else [])
            ++ List.replicate runs .pkill
            ++ [.unmount "/vroot/tmp"] ++ s.Disks.map .unmount
            ++ [.writeOcram pkg.Config]
            ++ [.unlock, .response 500 ""],
          ending := .panicked, devMem := devMem })
    (hload : ∀ (pkg : UnsealedPackage) (runs : Nat) (devMem : DevMem), s.KexecEnabled = true → sys.kexecLocked = false →
      writeConfigToOcram E sys.devMem pkg.Config = .ok devMem → sys.kexecLoadErrno ≠ 0 →
      P { events := [.tryLock true, .readBody r.ContentLength.toNat, .unseal]
            ++ (if s.KexecSshKill = true then [.sshKill] else [])
            ++ List.replicate runs .pkill
            ++ [.unmount "/vroot/tmp"] ++ s.Disks.map .unmount
            ++ [.writeOcram pkg.Config]
            ++ [.kexecLoad pkg.Kernel 0x80000000 0x8000000]
            ++ [.response 400 "failed to load kexec package", .unlock],
          ending := .returned, devMem := devMem })
    (hfatal : ∀ (pkg : UnsealedPackage) (runs : Nat) (devMem : DevMem), s.KexecEnabled = true → sys.kexecLocked = false →
      writeConfigToOcram E sys.devMem pkg.Config = .ok devMem → sys.kexecLoadErrno = 0 →
      sys.rebootErrno ≠ 0 →
      P { events := [.tryLock true, .readBody r.ContentLength.toNat, .unseal]
            ++ (if s.KexecSshKill = true then [.sshKill] else [])
            ++ List.replicate runs .pkill
            ++ [.unmount "/vroot/tmp"] ++ s.Disks.map .unmount
            ++ [.writeOcram pkg.Config]
            ++ [.kexecLoad pkg.Kernel 0x80000000 0x8000000]
            ++ [.response 200 "Rebooting into new kernel\n", .reboot],
          ending := .fatal, devMem := devMem })
    (hreboot : ∀ (pkg : UnsealedPackage) (runs : Nat) (devMem : DevMem), s.KexecEnabled = true → sys.kexecLocked = false →
      writeConfigToOcram E sys.devMem pkg.Config = .ok devMem → sys.kexecLoadErrno = 0 →
      sys.rebootErrno = 0 →
      P { events := [.tryLock true, .readBody r.ContentLength.toNat, .unseal]
            ++ (if s.KexecSshKill = true then [.sshKill] else [])
            ++ List.replicate runs .pkill
            ++ [.unmount "/vroot/tmp"] ++ s.Disks.map .unmount
            ++ [.writeOcram pkg.Config]
            ++ [.kexecLoad pkg.Kernel 0x80000000 0x8000000]
            ++ [.response 200 "Rebooting into new kernel\n", .reboot],
          ending := .rebooted, devMem := devMem }) :
    ∀ run, s.kexec E r sys fuel = some run → P run := by
  intro run hrun
  unfold ApiServer.kexec at hrun
  by_cases h1 : s.KexecEnabled = false
  · rw [if_pos h1] at hrun
    cases hrun
    exact hdisabled h1
  rw [if_neg h1] at hrun
  have h1' : s.KexecEnabled = true := by simpa using h1
  by_cases h2 : sys.kexecLocked = true
  · rw [if_pos h2] at hrun
    cases hrun
    exact hlocked h1' h2
  rw [if_neg h2] at hrun
  have h2' : sys.kexecLocked = false := by simpa using h2
  by_cases h3 : r.ContentLength > 128 * 1048576
  · rw [if_pos h3] at hrun
    cases hrun
    exact hbig h1' h2' h3
  rw [if_neg h3] at hrun
  by_cases h4 : r.ContentLength < 0
  · rw [if_pos h4] at hrun
    cases hrun
    exact hneg h1' h2' h4
  rw [if_neg h4] at hrun
  simp only at hrun
  by_cases h5 : r.Body.length < r.ContentLength.toNat
  · rw [if_pos h5] at hrun
    cases hrun
    exact hshort h1' h2' h3 h4 h5
  rw [if_neg h5] at hrun
  cases hu : Unseal E s.Version s.KexecEncryptionKey (r.Body.take r.ContentLength.toNat)
      r.ExternalSignature with
  | err e =>
    rw [hu] at hrun
    cases hrun
    exact herr e h1' h2' h3 h4 hu
  | panic =>
    rw [hu] at hrun
    cases hrun
    exact hpanic h1' h2' hu
  | ok pkg =>
    rw [hu] at hrun
    simp only at hrun
    by_cases h6 : s.KexecSshKill = true ∧ sys.sshKillCompletes = false
    · rw [if_pos h6] at hrun
      cases hrun
      exact hblocked h1' h2' h6.1 h6.2
    rw [if_neg h6] at hrun
    cases hp : pkillLoop sys.pkillFails fuel 0 with
    | none =>
      rw [hp] at hrun
      exact Option.noConfusion hrun
    | some runs =>
      rw [hp] at hrun
      simp only at hrun
      cases hw : writeConfigToOcram E sys.devMem pkg.Config with
      | error e =>
        rw [hw] at hrun
        cases hrun
        exact hwrite pkg runs e h1' h2' hw
      | ok devMem =>
        rw [hw] at hrun
        simp only at hrun
        by_cases h7 : pkg.Kernel = []
        · rw [if_pos h7] at hrun
          cases hrun
          exact hempty pkg runs devMem h1' h2' hw h7
        rw [if_neg h7] at hrun
        by_cases h8 : sys.kexecLoadErrno ≠ 0
        · rw [if_pos h8] at hrun
          cases hrun
          exact hload pkg runs devMem h1' h2' hw h8
        rw [if_neg h8] at hrun
        have h8' : sys.kexecLoadErrno = 0 := by simpa using h8
        by_cases h9 : sys.rebootErrno ≠ 0
        · rw [if_pos h9] at hrun
          cases hrun
          exact hfatal pkg runs devMem h1' h2' hw h8' h9
        rw [if_neg h9] at hrun
        have h9' : sys.rebootErrno = 0 := by simpa using h9
        cases hrun
        exact hreboot pkg runs devMem h1' h2' hw h8' h9'


/-- Case analysis on a run of the `/emergency-kexec` handler. -/
theorem emergencyKexec_cases (E : Env) (errorText : UnsealError → String) (key : Bytes)
    (r : Request) (sys : Sys) (fuel : Nat) (P : Run → Prop)
    (hlocked : sys.kexecLocked = true →
      P { events := [.tryLock false, .response 429 ""], ending := .returned,
          devMem := sys.devMem })
    (hbig : sys.kexecLocked = false → r.ContentLength > 128 * 1048576 →
      P { events := [.tryLock true, .response 400 "kexec package is too big", .unlock],
          ending := .returned, devMem := sys.devMem })
    (hneg : sys.kexecLocked = false → r.ContentLength < 0 →
      P { events := [.tryLock true, .unlock], ending := .panicked, devMem := sys.devMem })
    (hshort : sys.kexecLocked = false → r.Body.length < r.ContentLength.toNat →
      P { events := [.tryLock true, .readBody r.Body.length, .response 400 "", .unlock],
          ending := .returned, devMem := sys.devMem })
    (herr : ∀ e, sys.kexecLocked = false →
      Unseal E 1 key (r.Body.take r.ContentLength.toNat) r.ExternalSignature = .err e →
      P { events := [.tryLock true, .readBody r.ContentLength.toNat, .unseal]
            ++ [.response 400 ("unseal failed: " ++ errorText e), .unlock],
          ending := .returned, devMem := sys.devMem })
    (hpanic : sys.kexecLocked = false →
      Unseal E 1 key (r.Body.take r.ContentLength.toNat) r.ExternalSignature = .panic →
      P { events := [.tryLock true, .readBody r.ContentLength.toNat, .unseal] ++ [.unlock],
          ending := .panicked, devMem := sys.devMem })
    (hwrite : ∀ (pkg : UnsealedPackage) (runs : Nat) (e : OcramError),
      sys.kexecLocked = false →
      writeConfigToOcram E sys.devMem pkg.Config = .error e →
      P { events := [.tryLock true, .readBody r.ContentLength.toNat, .unseal]
            ++ List.replicate runs .pkill ++ [.unmount "/vroot/tmp"]
            ++ [.writeOcram pkg.Config] ++ [.response 500 "", .unlock],
          ending := .returned, devMem := sys.devMem })
    (hempty : ∀ (pkg : UnsealedPackage) (runs : Nat) (devMem : DevMem),
      sys.kexecLocked = false →
      writeConfigToOcram E sys.devMem pkg.Config = .ok devMem → pkg.Kernel = [] →
      P { events := [.tryLock true, .readBody r.ContentLength.toNat, .unseal]
            ++ List.replicate runs .pkill ++ [.unmount "/vroot/tmp"]
            ++ [.writeOcram pkg.Config] ++ [.unlock],
          ending := .panicked, devMem := devMem })
    (hload : ∀ (pkg : UnsealedPackage) (runs : Nat) (devMem : DevMem),
      sys.kexecLocked = false →
      writeConfigToOcram E sys.devMem pkg.Config = .ok devMem → sys.kexecLoadErrno ≠ 0 →
      P { events := [.tryLock true, .readBody r.ContentLength.toNat, .unseal]
            ++ List.replicate runs .pkill ++ [.unmount "/vroot/tmp"]
            ++ [.writeOcram pkg.Config]
            ++ [.kexecLoad pkg.Kernel 0x80000000 0x8000000]
            ++ [.response 500 "", .unlock],
          ending := .returned, devMem := devMem })
    (hfatal : ∀ (pkg : UnsealedPackage) (runs : Nat) (devMem : DevMem),
      sys.kexecLocked = false →
      writeConfigToOcram E sys.devMem pkg.Config = .ok devMem → sys.kexecLoadErrno = 0 →
      sys.rebootErrno ≠ 0 →
      P { events := [.tryLock true, .readBody r.ContentLength.toNat, .unseal]
            ++ List.replicate runs .pkill ++ [.unmount "/vroot/tmp"]
            ++ [.writeOcram pkg.Config]
            ++ [.kexecLoad pkg.Kernel 0x80000000 0x8000000] ++ [.reboot],
          ending := .fatal, devMem := devMem })
    (hreboot : ∀ (pkg : UnsealedPackage) (runs : Nat) (devMem : DevMem),
      sys.kexecLocked = false →
      writeConfigToOcram E sys.devMem pkg.Config = .ok devMem → sys.kexecLoadErrno = 0 →
      sys.rebootErrno = 0 →
      P { events := [.tryLock true, .readBody r.ContentLength.toNat, .unseal]
            ++ List.replicate runs .pkill ++ [.unmount "/vroot/tmp"]
            ++ [.writeOcram pkg.Config]
            ++ [.kexecLoad pkg.Kernel 0x80000000 0x8000000] ++ [.reboot],
          ending := .rebooted, devMem := devMem }) :
    ∀ run, emergencyKexec E errorText key r sys fuel = some run → P run := by
  intro run hrun
  unfold emergencyKexec at hrun
  by_cases h2 : sys.kexecLocked = true
  · rw [if_pos h2] at hrun
    cases hrun
    exact hlocked h2
  rw [if_neg h2] at hrun
  have h2' : sys.kexecLocked = false := by simpa using h2
  by_cases h3 : r.ContentLength > 128 * 1048576
  · rw [if_pos h3] at hrun
    cases hrun
    exact hbig h2' h3
  rw [if_neg h3] at hrun
  by_cases h4 : r.ContentLength < 0
  · rw [if_pos h4] at hrun
    cases hrun
    exact hneg h2' h4
  rw [if_neg h4] at hrun
  simp only at hrun
  by_cases h5 : r.Body.length < r.ContentLength.toNat
  · rw [if_pos h5] at hrun
    cases hrun
    exact hshort h2' h5
  rw [if_neg h5] at hrun
  cases hu : Unseal E 1 key (r.Body.take r.ContentLength.toNat) r.ExternalSignature with
  | err e =>
    rw [hu] at hrun
    cases hrun
    exact herr e h2' hu
  | panic =>
    rw [hu] at hrun
    cases hrun
    exact hpanic h2' hu
  | ok pkg =>
    rw [hu] at hrun
    simp only at hrun
    cases hp : pkillLoop sys.pkillFails fuel 0 with
    | none =>
      rw [hp] at hrun
      exact Option.noConfusion hrun
    | some runs =>
      rw [hp] at hrun
      simp only at hrun
      cases hw : writeConfigToOcram E sys.devMem pkg.Config with
      | error e =>
        rw [hw] at hrun
        cases hrun
        exact hwrite pkg runs e h2' hw
      | ok devMem =>
        rw [hw] at hrun
        simp only at hrun
        by_cases h7 : pkg.Kernel = []
        · rw [if_pos h7] at hrun
          cases hrun
          exact hempty pkg runs devMem h2' hw h7
        rw [if_neg h7] at hrun
        by_cases h8 : sys.kexecLoadErrno ≠ 0
        · rw [if_pos h8] at hrun
          cases hrun
          exact hload pkg runs devMem h2' hw h8
        rw [if_neg h8] at hrun
        have h8' : sys.kexecLoadErrno = 0 := by simpa using h8
        by_cases h9 : sys.rebootErrno ≠ 0
        · rw [if_pos h9] at hrun
          cases hrun
          exact hfatal pkg runs devMem h2' hw h8' h9
        rw [if_neg h9] at hrun
        have h9' : sys.rebootErrno = 0 := by simpa using h9
        cases hrun
        exact hreboot pkg runs devMem h2' hw h8' h9'

/-! ## Reading traces -/

theorem lockAfter_append (held : Bool) (a b : List Event) :
    lockAfter held (a ++ b) = lockAfter (lockAfter held a) b := by
  simp [lockAfter, List.foldl_append]

theorem lockAfter_cons (held : Bool) (e : Event) (es : List Event) :
    lockAfter held (e :: es) = lockAfter (lockStep held e) es := rfl

theorem lockAfter_nil (held : Bool) : lockAfter held [] = held := rfl

theorem lockAfter_pkill (held : Bool) (n : Nat) :
    lockAfter held (List.replicate n .pkill) = held := by
  induction n with
  | zero => rfl
  | succ n ih => rw [List.replicate_succ, lockAfter_cons]; exact ih

theorem lockAfter_unmount (held : Bool) (disks : List String) :
    lockAfter held (disks.map .unmount) = held := by
  induction disks with
  | nil => rfl
  | cons d ds ih => rw [List.map_cons, lockAfter_cons]; exact ih

theorem teardownOrdered_pkill (w l : Bool) (n : Nat) (es : List Event) :
    teardownOrdered w l (List.replicate n .pkill ++ es) = teardownOrdered w l es := by
  induction n with
  | zero => rfl
  | succ n ih =>
    rw [List.replicate_succ, List.cons_append]
    simp only [teardownOrdered]
    exact ih

theorem teardownOrdered_unmount (w l : Bool) (disks : List String) (es : List Event) :
    teardownOrdered w l (disks.map .unmount ++ es) = teardownOrdered w l es := by
  induction disks with
  | nil => rfl
  | cons d ds ih =>
    rw [List.map_cons, List.cons_append]
    simp only [teardownOrdered]
    exact ih

/-- In a trace that passes the check, a `kexec_load` is preceded by an SRAM write. -/
theorem teardownOrdered_load (p q : List Event) (kernel : Bytes) (d c : Nat) :
    ∀ (w l : Bool), teardownOrdered w l (p ++ .kexecLoad kernel d c :: q) = true →
      w = true ∨ ∃ config, Event.writeOcram config ∈ p := by
  induction p with
  | nil =>
    intro w l h
    simp only [List.nil_append, teardownOrdered, Bool.and_eq_true] at h
    exact Or.inl h.1
  | cons e es ih =>
    intro w l h
    cases e with
    | writeOcram config => exact Or.inr ⟨config, by simp⟩
    | kexecLoad k d' c' =>
      simp only [List.cons_append, teardownOrdered, Bool.and_eq_true] at h
      exact Or.inl h.1
    | reboot =>
      simp only [List.cons_append, teardownOrdered, Bool.and_eq_true] at h
      rcases ih w l h.2 with h' | ⟨config, h'⟩
      · exact Or.inl h'
      · exact Or.inr ⟨config, by simp [h']⟩
    | _ =>
      simp only [List.cons_append, teardownOrdered] at h
      rcases ih w l h with h' | ⟨config, h'⟩
      · exact Or.inl h'
      · exact Or.inr ⟨config, by simp [h']⟩

/-- In a trace that passes the check, a `reboot` is preceded by a `kexec_load`. -/
theorem teardownOrdered_reboot (p q : List Event) :
    ∀ (w l : Bool), teardownOrdered w l (p ++ .reboot :: q) = true →
      l = true ∨ ∃ kernel d c, Event.kexecLoad kernel d c ∈ p := by
  induction p with
  | nil =>
    intro w l h
    simp only [List.nil_append, teardownOrdered, Bool.and_eq_true] at h
    exact Or.inl h.1
  | cons e es ih =>
    intro w l h
    cases e with
    | kexecLoad k d' c' => exact Or.inr ⟨k, d', c', by simp⟩
    | writeOcram config =>
      simp only [List.cons_append, teardownOrdered] at h
      rcases ih true l h with h' | ⟨k, d, c, h'⟩
      · exact Or.inl h'
      · exact Or.inr ⟨k, d, c, by simp [h']⟩
    | reboot =>
      simp only [List.cons_append, teardownOrdered, Bool.and_eq_true] at h
      exact Or.inl h.1
    | _ =>
      simp only [List.cons_append, teardownOrdered] at h
      rcases ih w l h with h' | ⟨k, d, c, h'⟩
      · exact Or.inl h'
      · exact Or.inr ⟨k, d, c, by simp [h']⟩


/-! ## C15: the gate checks of `/kexec/trigger` -/

/-- C15: (1) on a server with kexec disabled the handler answers 400 and does
nothing else, so it does not try the mutex; (2) on an enabled server with the
mutex free, a `Content-Length` above 134217728 is answered 400 between taking
and releasing the mutex, with no body read and no `Unseal`; (3) a
`Content-Length` of exactly 134217728 is not answered "too big": the handler
goes on to read the body. -/
theorem kexec_gate_checks (E : Env) (s : ApiServer) (r : Request) (sys : Sys) (fuel : Nat) :
    (s.KexecEnabled = false →
      s.kexec E r sys fuel
        = some { events := [.response 400 "kexec disabled"], ending := .returned,
                 devMem := sys.devMem }) ∧
    (s.KexecEnabled = true → sys.kexecLocked = false → r.ContentLength > 134217728 →
      s.kexec E r sys fuel
        = some { events := [.tryLock true, .response 400 "kexec package is too big",
                            .unlock],
                 ending := .returned, devMem := sys.devMem }) ∧
    (s.KexecEnabled = true → sys.kexecLocked = false → r.ContentLength = 134217728 →
      ∀ run, s.kexec E r sys fuel = some run →
        Event.response 400 "kexec package is too big" ∉ run.events ∧
        ∃ k rest, run.events = .tryLock true :: .readBody k :: rest) := by
  refine ⟨fun h => ?_, fun h1 h2 h3 => ?_, fun h1 h2 h3 => ?_⟩
  · unfold ApiServer.kexec
    rw [if_pos h]
  · unfold ApiServer.kexec
    have h3' : r.ContentLength > 128 * 1048576 := by omega
    rw [if_neg (by simp [h1]), if_neg (by simp [h2]), if_pos h3']
  · have hb : ¬ r.ContentLength > 128 * 1048576 := by omega
    have hn : ¬ r.ContentLength < 0 := by omega
    apply ApiServer.kexec_cases E s r sys fuel
    · intro h; rw [h1] at h; exact Bool.noConfusion h
    · intro _ h; rw [h2] at h; exact Bool.noConfusion h
    · intro _ _ h; exact absurd h hb
    · intro _ _ h; exact absurd h hn
    · intro _ _ _ _ _
      exact ⟨by simp, _, _, rfl⟩
    · intro e _ _ _ _ _
      exact ⟨by simp, _, _, rfl⟩
    · intro _ _ _
      exact ⟨by simp, _, _, rfl⟩
    · intro _ _ _ _
      exact ⟨by simp, _, _, rfl⟩
    all_goals
      intros
      refine ⟨?_, _, _, rfl⟩
      by_cases hs : s.KexecSshKill = true <;> simp [hs]

/-- Witness for C15: a `Content-Length` of 134217729 on the sample server. -/
theorem kexec_gate_checks_witness :
    sampleServer.kexec sampleEnv
        { ContentLength := 134217729, Body := [], ExternalSignature := "" } sampleSys 0
      = some { events := [.tryLock true, .response 400 "kexec package is too big", .unlock],
               ending := .returned, devMem := sampleSys.devMem } :=
  (kexec_gate_checks sampleEnv sampleServer
    { ContentLength := 134217729, Body := [], ExternalSignature := "" } sampleSys 0).2.1
    rfl rfl (by decide)

/-! ## C18: the answer to a failed unseal -/

/-- What the handler does when `Unseal` returns an error. -/
theorem kexec_unseal_error (E : Env) (s : ApiServer) (r : Request) (sys : Sys) (fuel : Nat)
    (e : UnsealError) (h1 : s.KexecEnabled = true) (h2 : sys.kexecLocked = false)
    (h3 : r.ContentLength ≤ 128 * 1048576) (h4 : 0 ≤ r.ContentLength)
    (h5 : r.ContentLength.toNat ≤ r.Body.length)
    (hu : Unseal E s.Version s.KexecEncryptionKey (r.Body.take r.ContentLength.toNat)
        r.ExternalSignature = .err e) :
    s.kexec E r sys fuel
      = some { events := [.tryLock true, .readBody r.ContentLength.toNat, .unseal,
                          .response 400 "failed to unseal kexec package", .unlock],
               ending := .returned, devMem := sys.devMem } := by
  unfold ApiServer.kexec
  simp only [h1, h2, not_lt.mpr h3, not_lt.mpr h4, not_lt.mpr h5, hu,
    Bool.true_eq_false, Bool.false_eq_true, if_false, gt_iff_lt]
  rfl

/-- C18: for any two requests (bodies and external-signature headers) that reach
`Unseal` and on which `Unseal` returns an error, whichever errors these are, the
handler answers both alike: one response, status 400 with the message
`failed to unseal kexec package`; no teardown step is in either trace and the
region is untouched. -/
theorem terse_unseal_failure (E : Env) (s : ApiServer) (sys : Sys) (fuel : Nat)
    (r₁ r₂ : Request) (e₁ e₂ : UnsealError)
    (h1 : s.KexecEnabled = true) (h2 : sys.kexecLocked = false)
    (hsize₁ : r₁.ContentLength ≤ 128 * 1048576) (hpos₁ : 0 ≤ r₁.ContentLength)
    (hbody₁ : r₁.ContentLength.toNat ≤ r₁.Body.length)
    (hsize₂ : r₂.ContentLength ≤ 128 * 1048576) (hpos₂ : 0 ≤ r₂.ContentLength)
    (hbody₂ : r₂.ContentLength.toNat ≤ r₂.Body.length)
    (hu₁ : Unseal E s.Version s.KexecEncryptionKey (r₁.Body.take r₁.ContentLength.toNat)
        r₁.ExternalSignature = .err e₁)
    (hu₂ : Unseal E s.Version s.KexecEncryptionKey (r₂.Body.take r₂.ContentLength.toNat)
        r₂.ExternalSignature = .err e₂) :
    ∃ run₁ run₂, s.kexec E r₁ sys fuel = some run₁ ∧ s.kexec E r₂ sys fuel = some run₂ ∧
      responses run₁.events = [(400, "failed to unseal kexec package")] ∧
      responses run₂.events = responses run₁.events ∧
      (∀ ev ∈ run₁.events, ev.isTeardown = false) ∧
      (∀ ev ∈ run₂.events, ev.isTeardown = false) ∧
      run₁.devMem = sys.devMem ∧ run₂.devMem = sys.devMem ∧
      run₁.ending = .returned ∧ run₂.ending = .returned := by
  refine ⟨_, _, kexec_unseal_error E s r₁ sys fuel e₁ h1 h2 hsize₁ hpos₁ hbody₁ hu₁,
    kexec_unseal_error E s r₂ sys fuel e₂ h1 h2 hsize₂ hpos₂ hbody₂ hu₂,
    rfl, rfl, ?_, ?_, rfl, rfl, rfl, rfl⟩
  · intro ev hev
    simp only [List.mem_cons, List.mem_singleton, List.not_mem_nil, or_false] at hev
    rcases hev with h | h | h | h | h <;> subst h <;> rfl
  · intro ev hev
    simp only [List.mem_cons, List.mem_singleton, List.not_mem_nil, or_false] at hev
    rcases hev with h | h | h | h | h <;> subst h <;> rfl


set_option maxRecDepth 100000 in
/-- Witness for C18: a package that rolls back and an envelope that fails
AEAD-open get the same answer. -/
theorem terse_unseal_failure_witness :
    ∃ run₁ run₂, sampleServer.kexec sampleEnv (sampleRequest sampleKernel configV0)
        sampleSys 1 = some run₁ ∧
      sampleServer.kexec sampleEnv tamperedRequest sampleSys 1 = some run₂ ∧
      responses run₁.events = [(400, "failed to unseal kexec package")] ∧
      responses run₂.events = responses run₁.events :=
  let ⟨run₁, run₂, h1, h2, h3, h4, _⟩ :=
    terse_unseal_failure sampleEnv sampleServer sampleSys 1
      (sampleRequest sampleKernel configV0) tamperedRequest (.rollback 1 0) .aeadOpen
      rfl rfl (by decide) (by decide) (by decide) (by decide) (by decide) (by decide)
      (by decide) (by decide)
  ⟨run₁, run₂, h1, h2, h3, h4⟩

/-! ## C16: mutual exclusion -/

/-- The gate keeps at most one request past it, and the mutex is held exactly
while one is. -/
theorem gateStep_invariant (st : GateState) (i : Nat)
    (huniq : ∀ a b, st.phase a = .pastGate → st.phase b = .pastGate → a = b)
    (hheld : ∀ a, st.phase a = .pastGate → st.locked = true)
    (hfree : st.locked = true → ∃ a, st.phase a = .pastGate) :
    (∀ a b, (gateStep st i).phase a = .pastGate → (gateStep st i).phase b = .pastGate →
      a = b) ∧
    (∀ a, (gateStep st i).phase a = .pastGate → (gateStep st i).locked = true) ∧
    ((gateStep st i).locked = true → ∃ a, (gateStep st i).phase a = .pastGate) := by
  unfold gateStep
  cases hi : st.phase i with
  | arrived =>
    simp only
    by_cases hl : st.locked = true
    · rw [if_pos hl]
      have hup : ∀ a, Function.update st.phase i GatePhase.rejected a = .pastGate →
          st.phase a = .pastGate := by
        intro a ha
        by_cases e : a = i
        · rw [e, Function.update_same] at ha; exact GatePhase.noConfusion ha
        · rwa [Function.update_noteq e] at ha
      refine ⟨fun a b ha hb => huniq a b (hup a ha) (hup b hb), fun a ha => hl, fun _ => ?_⟩
      obtain ⟨a, ha⟩ := hfree hl
      refine ⟨a, ?_⟩
      have e : a ≠ i := fun e => by rw [e, hi] at ha; exact GatePhase.noConfusion ha
      show Function.update st.phase i GatePhase.rejected a = .pastGate
      rwa [Function.update_noteq e]
    · rw [if_neg hl]
      have hnone : ∀ a, st.phase a ≠ .pastGate := fun a ha => hl (hheld a ha)
      have hup : ∀ a, Function.update st.phase i GatePhase.pastGate a = .pastGate →
          a = i := by
        intro a ha
        by_contra e
        rw [Function.update_noteq e] at ha
        exact hnone a ha
      exact ⟨fun a b ha hb => by rw [hup a ha, hup b hb], fun _ _ => rfl,
        fun _ => ⟨i, Function.update_same _ _ _⟩⟩
  | pastGate =>
    simp only
    have hup : ∀ a, Function.update st.phase i GatePhase.returned a ≠ .pastGate := by
      intro a ha
      by_cases e : a = i
      · rw [e, Function.update_same] at ha; exact GatePhase.noConfusion ha
      · rw [Function.update_noteq e] at ha
        exact e (huniq a i ha hi)
    exact ⟨fun a _ ha _ => absurd ha (hup a), fun a ha => absurd ha (hup a),
      fun h => Bool.noConfusion h⟩
  | rejected => exact ⟨huniq, hheld, hfree⟩
  | returned => exact ⟨huniq, hheld, hfree⟩

theorem gate_invariant (schedule : List Nat) :
    ∀ st : GateState,
      (∀ a b, st.phase a = .pastGate → st.phase b = .pastGate → a = b) →
      (∀ a, st.phase a = .pastGate → st.locked = true) →
      (st.locked = true → ∃ a, st.phase a = .pastGate) →
      (∀ a b, (schedule.foldl gateStep st).phase a = .pastGate →
        (schedule.foldl gateStep st).phase b = .pastGate → a = b) ∧
      (∀ a, (schedule.foldl gateStep st).phase a = .pastGate →
        (schedule.foldl gateStep st).locked = true) ∧
      ((schedule.foldl gateStep st).locked = true →
        ∃ a, (schedule.foldl gateStep st).phase a = .pastGate) := by
  induction schedule with
  | nil => intro st h1 h2 h3; exact ⟨h1, h2, h3⟩
  | cons i rest ih =>
    intro st h1 h2 h3
    obtain ⟨g1, g2, g3⟩ := gateStep_invariant st i h1 h2 h3
    exact ih (gateStep st i) g1 g2 g3

/-- C16: on a kexec-enabled server, a request that finds the mutex held is
answered 409 and its trace holds nothing but the failed `TryLock` and that
answer (no body read, no `Unseal`, no teardown step, region untouched), and the
mutex is still held afterwards; and under every interleaving of the gate steps
of any number of requests, starting with the mutex free, at most one request is
past the gate, the mutex being held exactly while one is. -/
theorem kexec_mutual_exclusion (E : Env) (s : ApiServer) (r : Request) (sys : Sys)
    (fuel : Nat) (schedule : List Nat) :
    (s.KexecEnabled = true → sys.kexecLocked = true →
      s.kexec E r sys fuel
        = some { events := [.tryLock false, .response 409 "kexec already in progress"],
                 ending := .returned, devMem := sys.devMem } ∧
      lockAfter sys.kexecLocked
        [.tryLock false, .response 409 "kexec already in progress"] = true) ∧
    (∀ a b, (schedule.foldl gateStep GateState.init).phase a = .pastGate →
      (schedule.foldl gateStep GateState.init).phase b = .pastGate → a = b) ∧
    (∀ a, (schedule.foldl gateStep GateState.init).phase a = .pastGate →
      (schedule.foldl gateStep GateState.init).locked = true) ∧
    ((schedule.foldl gateStep GateState.init).locked = true →
      ∃ a, (schedule.foldl gateStep GateState.init).phase a = .pastGate) := by
  refine ⟨fun h1 h2 => ⟨?_, ?_⟩, gate_invariant schedule GateState.init
    (fun a _ ha => GatePhase.noConfusion ha) (fun a ha => GatePhase.noConfusion ha)
    (fun h => Bool.noConfusion h)⟩
  · unfold ApiServer.kexec
    rw [if_neg (by simp [h1]), if_pos h2]
  · rw [h2]; rfl

/-- Witness for C16: the sample request against a held mutex. -/
theorem kexec_mutual_exclusion_witness :
    sampleServer.kexec sampleEnv (sampleRequest sampleKernel configV1)
        { sampleSys with kexecLocked := true } 1
      = some { events := [.tryLock false, .response 409 "kexec already in progress"],
               ending := .returned, devMem := sampleSys.devMem } :=
  ((kexec_mutual_exclusion sampleEnv sampleServer (sampleRequest sampleKernel configV1)
    { sampleSys with kexecLocked := true } 1 []).1 rfl rfl).1


/-! ## C17: the mutex after an abort -/

/-- With the mutex free at the start, the handler never answers 409. -/
theorem kexec_no_conflict (E : Env) (s : ApiServer) (r : Request) (sys : Sys) (fuel : Nat)
    (hfree : sys.kexecLocked = false) :
    ∀ run, s.kexec E r sys fuel = some run → ∀ msg, Event.response 409 msg ∉ run.events := by
  apply ApiServer.kexec_cases E s r sys fuel
  · intro _ msg; simp
  · intro _ h; rw [hfree] at h; exact Bool.noConfusion h
  · intro _ _ _ msg; simp
  · intro _ _ _ msg; simp
  · intro _ _ _ _ _ msg; simp
  · intro e _ _ _ _ _ msg; simp
  · intro _ _ _ msg; simp
  · intro _ _ _ _ msg; simp
  all_goals
    intros
    by_cases hs : s.KexecSshKill = true <;> simp [hs]

/-- C17: every run of the handler that took the mutex and then returned or
panicked (package too big, negative length, body read failure, `Unseal` error
or panic, SRAM write failure, empty kernel, `kexec_load` failure) leaves the
mutex free; and a request handled with the mutex free is not answered 409. -/
theorem kexec_mutex_released (E : Env) (s : ApiServer) (r : Request) (sys : Sys)
    (fuel : Nat) (run : Run) (hrun : s.kexec E r sys fuel = some run)
    (hlock : Event.tryLock true ∈ run.events)
    (hend : run.ending = .returned ∨ run.ending = .panicked) :
    lockAfter sys.kexecLocked run.events = false ∧
    ∀ (r' : Request) (sys' : Sys) (fuel' : Nat) (run' : Run),
      sys'.kexecLocked = lockAfter sys.kexecLocked run.events →
      s.kexec E r' sys' fuel' = some run' → ∀ msg, Event.response 409 msg ∉ run'.events := by
  have hfirst : lockAfter sys.kexecLocked run.events = false := by
    revert hlock hend
    revert run
    apply ApiServer.kexec_cases E s r sys fuel
    · intro _ hlock; simp at hlock
    · intro _ _ hlock; simp at hlock
    · intro _ _ _ _ _; rfl
    · intro _ _ _ _ _; rfl
    · intro _ _ _ _ _ _ _; rfl
    · intro e _ _ _ _ _ _ _; rfl
    · intro _ _ _ _ _; rfl
    · intro _ _ _ _ _ hend
      rcases hend with h | h <;> exact Ending.noConfusion h
    · intro pkg runs e _ _ _ _ _
      simp only [lockAfter_append, lockAfter_pkill, lockAfter_unmount]
      rfl
    · intro pkg runs devMem _ _ _ _ _ _
      simp only [lockAfter_append, lockAfter_pkill, lockAfter_unmount]
      rfl
    · intro pkg runs devMem _ _ _ _ _ _
      simp only [lockAfter_append, lockAfter_pkill, lockAfter_unmount]
      rfl
    · intro pkg runs devMem _ _ _ _ _ _ hend
      rcases hend with h | h <;> exact Ending.noConfusion h
    · intro pkg runs devMem _ _ _ _ _ _ hend
      rcases hend with h | h <;> exact Ending.noConfusion h
  refine ⟨hfirst, fun r' sys' fuel' run' hsys hrun' => ?_⟩
  exact kexec_no_conflict E s r' sys' fuel' (by rw [hsys, hfirst]) run' hrun'

set_option maxRecDepth 100000 in
/-- Witness for C17: the sample request whose package rolls back. -/
theorem kexec_mutex_released_witness :
    lockAfter sampleSys.kexecLocked
      [.tryLock true,
       .readBody (sampleRequest sampleKernel configV0).ContentLength.toNat, .unseal,
       .response 400 "failed to unseal kexec package", .unlock] = false :=
  (kexec_mutex_released sampleEnv sampleServer (sampleRequest sampleKernel configV0)
    sampleSys 1
    { events := [.tryLock true,
        .readBody (sampleRequest sampleKernel configV0).ContentLength.toNat, .unseal,
        .response 400 "failed to unseal kexec package", .unlock],
      ending := .returned, devMem := sampleSys.devMem }
    (kexec_unseal_error sampleEnv sampleServer (sampleRequest sampleKernel configV0)
      sampleSys 1 (.rollback 1 0) rfl rfl (by decide) (by decide) (by decide) (by decide))
    (by simp) (Or.inl rfl)).1


/-! ## C19: the order of the teardown -/

/-- A trace that passes the left-to-right check has its `kexec_load` after an
SRAM write and its `reboot` after a `kexec_load`. -/
theorem ordered_of_check (events : List Event)
    (h : teardownOrdered false false events = true) :
    (∀ p q kernel d c, events = p ++ Event.kexecLoad kernel d c :: q →
      ∃ config, Event.writeOcram config ∈ p) ∧
    (∀ p q, events = p ++ Event.reboot :: q →
      ∃ kernel d c, Event.kexecLoad kernel d c ∈ p) := by
  constructor
  · intro p q kernel d c he
    rw [he] at h
    rcases teardownOrdered_load p q kernel d c false false h with h' | h'
    · exact Bool.noConfusion h'
    · exact h'
  · intro p q he
    rw [he] at h
    rcases teardownOrdered_reboot p q false false h with h' | h'
    · exact Bool.noConfusion h'
    · exact h'

/-- The check passes over the common part of both orchestrators up to and
including the SRAM write. -/
theorem teardownOrdered_start (n runs : Nat) (ssh : List Event) (disks : List String)
    (config : Bytes) (es : List Event) (hssh : ssh = [] ∨ ssh = [.sshKill]) :
    teardownOrdered false false
      ([.tryLock true, .readBody n, .unseal] ++ ssh ++ List.replicate runs .pkill
        ++ [.unmount "/vroot/tmp"] ++ disks.map .unmount ++ [.writeOcram config] ++ es)
      = teardownOrdered true false es := by
  rcases hssh with h | h <;> subst h <;>
    simp only [List.append_assoc, List.cons_append, List.nil_append, List.singleton_append,
      List.append_nil] <;>
    simp only [teardownOrdered, teardownOrdered_pkill, teardownOrdered_unmount]

theorem kexec_teardownInOrder (E : Env) (s : ApiServer) (r : Request) (sys : Sys)
    (fuel : Nat) : ∀ run, s.kexec E r sys fuel = some run → TeardownInOrder E sys run := by
  have hssh : (if s.KexecSshKill = true then [Event.sshKill] else []) = []
      ∨ (if s.KexecSshKill = true then [Event.sshKill] else []) = [.sshKill] := by
    by_cases h : s.KexecSshKill = true
    · exact Or.inr (if_pos h)
    · exact Or.inl (if_neg h)
  have early : ∀ run : Run, teardownOrdered false false run.events = true →
      (∀ kernel d c, Event.kexecLoad kernel d c ∉ run.events) →
      Event.reboot ∉ run.events → TeardownInOrder E sys run := by
    intro run h1 h2 h3
    obtain ⟨o1, o2⟩ := ordered_of_check run.events h1
    exact ⟨o1, o2, fun ⟨k, d, c, hk⟩ => absurd hk (h2 k d c), fun hr => absurd hr h3⟩
  apply ApiServer.kexec_cases E s r sys fuel
  · intro _; exact early _ rfl (by simp) (by simp)
  · intro _ _; exact early _ rfl (by simp) (by simp)
  · intro _ _ _; exact early _ rfl (by simp) (by simp)
  · intro _ _ _; exact early _ rfl (by simp) (by simp)
  · intro _ _ _ _ _; exact early _ rfl (by simp) (by simp)
  · intro e _ _ _ _ _; exact early _ rfl (by simp) (by simp)
  · intro _ _ _; exact early _ rfl (by simp) (by simp)
  · intro _ _ _ _; exact early _ rfl (by simp) (by simp)
  · intro pkg runs e _ _ _
    refine early _ ?_ ?_ ?_
    · show teardownOrdered false false (_ ++ _) = true
      rw [teardownOrdered_start _ _ _ _ _ _ hssh]; rfl
    · intro k d c
      rcases hssh with h | h <;> simp [h]
    · rcases hssh with h | h <;> simp [h]
  · intro pkg runs devMem _ _ hw _
    have hchk : teardownOrdered false false
        ([.tryLock true, .readBody r.ContentLength.toNat, .unseal]
          ++ (if s.KexecSshKill = true then [Event.sshKill] else [])
          ++ List.replicate runs .pkill ++ [.unmount "/vroot/tmp"] ++ s.Disks.map .unmount
          ++ [.writeOcram pkg.Config] ++ [.unlock, .response 500 ""]) = true := by
      rw [teardownOrdered_start _ _ _ _ _ _ hssh]; rfl
    obtain ⟨o1, o2⟩ := ordered_of_check _ hchk
    refine ⟨o1, o2, fun _ => ⟨pkg.Config, devMem, by simp, hw⟩, fun hr => ?_⟩
    exfalso
    revert hr
    rcases hssh with h | h <;> simp [h]
  · intro pkg runs devMem _ _ hw _
    have hchk : teardownOrdered false false
        ([.tryLock true, .readBody r.ContentLength.toNat, .unseal]
          ++ (if s.KexecSshKill = true then [Event.sshKill] else [])
          ++ List.replicate runs .pkill ++ [.unmount "/vroot/tmp"] ++ s.Disks.map .unmount
          ++ [.writeOcram pkg.Config]
          ++ ([.kexecLoad pkg.Kernel 0x80000000 0x8000000]
            ++ [.response 400 "failed to load kexec package", .unlock])) = true := by
      rw [teardownOrdered_start _ _ _ _ _ _ hssh]; rfl
    rw [← List.append_assoc] at hchk
    obtain ⟨o1, o2⟩ := ordered_of_check _ hchk
    refine ⟨o1, o2, fun _ => ⟨pkg.Config, devMem, by simp, hw⟩, fun hr => ?_⟩
    exfalso
    revert hr
    rcases hssh with h | h <;> simp [h]
  · intro pkg runs devMem _ _ hw h8 _
    have hchk : teardownOrdered false false
        ([.tryLock true, .readBody r.ContentLength.toNat, .unseal]
          ++ (if s.KexecSshKill = true then [Event.sshKill] else [])
          ++ List.replicate runs .pkill ++ [.unmount "/vroot/tmp"] ++ s.Disks.map .unmount
          ++ [.writeOcram pkg.Config]
          ++ ([.kexecLoad pkg.Kernel 0x80000000 0x8000000]
            ++ [.response 200 "Rebooting into new kernel\n", .reboot])) = true := by
      rw [teardownOrdered_start _ _ _ _ _ _ hssh]; rfl
    rw [← List.append_assoc] at hchk
    obtain ⟨o1, o2⟩ := ordered_of_check _ hchk
    exact ⟨o1, o2, fun _ => ⟨pkg.Config, devMem, by simp, hw⟩, fun _ => h8⟩
  · intro pkg runs devMem _ _ hw h8 _
    have hchk : teardownOrdered false false
        ([.tryLock true, .readBody r.ContentLength.toNat, .unseal]
          ++ (if s.KexecSshKill = true then [Event.sshKill] else [])
          ++ List.replicate runs .pkill ++ [.unmount "/vroot/tmp"] ++ s.Disks.map .unmount
          ++ [.writeOcram pkg.Config]
          ++ ([.kexecLoad pkg.Kernel 0x80000000 0x8000000]
            ++ [.response 200 "Rebooting into new kernel\n", .reboot])) = true := by
      rw [teardownOrdered_start _ _ _ _ _ _ hssh]; rfl
    rw [← List.append_assoc] at hchk
    obtain ⟨o1, o2⟩ := ordered_of_check _ hchk
    exact ⟨o1, o2, fun _ => ⟨pkg.Config, devMem, by simp, hw⟩, fun _ => h8⟩


theorem teardownOrdered_emergency_start (n runs : Nat) (config : Bytes) (es : List Event) :
    teardownOrdered false false
      ([.tryLock true, .readBody n, .unseal] ++ List.replicate runs .pkill
        ++ [.unmount "/vroot/tmp"] ++ [.writeOcram config] ++ es)
      = teardownOrdered true false es := by
  simp only [List.append_assoc, List.cons_append, List.nil_append, List.singleton_append,
    List.append_nil]
  simp only [teardownOrdered, teardownOrdered_pkill]

theorem emergencyKexec_teardownInOrder (E : Env) (errorText : UnsealError → String)
    (key : Bytes) (r : Request) (sys : Sys) (fuel : Nat) :
    ∀ run, emergencyKexec E errorText key r sys fuel = some run →
      TeardownInOrder E sys run := by
  have early : ∀ run : Run, teardownOrdered false false run.events = true →
      (∀ kernel d c, Event.kexecLoad kernel d c ∉ run.events) →
      Event.reboot ∉ run.events → TeardownInOrder E sys run := by
    intro run h1 h2 h3
    obtain ⟨o1, o2⟩ := ordered_of_check run.events h1
    exact ⟨o1, o2, fun ⟨k, d, c, hk⟩ => absurd hk (h2 k d c), fun hr => absurd hr h3⟩
  apply emergencyKexec_cases E errorText key r sys fuel
  · intro _; exact early _ rfl (by simp) (by simp)
  · intro _ _; exact early _ rfl (by simp) (by simp)
  · intro _ _; exact early _ rfl (by simp) (by simp)
  · intro _ _; exact early _ rfl (by simp) (by simp)
  · intro e _ _; exact early _ rfl (by simp) (by simp)
  · intro _ _; exact early _ rfl (by simp) (by simp)
  · intro pkg runs e _ _
    refine early _ ?_ (by simp) (by simp)
    show teardownOrdered false false (_ ++ _) = true
    rw [teardownOrdered_emergency_start]; rfl
  · intro pkg runs devMem _ hw _
    have hchk : teardownOrdered false false
        ([.tryLock true, .readBody r.ContentLength.toNat, .unseal]
          ++ List.replicate runs .pkill ++ [.unmount "/vroot/tmp"]
          ++ [.writeOcram pkg.Config] ++ [.unlock]) = true := by
      rw [teardownOrdered_emergency_start]; rfl
    obtain ⟨o1, o2⟩ := ordered_of_check _ hchk
    exact ⟨o1, o2, fun _ => ⟨pkg.Config, devMem, by simp, hw⟩, fun hr => by simp at hr⟩
  · intro pkg runs devMem _ hw _
    have hchk : teardownOrdered false false
        ([.tryLock true, .readBody r.ContentLength.toNat, .unseal]
          ++ List.replicate runs .pkill ++ [.unmount "/vroot/tmp"]
          ++ [.writeOcram pkg.Config]
          ++ ([.kexecLoad pkg.Kernel 0x80000000 0x8000000]
            ++ [.response 500 "", .unlock])) = true := by
      rw [teardownOrdered_emergency_start]; rfl
    rw [← List.append_assoc] at hchk
    obtain ⟨o1, o2⟩ := ordered_of_check _ hchk
    exact ⟨o1, o2, fun _ => ⟨pkg.Config, devMem, by simp, hw⟩, fun hr => by simp at hr⟩
  · intro pkg runs devMem _ hw h8 _
    have hchk : teardownOrdered false false
        ([.tryLock true, .readBody r.ContentLength.toNat, .unseal]
          ++ List.replicate runs .pkill ++ [.unmount "/vroot/tmp"]
          ++ [.writeOcram pkg.Config]
          ++ ([.kexecLoad pkg.Kernel 0x80000000 0x8000000] ++ [.reboot])) = true := by
      rw [teardownOrdered_emergency_start]; rfl
    rw [← List.append_assoc] at hchk
    obtain ⟨o1, o2⟩ := ordered_of_check _ hchk
    exact ⟨o1, o2, fun _ => ⟨pkg.Config, devMem, by simp, hw⟩, fun _ => h8⟩
  · intro pkg runs devMem _ hw h8 _
    have hchk : teardownOrdered false false
        ([.tryLock true, .readBody r.ContentLength.toNat, .unseal]
          ++ List.replicate runs .pkill ++ [.unmount "/vroot/tmp"]
          ++ [.writeOcram pkg.Config]
          ++ ([.kexecLoad pkg.Kernel 0x80000000 0x8000000] ++ [.reboot])) = true := by
      rw [teardownOrdered_emergency_start]; rfl
    rw [← List.append_assoc] at hchk
    obtain ⟨o1, o2⟩ := ordered_of_check _ hchk
    exact ⟨o1, o2, fun _ => ⟨pkg.Config, devMem, by simp, hw⟩, fun _ => h8⟩

/-- C19: in every run of the primary handler and in every run of the emergency
handler (every request, server, key and state of the system), a `kexec_load` in
the trace comes after an SRAM write and a `reboot` after a `kexec_load`; a
`kexec_load` is issued only when `write_config` of the staged config returned
success, and a `reboot` only when `kexec_load` returned errno 0. -/
theorem teardown_ordering (E : Env) (errorText : UnsealError → String) (s : ApiServer)
    (key : Bytes) (r : Request) (sys : Sys) (fuel : Nat) :
    (∀ run, s.kexec E r sys fuel = some run → TeardownInOrder E sys run) ∧
    (∀ run, emergencyKexec E errorText key r sys fuel = some run →
      TeardownInOrder E sys run) :=
  ⟨kexec_teardownInOrder E s r sys fuel,
    emergencyKexec_teardownInOrder E errorText key r sys fuel⟩

set_option maxRecDepth 100000 in
/-- Witness for C19: the sample request runs through to the reboot, and its
trace is in order. -/
theorem teardown_ordering_witness :
    ∃ run, sampleServer.kexec sampleEnv (sampleRequest sampleKernel configV1) sampleSys 1
        = some run ∧ run.ending = .rebooted ∧ TeardownInOrder sampleEnv sampleSys run := by
  obtain ⟨run, hrun, hok, -⟩ := sample_kexec_run configV1 (by decide) (by decide) (by decide)
  exact ⟨run, hrun, hok,
    (teardown_ordering sampleEnv (fun _ => "") sampleServer sampleKey
      (sampleRequest sampleKernel configV1) sampleSys 1).1 run hrun⟩


/-! ## The serial paste loop -/

theorem skipToBegin_eq_cons (lines : List Bytes) (x : Bytes) (rest : List Bytes)
    (h : skipToBegin lines = x :: rest) :
    ∃ pre, beginMarker ∉ pre ∧ lines = pre ++ beginMarker :: x :: rest := by
  induction lines with
  | nil => simp [skipToBegin] at h
  | cons l ls ih =>
    unfold skipToBegin at h
    by_cases hl : l = beginMarker
    · rw [if_pos hl] at h
      exact ⟨[], List.not_mem_nil _, by rw [hl, h]; rfl⟩
    · rw [if_neg hl] at h
      obtain ⟨pre, hpre, hls⟩ := ih h
      refine ⟨l :: pre, ?_, by rw [hls]; rfl⟩
      intro hmem
      rcases List.mem_cons.1 hmem with h1 | h1
      · exact hl h1.symm
      · exact hpre h1

theorem readUntilEnd_spec (lines : List Bytes) :
    ∃ dataLines, (readUntilEnd lines).1 = dataLines.flatten ∧ endMarker ∉ dataLines ∧
      ((lines = dataLines ∧ (readUntilEnd lines).2 = []) ∨
        lines = dataLines ++ endMarker :: (readUntilEnd lines).2) := by
  induction lines with
  | nil => exact ⟨[], rfl, List.not_mem_nil _, Or.inl ⟨rfl, rfl⟩⟩
  | cons l ls ih =>
    unfold readUntilEnd
    by_cases hl : l = endMarker
    · rw [if_pos hl]
      exact ⟨[], rfl, List.not_mem_nil _, Or.inr (by rw [hl]; rfl)⟩
    · rw [if_neg hl]
      obtain ⟨dl, hjoin, hmem, hshape⟩ := ih
      refine ⟨l :: dl, ?_, ?_, ?_⟩
      · show l ++ (readUntilEnd ls).1 = (l :: dl).flatten
        rw [hjoin, List.flatten_cons]
      · intro h
        rcases List.mem_cons.1 h with h1 | h1
        · exact hl h1.symm
        · exact hmem h1
      · rcases hshape with ⟨h1, h2⟩ | h1
        · exact Or.inl ⟨by rw [← h1], h2⟩
        · exact Or.inr (by
            show l :: ls = (l :: dl) ++ endMarker :: (readUntilEnd ls).2
            rw [List.cons_append, ← h1])

theorem loadConfigFromGs0_nil (E : Env) (base64 : Bytes → Option Bytes) (lines : List Bytes)
    (h : skipToBegin lines = []) : loadConfigFromGs0 E base64 lines = none := by
  unfold loadConfigFromGs0
  split
  · rfl
  · rename_i heq
    rw [h] at heq
    exact absurd heq (by simp)

theorem loadConfigFromGs0_step (E : Env) (base64 : Bytes → Option Bytes) (lines : List Bytes)
    (x : Bytes) (rest : List Bytes) (h : skipToBegin lines = x :: rest) :
    loadConfigFromGs0 E base64 lines =
      match gs0Attempt E base64 x (readUntilEnd rest).1 with
      | some configData => some configData
      | none => loadConfigFromGs0 E base64 (readUntilEnd rest).2 := by
  conv_lhs => unfold loadConfigFromGs0
  split
  · rename_i heq
    rw [h] at heq
    exact absurd heq (by simp)
  · rename_i y rest' heq
    rw [h] at heq
    injection heq with h1 h2
    subst h1
    subst h2
    rfl

theorem gs0Attempt_eq_some (E : Env) (base64 : Bytes → Option Bytes) (hashB64 dataB64 D : Bytes) :
    gs0Attempt E base64 hashB64 dataB64 = some D ↔
      base64 hashB64 = some (E.sha256 D) ∧ base64 dataB64 = some D := by
  unfold gs0Attempt
  constructor
  · intro h
    cases hh : base64 hashB64 with
    | none => rw [hh] at h; exact absurd h (by simp)
    | some expected =>
      rw [hh] at h
      by_cases hlen : expected.length ≠ 32
      · simp only [if_pos hlen] at h
        exact absurd h (by simp)
      · simp only [if_neg hlen] at h
        cases hd : base64 dataB64 with
        | none => rw [hd] at h; exact absurd h (by simp)
        | some configData =>
          rw [hd] at h
          by_cases hsha : E.sha256 configData ≠ expected
          · simp only [if_pos hsha] at h
            exact absurd h (by simp)
          · simp only [if_neg hsha] at h
            have hD : configData = D := Option.some.inj h
            rw [← hD, not_not.1 hsha]
            exact ⟨rfl, rfl⟩
  · rintro ⟨hh, hd⟩
    rw [hh]
    have hlen : ¬ (E.sha256 D).length ≠ 32 := not_not.2 (E.sha256_length D)
    simp only [if_neg hlen, hd, ne_eq, not_true_eq_false, if_false]

theorem gs0Attempt_eq_none (E : Env) (base64 : Bytes → Option Bytes) (hashB64 dataB64 : Bytes) :
    gs0Attempt E base64 hashB64 dataB64 = none ↔
      (base64 hashB64 = none ∨ (∃ h, base64 hashB64 = some h ∧ h.length ≠ 32) ∨
        base64 dataB64 = none ∨
        ∃ h d, base64 hashB64 = some h ∧ base64 dataB64 = some d ∧ E.sha256 d ≠ h) := by
  unfold gs0Attempt
  cases hh : base64 hashB64 with
  | none => simp
  | some expected =>
    by_cases hlen : expected.length ≠ 32
    · simp [hlen]
    · cases hd : base64 dataB64 with
      | none => simp
      | some configData =>
        by_cases hsha : E.sha256 configData ≠ expected
        · simp [hlen, hsha]
        · simp [hlen, hsha]


theorem loadConfigFromGs0_some (E : Env) (base64 : Bytes → Option Bytes) :
    ∀ (n : Nat) (lines : List Bytes) (D : Bytes), lines.length ≤ n →
      loadConfigFromGs0 E base64 lines = some D →
      ∃ pre hashLine dataLines post,
        lines = pre ++ beginMarker :: hashLine :: (dataLines ++ post) ∧
        endMarker ∉ dataLines ∧ (post = [] ∨ ∃ post', post = endMarker :: post') ∧
        base64 hashLine = some (E.sha256 D) ∧ base64 dataLines.flatten = some D := by
  intro n
  induction n with
  | zero =>
    intro lines D hlen h
    have hnil : lines = [] := List.length_eq_zero.1 (Nat.le_zero.1 hlen)
    rw [hnil, loadConfigFromGs0_nil E base64 [] rfl] at h
    exact absurd h (by simp)
  | succ n ih =>
    intro lines D hlen h
    cases hs : skipToBegin lines with
    | nil =>
      rw [loadConfigFromGs0_nil E base64 lines hs] at h
      exact absurd h (by simp)
    | cons x rest =>
      rw [loadConfigFromGs0_step E base64 lines x rest hs] at h
      obtain ⟨pre, -, hlines⟩ := skipToBegin_eq_cons lines x rest hs
      obtain ⟨dl, hjoin, hmem, hshape⟩ := readUntilEnd_spec rest
      cases ha : gs0Attempt E base64 x (readUntilEnd rest).1 with
      | some configData =>
        rw [ha] at h
        have hD : configData = D := Option.some.inj h
        rw [hD] at ha
        obtain ⟨hh, hd⟩ := (gs0Attempt_eq_some E base64 x _ D).1 ha
        rw [hjoin] at hd
        rcases hshape with ⟨h1, -⟩ | h1
        · exact ⟨pre, x, dl, [], by rw [hlines, h1, List.append_nil], hmem, Or.inl rfl, hh, hd⟩
        · exact ⟨pre, x, dl, endMarker :: (readUntilEnd rest).2, by rw [hlines]; rw [← h1],
            hmem, Or.inr ⟨_, rfl⟩, hh, hd⟩
      | none =>
        rw [ha] at h
        rcases hshape with ⟨-, h2⟩ | h1
        · rw [h2, loadConfigFromGs0_nil E base64 [] rfl] at h
          exact absurd h (by simp)
        · have hlen' : (readUntilEnd rest).2.length ≤ n := by
            have h3 := congrArg List.length hlines
            have h4 := congrArg List.length h1
            simp only [List.length_append, List.length_cons] at h3 h4
            omega
          obtain ⟨pre', hashLine, dl', post, hnext, hmem', hpost, hh, hd⟩ :=
            ih (readUntilEnd rest).2 D hlen' h
          refine ⟨pre ++ beginMarker :: x :: (dl ++ endMarker :: pre'), hashLine, dl', post,
            ?_, hmem', hpost, hh, hd⟩
          rw [hlines, h1, hnext]
          simp only [List.append_assoc, List.cons_append]

/-- C14 (amended): when `loadConfigFromGs0` returns `D`, the input holds a
`<BEGIN>` line followed by a hash line that decodes to the SHA-256 of `D` (32
bytes) and by data lines, none of them `<END>`, that run up to an `<END>` line or
to the end of the input and whose concatenation decodes to `D`; an attempt whose
hash or data fails to decode, whose hash is not 32 bytes long or whose hash
differs from that of the data returns nothing, and the loop starts over on the
lines that follow. -/
theorem serial_paste_integrity (E : Env) (base64 : Bytes → Option Bytes) (lines : List Bytes) :
    (∀ D, loadConfigFromGs0 E base64 lines = some D →
      ∃ pre hashLine dataLines post,
        lines = pre ++ beginMarker :: hashLine :: (dataLines ++ post) ∧
        endMarker ∉ dataLines ∧ (post = [] ∨ ∃ post', post = endMarker :: post') ∧
        base64 hashLine = some (E.sha256 D) ∧ (E.sha256 D).length = 32 ∧
        base64 dataLines.flatten = some D) ∧
    (∀ hashLine rest, skipToBegin lines = hashLine :: rest →
      (base64 hashLine = none ∨ (∃ h, base64 hashLine = some h ∧ h.length ≠ 32) ∨
        base64 (readUntilEnd rest).1 = none ∨
        ∃ h d, base64 hashLine = some h ∧ base64 (readUntilEnd rest).1 = some d ∧
          E.sha256 d ≠ h) →
      loadConfigFromGs0 E base64 lines = loadConfigFromGs0 E base64 (readUntilEnd rest).2) := by
  constructor
  · intro D h
    obtain ⟨pre, hashLine, dl, post, h1, h2, h3, h4, h5⟩ :=
      loadConfigFromGs0_some E base64 lines.length lines D (Nat.le_refl _) h
    exact ⟨pre, hashLine, dl, post, h1, h2, h3, h4, E.sha256_length D, h5⟩
  · intro hashLine rest hs hfail
    rw [loadConfigFromGs0_step E base64 lines hashLine rest hs,
      (gs0Attempt_eq_none E base64 hashLine _).2 hfail]

theorem samplePaste_result :
    loadConfigFromGs0 sampleEnv sampleBase64 samplePaste = some configV1 := by
  have h1 : skipToBegin samplePaste = [[33], 98 :: configV0, endMarker,
      beginMarker, 98 :: sampleEnv.sha256 configV1, 98 :: configV1.take 4, configV1.drop 4,
      endMarker] := by decide
  rw [loadConfigFromGs0_step _ _ _ _ _ h1]
  have h2 : gs0Attempt sampleEnv sampleBase64 [33] (readUntilEnd [98 :: configV0, endMarker,
      beginMarker, 98 :: sampleEnv.sha256 configV1, 98 :: configV1.take 4, configV1.drop 4,
      endMarker]).1 = none := by decide
  rw [h2]
  have h3 : (readUntilEnd [98 :: configV0, endMarker,
      beginMarker, 98 :: sampleEnv.sha256 configV1, 98 :: configV1.take 4, configV1.drop 4,
      endMarker]).2 = [beginMarker, 98 :: sampleEnv.sha256 configV1, 98 :: configV1.take 4,
      configV1.drop 4, endMarker] := by decide
  have h4 : skipToBegin [beginMarker, 98 :: sampleEnv.sha256 configV1, 98 :: configV1.take 4,
      configV1.drop 4, endMarker] = [98 :: sampleEnv.sha256 configV1, 98 :: configV1.take 4,
      configV1.drop 4, endMarker] := by decide
  simp only [h3]
  rw [loadConfigFromGs0_step _ _ _ _ _ h4]
  have h5 : gs0Attempt sampleEnv sampleBase64 (98 :: sampleEnv.sha256 configV1)
      (readUntilEnd [98 :: configV1.take 4, configV1.drop 4, endMarker]).1 = some configV1 := by
    decide
  rw [h5]

theorem serial_paste_integrity_witness :
    loadConfigFromGs0 sampleEnv sampleBase64 samplePaste = some configV1 ∧
    (∃ pre hashLine dataLines post,
      samplePaste = pre ++ beginMarker :: hashLine :: (dataLines ++ post) ∧
      endMarker ∉ dataLines ∧ (post = [] ∨ ∃ post', post = endMarker :: post') ∧
      sampleBase64 hashLine = some (sampleEnv.sha256 configV1) ∧
      (sampleEnv.sha256 configV1).length = 32 ∧
      sampleBase64 dataLines.flatten = some configV1) ∧
    loadConfigFromGs0 sampleEnv sampleBase64 samplePaste =
      loadConfigFromGs0 sampleEnv sampleBase64
        (readUntilEnd [98 :: configV0, endMarker, beginMarker, 98 :: sampleEnv.sha256 configV1,
          98 :: configV1.take 4, configV1.drop 4, endMarker]).2 :=
  ⟨samplePaste_result,
    (serial_paste_integrity sampleEnv sampleBase64 samplePaste).1 configV1 samplePaste_result,
    (serial_paste_integrity sampleEnv sampleBase64 samplePaste).2 [33] _ (by decide)
      (Or.inl (by decide))⟩

/-- C14 as stated fails: the scanner stops before any `<END>` line, and the loop
still returns the config decoded from the lines after the hash line. -/
theorem serial_paste_without_end :
    loadConfigFromGs0 sampleEnv sampleBase64 unterminatedPaste = some configV1 ∧
    endMarker ∉ unterminatedPaste := by
  constructor
  · have h1 : skipToBegin unterminatedPaste =
        [98 :: sampleEnv.sha256 configV1, 98 :: configV1] := by decide
    rw [loadConfigFromGs0_step _ _ _ _ _ h1]
    have h2 : gs0Attempt sampleEnv sampleBase64 (98 :: sampleEnv.sha256 configV1)
        (readUntilEnd [98 :: configV1]).1 = some configV1 := by decide
    rw [h2]
  · decide

/-! ## C29: canonical framing -/

/-- Writing back the value read from four bytes gives the four bytes. -/
theorem putUint32_Uint32 (b : Bytes) (hb : b.length = 4) : putUint32 (Uint32 b) = b := by
  match b, hb with
  | [b0, b1, b2, b3], _ =>
    have h0 := b0.isLt
    have h1 := b1.isLt
    have h2 := b2.isLt
    have h3 := b3.isLt
    simp only [putUint32, Uint32, List.getD_cons_zero, List.getD_cons_succ]
    refine congrArg₂ _ (Fin.ext ?_) (congrArg₂ _ (Fin.ext ?_) (congrArg₂ _ (Fin.ext ?_)
      (congrArg₂ _ (Fin.ext ?_) rfl)))
    all_goals (simp only [Fin.ofNat, Fin.val_mk]; omega)

/-- An accepted frame is the canonical encoding of its two fields. -/
theorem readFrame_canonical (w : Nat) (hw : 32 ≤ w) (blob a b : Bytes)
    (h : readFrame w blob = .ok (a, b)) :
    blob = putUint32 a.length ++ a ++ putUint32 b.length ++ b := by
  unfold readFrame at h
  by_cases h1 : blob.length < 4
  · rw [if_pos h1] at h; exact Outcome.noConfusion h
  rw [if_neg h1] at h
  simp only at h
  by_cases h2 : ((blob.drop 4).length : Int) < goInt w (Uint32 (blob.take 4))
  · rw [if_pos h2] at h; exact Outcome.noConfusion h
  rw [if_neg h2] at h
  by_cases h3 : (blob.drop 4).length < Uint32 (blob.take 4)
  · rw [if_pos h3] at h; exact Outcome.noConfusion h
  rw [if_neg h3] at h
  by_cases h4 : ((blob.drop 4).drop (Uint32 (blob.take 4))).length < 4
  · rw [if_pos h4] at h; exact Outcome.noConfusion h
  rw [if_neg h4] at h
  by_cases h5 : ((((blob.drop 4).drop (Uint32 (blob.take 4))).drop 4).length : Int)
      ≠ goInt w (Uint32 (((blob.drop 4).drop (Uint32 (blob.take 4))).take 4))
  · rw [if_pos h5] at h; exact Outcome.noConfusion h
  rw [if_neg h5] at h
  have hab := Outcome.ok.inj h
  have ha : a = (blob.drop 4).take (Uint32 (blob.take 4)) := (congrArg Prod.fst hab).symm
  have hb : b = ((blob.drop 4).drop (Uint32 (blob.take 4))).drop 4 :=
    (congrArg Prod.snd hab).symm
  have hla : a.length = Uint32 (blob.take 4) := by
    rw [ha, List.length_take]; omega
  have hlb : b.length = Uint32 (((blob.drop 4).drop (Uint32 (blob.take 4))).take 4) := by
    have h5' := not_not.1 h5
    rw [← hb] at h5'
    rcases goInt_eq_or_neg w _ hw (Uint32_lt (((blob.drop 4).drop (Uint32 (blob.take 4))).take 4))
      with hg | hg
    · rw [hg] at h5'; exact_mod_cast h5'
    · rw [← h5'] at hg; omega
  have ht1 : (blob.take 4).length = 4 := by rw [List.length_take]; omega
  have ht2 : (((blob.drop 4).drop (Uint32 (blob.take 4))).take 4).length = 4 := by
    rw [List.length_take]; omega
  rw [hla, hlb, putUint32_Uint32 _ ht1, putUint32_Uint32 _ ht2, ha, hb]
  simp only [List.append_assoc, List.take_append_drop]

/-- C29: a byte string that the inner parser of `Unseal` accepts with the fields
`(kernel, config)` is `u32le(len kernel) || kernel || u32le(len config) || config`,
the sealer's `data`; a decrypted payload that the outer parser accepts with
`(sig, data)` is `u32le(len sig) || sig || u32le(len data) || data`, the sealer's
plaintext; so two accepted byte strings with the same fields are equal, and a
package returned by `Unseal` comes from a payload and inner data in exactly this
form. -/
theorem canonical_framing (E : Env) (hw : 32 ≤ E.intBits) :
    (∀ data kernel config, readFrame E.intBits data = .ok (kernel, config) →
      data = sealerData kernel config) ∧
    (∀ payload sig data, readFrame E.intBits payload = .ok (sig, data) →
      payload = sealerPlaintext sig data) ∧
    (∀ x y fields, readFrame E.intBits x = .ok fields → readFrame E.intBits y = .ok fields →
      x = y) ∧
    (∀ c key blob extSig pkg, Unseal E c key blob extSig = .ok pkg →
      ∃ payload sig, openEnvelope E key blob = .ok payload ∧
        payload = sealerPlaintext sig (sealerData pkg.Kernel pkg.Config)) := by
  refine ⟨fun data kernel config h => readFrame_canonical _ hw _ _ _ h,
    fun payload sig data h => readFrame_canonical _ hw _ _ _ h, ?_, ?_⟩
  · intro x y fields hx hy
    rw [readFrame_canonical _ hw x fields.1 fields.2 hx,
      readFrame_canonical _ hw y fields.1 fields.2 hy]
  · intro c key blob extSig pkg h
    obtain ⟨data, v, hd, hf, -, -⟩ := Unseal_eq_ok E c key blob extSig pkg h
    obtain ⟨-, payload, sig, ho, hp, -⟩ := decryptAndVerify_eq_ok E key blob data extSig hd
    refine ⟨payload, sig, ho, ?_⟩
    rw [readFrame_canonical _ hw payload sig data hp,
      readFrame_canonical _ hw data pkg.Kernel pkg.Config hf]
    rfl

set_option maxRecDepth 100000 in
theorem canonical_framing_witness :
    Unseal sampleEnv 1 sampleKey (sampleEnvelope sampleKernel configV1) ""
      = .ok { Kernel := sampleKernel, Config := configV1 } ∧
    ∃ payload sig, openEnvelope sampleEnv sampleKey (sampleEnvelope sampleKernel configV1)
        = .ok payload ∧
      payload = sealerPlaintext sig (sealerData sampleKernel configV1) :=
  ⟨by decide,
    (canonical_framing sampleEnv (by decide)).2.2.2 1 sampleKey
      (sampleEnvelope sampleKernel configV1) "" { Kernel := sampleKernel, Config := configV1 }
      (by decide)⟩

/-! ## C28: slice bounds in the parser -/

/-- With an `int` wider than 32 bits a length field never passes its check and
then exceeds the bytes that are left: the parser does not panic. -/
theorem readFrame_no_panic (w : Nat) (hw : 33 ≤ w) (blob : Bytes) :
    readFrame w blob ≠ .panic := by
  have hpow : (4294967296 : Nat) ≤ 2 ^ (w - 1) := by
    have : (2 : Nat) ^ 32 ≤ 2 ^ (w - 1) := Nat.pow_le_pow_right (by decide) (by omega)
    simpa using this
  unfold readFrame
  by_cases h1 : blob.length < 4
  · rw [if_pos h1]; exact fun h => Outcome.noConfusion h
  rw [if_neg h1]
  simp only
  by_cases h2 : ((blob.drop 4).length : Int) < goInt w (Uint32 (blob.take 4))
  · rw [if_pos h2]; exact fun h => Outcome.noConfusion h
  rw [if_neg h2]
  have hlt := Uint32_lt (blob.take 4)
  rw [goInt_of_lt w _ (by omega)] at h2
  have h3 : ¬ (blob.drop 4).length < Uint32 (blob.take 4) := by
    intro h; exact h2 (by exact_mod_cast h)
  rw [if_neg h3]
  split
  · exact fun h => Outcome.noConfusion h
  · split
    · exact fun h => Outcome.noConfusion h
    · exact fun h => Outcome.noConfusion h

/-- The handler when `Unseal` panics: the deferred `Unlock` runs and gin's
recovery answers 500. -/
theorem kexec_unseal_panic (E : Env) (s : ApiServer) (r : Request) (sys : Sys) (fuel : Nat)
    (h1 : s.KexecEnabled = true) (h2 : sys.kexecLocked = false)
    (h3 : r.ContentLength ≤ 128 * 1048576) (h4 : 0 ≤ r.ContentLength)
    (h5 : r.ContentLength.toNat ≤ r.Body.length)
    (hu : Unseal E s.Version s.KexecEncryptionKey (r.Body.take r.ContentLength.toNat)
        r.ExternalSignature = .panic) :
    s.kexec E r sys fuel
      = some { events := [.tryLock true, .readBody r.ContentLength.toNat, .unseal, .unlock,
                 .response 500 ""],
               ending := .panicked, devMem := sys.devMem } := by
  unfold ApiServer.kexec
  simp only [h1, h2, not_lt.mpr h3, not_lt.mpr h4, not_lt.mpr h5, hu,
    Bool.true_eq_false, Bool.false_eq_true, if_false, gt_iff_lt]
  rfl

theorem requestOf_take (body : Bytes) :
    (requestOf body).Body.take (requestOf body).ContentLength.toNat = body := by
  show body.take ((body.length : Int)).toNat = body
  rw [Int.toNat_ofNat, List.take_length]

set_option maxRecDepth 100000 in
/-- C28 fails where `int` has 32 bits: a `sigLen` (or `kernelImageLen`) field of
`0x80000000` converts to a negative `int`, passes the check `len(blob) < int(sigLen)`
and the slice expression `blob[:sigLen]` is evaluated out of range; `Unseal`
panics on both envelopes and so does the handler. -/
theorem parser_slices_out_of_range :
    readFrame 32 overlongSigPayload = .panic ∧
    Unseal sampleEnv32 1 sampleKey overlongSigEnvelope "" = .panic ∧
    Unseal sampleEnv32 1 sampleKey overlongKernelEnvelope "" = .panic ∧
    sampleServer.kexec sampleEnv32 (requestOf overlongSigEnvelope) sampleSys 1
      = some { events := [.tryLock true,
                 .readBody (requestOf overlongSigEnvelope).ContentLength.toNat, .unseal,
                 .unlock, .response 500 ""],
               ending := .panicked, devMem := sampleSys.devMem } := by
  refine ⟨by decide, by decide, by decide, ?_⟩
  exact kexec_unseal_panic sampleEnv32 sampleServer (requestOf overlongSigEnvelope) sampleSys 1
    rfl rfl (by decide) (by decide) (by decide)
    (by rw [requestOf_take]; decide)

/-! ## C26: the length of the body buffer -/

/-- A negative `Content-Length` passes the size check of `/kexec/trigger` and
reaches `make([]byte, n)`, which panics. -/
theorem kexec_negative_length (E : Env) (s : ApiServer) (r : Request) (sys : Sys) (fuel : Nat)
    (h1 : s.KexecEnabled = true) (h2 : sys.kexecLocked = false) (h3 : r.ContentLength < 0) :
    s.kexec E r sys fuel
      = some { events := [.tryLock true, .unlock, .response 500 ""], ending := .panicked,
               devMem := sys.devMem } := by
  have h4 : ¬ r.ContentLength > 128 * 1048576 := by omega
  unfold ApiServer.kexec
  rw [if_neg (by simp [h1]), if_neg (by simp [h2]), if_neg h4, if_pos h3]

/-- A negative `Content-Length` passes the size check of `/emergency-kexec` too. -/
theorem emergencyKexec_negative_length (E : Env) (errorText : UnsealError → String)
    (key : Bytes) (r : Request) (sys : Sys) (fuel : Nat)
    (h2 : sys.kexecLocked = false) (h3 : r.ContentLength < 0) :
    emergencyKexec E errorText key r sys fuel
      = some { events := [.tryLock true, .unlock], ending := .panicked,
               devMem := sys.devMem } := by
  have h4 : ¬ r.ContentLength > 128 * 1048576 := by omega
  unfold emergencyKexec
  rw [if_neg (by simp [h2]), if_neg h4, if_pos h3]

/-- C26 fails for a request of unknown length: with `ContentLength = -1` both
handlers take the mutex, pass the check `ContentLength > 128*1048576` and panic
in `make([]byte, -1)`; `/kexec/trigger` answers 500 through gin's recovery,
not 400, and `/emergency-kexec` sends no response. -/
theorem body_buffer_negative_length :
    chunkedRequest.ContentLength = -1 ∧
    sampleServer.kexec sampleEnv chunkedRequest sampleSys 1
      = some { events := [.tryLock true, .unlock, .response 500 ""], ending := .panicked,
               devMem := sampleSys.devMem } ∧
    emergencyKexec sampleEnv (fun _ => "") sampleKey chunkedRequest sampleSys 1
      = some { events := [.tryLock true, .unlock], ending := .panicked,
               devMem := sampleSys.devMem } :=
  ⟨rfl, kexec_negative_length sampleEnv sampleServer chunkedRequest sampleSys 1 rfl rfl
      (by decide),
    emergencyKexec_negative_length sampleEnv (fun _ => "") sampleKey chunkedRequest sampleSys 1
      rfl (by decide)⟩

/-! ## C25: an empty kernel -/

/-- The run of `/kexec/trigger` for a package whose kernel is empty: the whole
teardown and the SRAM write happen, then `&pkg.Kernel[0]` panics. -/
theorem kexec_empty_kernel (E : Env) (s : ApiServer) (r : Request) (sys : Sys)
    (fuel runs : Nat) (pkg : UnsealedPackage) (devMem : DevMem)
    (h1 : s.KexecEnabled = true) (h2 : sys.kexecLocked = false)
    (h3 : r.ContentLength ≤ 128 * 1048576) (h4 : 0 ≤ r.ContentLength)
    (h5 : r.ContentLength.toNat ≤ r.Body.length)
    (hu : Unseal E s.Version s.KexecEncryptionKey (r.Body.take r.ContentLength.toNat)
        r.ExternalSignature = .ok pkg)
    (h6 : s.KexecSshKill = false) (hp : pkillLoop sys.pkillFails fuel 0 = some runs)
    (hw : writeConfigToOcram E sys.devMem pkg.Config = .ok devMem)
    (h7 : pkg.Kernel = []) :
    s.kexec E r sys fuel
      = some { events := [.tryLock true, .readBody r.ContentLength.toNat, .unseal]
                 ++ [] ++ List.replicate runs .pkill ++ [.unmount "/vroot/tmp"]
                 ++ s.Disks.map .unmount ++ [.writeOcram pkg.Config]
                 ++ [.unlock, .response 500 ""],
               ending := .panicked, devMem := devMem } := by
  unfold ApiServer.kexec
  simp only [h1, h2, not_lt.mpr h3, not_lt.mpr h4, not_lt.mpr h5, hu, h6, hp, hw, h7,
    Bool.true_eq_false, Bool.false_eq_true, if_false, if_true, gt_iff_lt, false_and]

/-- The run of `/emergency-kexec` for a package whose kernel is empty. -/
theorem emergencyKexec_empty_kernel (E : Env) (errorText : UnsealError → String) (key : Bytes)
    (r : Request) (sys : Sys) (fuel runs : Nat) (pkg : UnsealedPackage) (devMem : DevMem)
    (h2 : sys.kexecLocked = false)
    (h3 : r.ContentLength ≤ 128 * 1048576) (h4 : 0 ≤ r.ContentLength)
    (h5 : r.ContentLength.toNat ≤ r.Body.length)
    (hu : Unseal E 1 key (r.Body.take r.ContentLength.toNat) r.ExternalSignature = .ok pkg)
    (hp : pkillLoop sys.pkillFails fuel 0 = some runs)
    (hw : writeConfigToOcram E sys.devMem pkg.Config = .ok devMem)
    (h7 : pkg.Kernel = []) :
    emergencyKexec E errorText key r sys fuel
      = some { events := [.tryLock true, .readBody r.ContentLength.toNat, .unseal]
                 ++ List.replicate runs .pkill ++ [.unmount "/vroot/tmp"]
                 ++ [.writeOcram pkg.Config] ++ [.unlock],
               ending := .panicked, devMem := devMem } := by
  unfold emergencyKexec
  simp only [h2, not_lt.mpr h3, not_lt.mpr h4, not_lt.mpr h5, hu, hp, hw, h7,
    Bool.true_eq_false, Bool.false_eq_true, if_false, if_true, gt_iff_lt]

set_option maxRecDepth 100000 in
/-- C25 fails: `Unseal` returns the sealer's package for an empty kernel file with
`Kernel` empty, and both handlers then kill the user processes, unmount the
scratch directory, write the config to the SRAM stripe and panic at
`&pkg.Kernel[0]` without reaching `kexec_load`. -/
theorem unseal_returns_empty_kernel :
    Unseal sampleEnv 1 sampleKey (sampleEnvelope [] configV1) ""
      = .ok { Kernel := [], Config := configV1 } ∧
    (∃ run, sampleServer.kexec sampleEnv (sampleRequest [] configV1) sampleSys 1 = some run ∧
      run.ending = .panicked ∧
      run.events = [.tryLock true, .readBody 151, .unseal, .pkill, .pkill,
        .unmount "/vroot/tmp", .writeOcram configV1, .unlock, .response 500 ""]) ∧
    (∃ run, emergencyKexec sampleEnv (fun _ => "") sampleKey (sampleRequest [] configV1)
        sampleSys 1 = some run ∧
      run.ending = .panicked ∧
      run.events = [.tryLock true, .readBody 151, .unseal, .pkill, .pkill,
        .unmount "/vroot/tmp", .writeOcram configV1, .unlock]) := by
  have hu : Unseal sampleEnv 1 sampleKey (sampleEnvelope [] configV1) ""
      = .ok { Kernel := [], Config := configV1 } := by decide
  have htake : (sampleRequest [] configV1).Body.take
      (sampleRequest [] configV1).ContentLength.toNat = sampleEnvelope [] configV1 :=
    requestOf_take (sampleEnvelope [] configV1)
  have hw := writeConfigToOcram_eq sampleEnv zeroDevMem configV1 rfl rfl zeroDevMem_length
    (by decide)
  refine ⟨hu, ⟨_, kexec_empty_kernel sampleEnv sampleServer (sampleRequest [] configV1)
      sampleSys 1 2 { Kernel := [], Config := configV1 } _ rfl rfl (by decide) (by decide)
      (by decide) (by rw [htake]; exact hu) rfl rfl hw rfl, rfl, by decide⟩,
    ⟨_, emergencyKexec_empty_kernel sampleEnv (fun _ => "") sampleKey
      (sampleRequest [] configV1) sampleSys 1 2 { Kernel := [], Config := configV1 } _ rfl
      (by decide) (by decide) (by decide) (by rw [htake]; exact hu) rfl hw rfl, rfl,
      by decide⟩⟩

/-! ## C23: the version the emergency handler passes to `Unseal` -/

/-- The run of `/emergency-kexec` when `Unseal` returns an error. -/
theorem emergencyKexec_unseal_error (E : Env) (errorText : UnsealError → String) (key : Bytes)
    (r : Request) (sys : Sys) (fuel : Nat) (e : UnsealError)
    (h2 : sys.kexecLocked = false)
    (h3 : r.ContentLength ≤ 128 * 1048576) (h4 : 0 ≤ r.ContentLength)
    (h5 : r.ContentLength.toNat ≤ r.Body.length)
    (hu : Unseal E 1 key (r.Body.take r.ContentLength.toNat) r.ExternalSignature = .err e) :
    emergencyKexec E errorText key r sys fuel
      = some { events := [.tryLock true, .readBody r.ContentLength.toNat, .unseal,
                          .response 400 ("unseal failed: " ++ errorText e), .unlock],
               ending := .returned, devMem := sys.devMem } := by
  unfold emergencyKexec
  simp only [h2, not_lt.mpr h3, not_lt.mpr h4, not_lt.mpr h5, hu,
    Bool.true_eq_false, Bool.false_eq_true, if_false, gt_iff_lt]
  rfl

/-- Once `Unseal` has returned a package, `/emergency-kexec` goes on to the `pkill`
loop, the unmount and the SRAM write of that package's config, and does not
answer 400. -/
theorem emergencyKexec_unseal_ok (E : Env) (errorText : UnsealError → String) (key : Bytes)
    (r : Request) (sys : Sys) (fuel runs : Nat) (pkg : UnsealedPackage)
    (h2 : sys.kexecLocked = false)
    (h3 : r.ContentLength ≤ 128 * 1048576) (h4 : 0 ≤ r.ContentLength)
    (h5 : r.ContentLength.toNat ≤ r.Body.length)
    (hu : Unseal E 1 key (r.Body.take r.ContentLength.toNat) r.ExternalSignature = .ok pkg)
    (hp : pkillLoop sys.pkillFails fuel 0 = some runs) :
    ∃ run, emergencyKexec E errorText key r sys fuel = some run ∧
      Event.writeOcram pkg.Config ∈ run.events ∧
      ∀ msg, Event.response 400 msg ∉ run.events := by
  unfold emergencyKexec
  simp only [h2, not_lt.mpr h3, not_lt.mpr h4, not_lt.mpr h5, hu, hp,
    Bool.true_eq_false, Bool.false_eq_true, if_false, gt_iff_lt]
  cases hw : writeConfigToOcram E sys.devMem pkg.Config with
  | error e => exact ⟨_, rfl, by simp, by simp⟩
  | ok devMem =>
    simp only
    by_cases hk : pkg.Kernel = []
    · rw [if_pos hk]; exact ⟨_, rfl, by simp, by simp⟩
    · rw [if_neg hk]
      by_cases hl : sys.kexecLoadErrno ≠ 0
      · rw [if_pos hl]; exact ⟨_, rfl, by simp, by simp⟩
      · rw [if_neg hl]
        by_cases hr : sys.rebootErrno ≠ 0
        · rw [if_pos hr]; exact ⟨_, rfl, by simp, by simp⟩
        · rw [if_neg hr]; exact ⟨_, rfl, by simp, by simp⟩

/-- C23: the emergency handler calls `Unseal` with `currentVersion = 1`.  For a
request whose package decrypts and verifies with a config of version `v`, that
call returns the package exactly when `1 <= v`; the handler then goes on to the
teardown and the SRAM write, and answers 400 with the rollback error when
`v < 1`.  The handler reads no running version: on the same request
`/kexec/trigger` of a server that runs version `c` rejects the package whenever
`v < c`, also when `1 <= v`. -/
theorem emergency_version_constant (E : Env) (errorText : UnsealError → String) (key : Bytes)
    (r : Request) (sys : Sys) (fuel : Nat) (data kernel config : Bytes) (v : Int)
    (h2 : sys.kexecLocked = false)
    (h3 : r.ContentLength ≤ 128 * 1048576) (h4 : 0 ≤ r.ContentLength)
    (h5 : r.ContentLength.toNat ≤ r.Body.length)
    (hdata : decryptAndVerify E key (r.Body.take r.ContentLength.toNat) r.ExternalSignature
      = .ok data)
    (hframe : readFrame E.intBits data = .ok (kernel, config))
    (hjson : E.unmarshalMinimalConfig config = some v) :
    ((∃ pkg, Unseal E 1 key (r.Body.take r.ContentLength.toNat) r.ExternalSignature = .ok pkg)
      ↔ 1 ≤ v) ∧
    (1 ≤ v → Unseal E 1 key (r.Body.take r.ContentLength.toNat) r.ExternalSignature
      = .ok { Kernel := kernel, Config := config }) ∧
    (1 ≤ v → ∀ runs, pkillLoop sys.pkillFails fuel 0 = some runs →
      ∃ run, emergencyKexec E errorText key r sys fuel = some run ∧
        Event.writeOcram config ∈ run.events ∧ ∀ msg, Event.response 400 msg ∉ run.events) ∧
    (v < 1 → emergencyKexec E errorText key r sys fuel
      = some { events := [.tryLock true, .readBody r.ContentLength.toNat, .unseal,
                 .response 400 ("unseal failed: " ++ errorText (.rollback 1 v)), .unlock],
               ending := .returned, devMem := sys.devMem }) ∧
    (∀ s : ApiServer, s.KexecEnabled = true → s.KexecEncryptionKey = key → v < s.Version →
      s.kexec E r sys fuel
        = some { events := [.tryLock true, .readBody r.ContentLength.toNat, .unseal,
                   .response 400 "failed to unseal kexec package", .unlock],
                 ending := .returned, devMem := sys.devMem }) := by
  have hU := fun c => Unseal_of_data E c v key (r.Body.take r.ContentLength.toNat) data kernel
    config r.ExternalSignature hdata hframe hjson
  have hok : 1 ≤ v → Unseal E 1 key (r.Body.take r.ContentLength.toNat) r.ExternalSignature
      = .ok { Kernel := kernel, Config := config } := by
    intro hv; rw [hU 1, if_neg (by omega)]
  have herr : ∀ c, v < c → Unseal E c key (r.Body.take r.ContentLength.toNat)
      r.ExternalSignature = .err (.rollback c v) := by
    intro c hv; rw [hU c, if_pos hv]
  refine ⟨⟨?_, fun hv => ⟨_, hok hv⟩⟩, hok, ?_, ?_, ?_⟩
  · rintro ⟨pkg, hpkg⟩
    by_contra hv
    rw [herr 1 (by omega)] at hpkg
    exact Outcome.noConfusion hpkg
  · intro hv runs hp
    exact emergencyKexec_unseal_ok E errorText key r sys fuel runs _ h2 h3 h4 h5 (hok hv) hp
  · intro hv
    exact emergencyKexec_unseal_error E errorText key r sys fuel _ h2 h3 h4 h5 (herr 1 hv)
  · intro s hs hkey hv
    exact kexec_unseal_error E s r sys fuel _ hs h2 h3 h4 h5 (by rw [hkey]; exact herr _ hv)

set_option maxRecDepth 100000 in
theorem emergency_version_constant_witness :
    (∃ run, emergencyKexec sampleEnv (fun _ => "") sampleKey
        (sampleRequest sampleKernel configV1) sampleSys 1 = some run ∧
      Event.writeOcram configV1 ∈ run.events ∧ ∀ msg, Event.response 400 msg ∉ run.events) ∧
    sampleServerV5.kexec sampleEnv (sampleRequest sampleKernel configV1) sampleSys 1
      = some { events := [.tryLock true,
                 .readBody (sampleRequest sampleKernel configV1).ContentLength.toNat, .unseal,
                 .response 400 "failed to unseal kexec package", .unlock],
               ending := .returned, devMem := sampleSys.devMem } := by
  have htake : (sampleRequest sampleKernel configV1).Body.take
      (sampleRequest sampleKernel configV1).ContentLength.toNat
      = sampleEnvelope sampleKernel configV1 :=
    requestOf_take (sampleEnvelope sampleKernel configV1)
  have h := emergency_version_constant sampleEnv (fun _ => "") sampleKey
    (sampleRequest sampleKernel configV1) sampleSys 1 (sealerData sampleKernel configV1)
    sampleKernel configV1 1 rfl (by decide) (by decide) (by decide)
    (by rw [htake]; decide) (by decide) (by decide)
  exact ⟨h.2.2.1 (by decide) 2 rfl, h.2.2.2.2 sampleServerV5 rfl rfl (by decide)⟩

/-! ## C24: the emergency handler against `/kexec/trigger` -/

/-- Whether `Unseal` panics does not depend on the version it is given. -/
theorem Unseal_panic_iff (E : Env) (c c' : Int) (key blob : Bytes) (extSig : String) :
    Unseal E c key blob extSig = .panic ↔ Unseal E c' key blob extSig = .panic := by
  unfold Unseal
  cases decryptAndVerify E key blob extSig with
  | err e => simp [Outcome.bind]
  | panic => simp [Outcome.bind]
  | ok data =>
    simp only [Outcome.bind]
    cases readFrame E.intBits data with
    | err e => simp
    | panic => simp
    | ok fields =>
      simp only
      cases E.unmarshalMinimalConfig fields.2 with
      | none => simp
      | some v =>
        simp only
        constructor <;> intro h <;> split at h <;> exact Outcome.noConfusion h

/-- The steps of a trace made of `pkill` runs. -/
theorem steps_pkill (runs : Nat) :
    (List.replicate runs Event.pkill).filter (fun ev => !ev.isResponse)
      = List.replicate runs Event.pkill := by
  apply List.filter_eq_self.2
  intro a ha
  rw [List.eq_of_mem_replicate ha]
  rfl

/-- When the two calls of `Unseal` accept the same packages, the emergency handler
and `/kexec/trigger` without steps 1 and 4 have the same outline. -/
theorem emergencyKexec_outline (E : Env) (errorText : UnsealError → String)
    (s : ApiServer) (r : Request) (sys : Sys) (fuel : Nat)
    (hen : s.KexecEnabled = true)
    (hagree : ∀ pkg,
      Unseal E s.Version s.KexecEncryptionKey (r.Body.take r.ContentLength.toNat)
          r.ExternalSignature = .ok pkg ↔
        Unseal E 1 s.KexecEncryptionKey (r.Body.take r.ContentLength.toNat)
          r.ExternalSignature = .ok pkg) :
    (emergencyKexec E errorText s.KexecEncryptionKey r sys fuel).map Run.outline
      = (s.withoutSteps1And4.kexec E r sys fuel).map Run.outline := by
  unfold emergencyKexec ApiServer.kexec
  simp only [ApiServer.withoutSteps1And4, hen, Bool.true_eq_false, if_false]
  by_cases h2 : sys.kexecLocked = true
  · simp only [h2, if_true]; rfl
  simp only [h2, if_false]
  by_cases h3 : r.ContentLength > 128 * 1048576
  · simp only [h3, if_true]; rfl
  simp only [h3, if_false]
  by_cases h4 : r.ContentLength < 0
  · simp only [h4, if_true]; rfl
  simp only [h4, if_false]
  by_cases h5 : r.Body.length < r.ContentLength.toNat
  · simp only [h5, if_true]; rfl
  simp only [h5, if_false]
  cases hU1 : Unseal E 1 s.KexecEncryptionKey (r.Body.take r.ContentLength.toNat)
      r.ExternalSignature with
  | panic =>
    rw [(Unseal_panic_iff E s.Version 1 _ _ _).2 hU1]
    rfl
  | err e =>
    cases hUc : Unseal E s.Version s.KexecEncryptionKey (r.Body.take r.ContentLength.toNat)
        r.ExternalSignature with
    | panic =>
      rw [(Unseal_panic_iff E s.Version 1 _ _ _).1 hUc] at hU1
      exact Outcome.noConfusion hU1
    | ok pkg =>
      rw [(hagree pkg).1 hUc] at hU1
      exact Outcome.noConfusion hU1
    | err e' => rfl
  | ok pkg =>
    rw [(hagree pkg).2 hU1]
    simp only [Bool.false_eq_true, false_and, if_false, List.map_nil, List.append_nil]
    cases hp : pkillLoop sys.pkillFails fuel 0 with
    | none => rfl
    | some runs =>
      simp only
      cases hw : writeConfigToOcram E sys.devMem pkg.Config with
      | error e =>
        simp only [Option.map_some', Run.outline, Run.steps, List.filter_append, steps_pkill]
        rfl
      | ok devMem =>
        simp only
        by_cases hk : pkg.Kernel = []
        · simp only [hk, if_true, Option.map_some', Run.outline, Run.steps, List.filter_append,
            steps_pkill]
          rfl
        simp only [hk, if_false]
        by_cases hl : sys.kexecLoadErrno ≠ 0
        · rw [if_pos hl, if_pos hl]
          simp only [Option.map_some', Run.outline, Run.steps, List.filter_append, steps_pkill]
          rfl
        rw [if_neg hl, if_neg hl]
        by_cases hr : sys.rebootErrno ≠ 0
        · rw [if_pos hr, if_pos hr]
          simp only [Option.map_some', Run.outline, Run.steps, List.filter_append, steps_pkill]
          rfl
        · rw [if_neg hr, if_neg hr]
          simp only [Option.map_some', Run.outline, Run.steps, List.filter_append, steps_pkill]
          rfl

/-- C24: let the two calls of `Unseal` accept the same packages (they differ only
in the version they pass).  Then for every request and every outcome of the
mutex, the body read, `pkill`, the SRAM write, `kexec_load` and `reboot`, the
emergency handler and `/kexec/trigger` without the SSH kill and the disk
unmounts take the same steps in the same order (the same size check, `pkill`
runs, unmount of `/vroot/tmp`, SRAM write, `kexec_load` of the same kernel at
`0x80000000` with capacity `0x8000000`, reboot), end alike and leave the same
region; they differ in their responses only, and both answer a `Content-Length`
above 134217728 with 400 `kexec package is too big`. -/
theorem emergency_refines_trigger (E : Env) (errorText : UnsealError → String)
    (s : ApiServer) (r : Request) (sys : Sys) (fuel : Nat)
    (hen : s.KexecEnabled = true)
    (hagree : ∀ pkg,
      Unseal E s.Version s.KexecEncryptionKey (r.Body.take r.ContentLength.toNat)
          r.ExternalSignature = .ok pkg ↔
        Unseal E 1 s.KexecEncryptionKey (r.Body.take r.ContentLength.toNat)
          r.ExternalSignature = .ok pkg) :
    (emergencyKexec E errorText s.KexecEncryptionKey r sys fuel).map Run.outline
      = (s.withoutSteps1And4.kexec E r sys fuel).map Run.outline ∧
    (sys.kexecLocked = false → r.ContentLength > 134217728 →
      emergencyKexec E errorText s.KexecEncryptionKey r sys fuel
        = some { events := [.tryLock true, .response 400 "kexec package is too big", .unlock],
                 ending := .returned, devMem := sys.devMem } ∧
      s.withoutSteps1And4.kexec E r sys fuel
        = some { events := [.tryLock true, .response 400 "kexec package is too big", .unlock],
                 ending := .returned, devMem := sys.devMem }) := by
  refine ⟨emergencyKexec_outline E errorText s r sys fuel hen hagree, fun h2 h3 => ⟨?_, ?_⟩⟩
  · have h3' : r.ContentLength > 128 * 1048576 := by omega
    unfold emergencyKexec
    rw [if_neg (by simp [h2]), if_pos h3']
  · have h3' : r.ContentLength > 128 * 1048576 := by omega
    have hen' : s.withoutSteps1And4.KexecEnabled = true := hen
    unfold ApiServer.kexec
    rw [if_neg (by simp [hen']), if_neg (by simp [h2]), if_pos h3']

set_option maxRecDepth 100000 in
theorem emergency_refines_trigger_witness :
    (∃ run, sampleServer.withoutSteps1And4.kexec sampleEnv
        (sampleRequest sampleKernel configV1) sampleSys 1 = some run ∧
      run.ending = .rebooted) ∧
    (emergencyKexec sampleEnv (fun _ => "") sampleServer.KexecEncryptionKey
        (sampleRequest sampleKernel configV1) sampleSys 1).map Run.outline
      = (sampleServer.withoutSteps1And4.kexec sampleEnv
          (sampleRequest sampleKernel configV1) sampleSys 1).map Run.outline := by
  obtain ⟨run, hrun, hok, -⟩ := sample_kexec_run configV1 (by decide) (by decide) (by decide)
  exact ⟨⟨run, hrun, hok⟩,
    (emergency_refines_trigger sampleEnv (fun _ => "") sampleServer
      (sampleRequest sampleKernel configV1) sampleSys 1 rfl (fun _ => Iff.rfl)).1⟩

/-! ## C30: zero bytes and the stripe -/

/-- The bytes before the first zero byte are fewer than the bytes of the list. -/
theorem takeWhile_length_lt (l : Bytes) (h : (0 : Byte) ∈ l) :
    (l.takeWhile (fun b => b != 0)).length < l.length := by
  obtain ⟨c, rest, hl, -, hc⟩ := split_at_first_zero l h
  rw [← hc]
  have := congrArg List.length hl
  simp only [List.length_append, List.length_cons] at this
  omega

/-- No zero byte is among the bytes before the first zero byte. -/
theorem takeWhile_zero_free (l : Bytes) : (0 : Byte) ∉ l.takeWhile (fun b => b != 0) := by
  intro h
  have := List.mem_takeWhile_imp h
  simp at this

/-- What `loadConfigFromOcram` returns with `ok = true`. -/
theorem loadConfigFromOcram_true (E : Env) (m : DevMem) (hopen : m.openOk = true)
    (hmmap : m.mmapOk = true) (hlen : m.ocram.length = OCRAM_END - OCRAM_START)
    (text : Option Bytes) (m' : DevMem)
    (h : loadConfigFromOcram E m = some ((text, true), m')) :
    ∃ config, text = some config ∧ (0 : Byte) ∉ config ∧ config.length ≤ 126943 ∧
      config = (if (0 : Byte) ∈ m.ocram.drop 32
        then (m.ocram.drop 32).takeWhile (fun b => b != 0) else []) := by
  rw [loadConfigFromOcram_eq E m hopen hmmap hlen] at h
  have h1 := congrArg Prod.fst (Option.some.inj h)
  simp only at h1
  have hfree : (0 : Byte) ∉ (if (0 : Byte) ∈ m.ocram.drop 32
      then (m.ocram.drop 32).takeWhile (fun b => b != 0) else []) := by
    by_cases hz : (0 : Byte) ∈ m.ocram.drop 32
    · rw [if_pos hz]; exact takeWhile_zero_free _
    · rw [if_neg hz]; exact List.not_mem_nil _
  have hshort : (if (0 : Byte) ∈ m.ocram.drop 32
      then (m.ocram.drop 32).takeWhile (fun b => b != 0) else []).length ≤ 126943 := by
    by_cases hz : (0 : Byte) ∈ m.ocram.drop 32
    · rw [if_pos hz]
      have := takeWhile_length_lt _ hz
      rw [List.length_drop, hlen, regionLen_eq] at this
      omega
    · rw [if_neg hz]; exact Nat.zero_le _
  generalize (if (0 : Byte) ∈ m.ocram.drop 32
      then (m.ocram.drop 32).takeWhile (fun b => b != 0) else []) = c at h1 hfree hshort ⊢
  by_cases hs : E.sha256 c = m.ocram.take 32
  · rw [if_pos hs] at h1
    exact ⟨c, (congrArg Prod.fst h1).symm, hfree, hshort, rfl⟩
  · rw [if_neg hs] at h1
    exact absurd (congrArg Prod.snd h1) (by simp)

/-- A call of `writeConfigToOcram` that succeeds had a config that fits. -/
theorem writeConfigToOcram_fits (E : Env) (m m' : DevMem) (config : Bytes)
    (h : writeConfigToOcram E m config = .ok m') :
    32 + config.length + 1 ≤ OCRAM_END - OCRAM_START ∧ m.openOk = true ∧ m.mmapOk = true := by
  unfold writeConfigToOcram at h
  by_cases h1 : 32 + config.length + 1 > OCRAM_END - OCRAM_START
  · rw [if_pos h1] at h; exact Except.noConfusion h
  rw [if_neg h1] at h
  by_cases h2 : m.openOk = false
  · rw [if_pos h2] at h; exact Except.noConfusion h
  rw [if_neg h2] at h
  by_cases h3 : m.mmapOk = false
  · rw [if_pos h3] at h; exact Except.noConfusion h
  exact ⟨by omega, by simpa using h2, by simpa using h3⟩

/-- C30: on a working `/dev/mem`, a config that `load_config` returns with
`ok = true` holds no zero byte and at most 126943 = region length - 33 bytes: it
is the bytes from offset 32 up to the first zero byte, and the empty string when
no zero byte follows offset 32.  So for a config `C` that `write_config`
accepts, the `load_config` that follows returns `(C, true)` exactly when `C`
holds no zero byte. -/
theorem stripe_zero_bytes (E : Env) (m : DevMem) (hopen : m.openOk = true)
    (hmmap : m.mmapOk = true) (hlen : m.ocram.length = OCRAM_END - OCRAM_START) :
    (∀ text m', loadConfigFromOcram E m = some ((text, true), m') →
      ∃ config, text = some config ∧ (0 : Byte) ∉ config ∧
        config.length ≤ OCRAM_END - OCRAM_START - 33 ∧
        config = (if (0 : Byte) ∈ m.ocram.drop 32
          then (m.ocram.drop 32).takeWhile (fun b => b != 0) else [])) ∧
    OCRAM_END - OCRAM_START - 33 = 126943 ∧
    (∀ C m₁, writeConfigToOcram E m C = .ok m₁ →
      ((∃ m₂, loadConfigFromOcram E m₁ = some ((some C, true), m₂)) ↔ (0 : Byte) ∉ C)) := by
  refine ⟨fun text m' h => ?_, by decide, fun C m₁ hw => ?_⟩
  · obtain ⟨config, h1, h2, h3, h4⟩ := loadConfigFromOcram_true E m hopen hmmap hlen text m' h
    exact ⟨config, h1, h2, by rw [regionLen_eq]; exact h3, h4⟩
  · obtain ⟨hfit, -, -⟩ := writeConfigToOcram_fits E m m₁ C hw
    have hm₁ := writeConfigToOcram_eq E m C hopen hmmap hlen hfit
    rw [hw] at hm₁
    have hm₁' := Except.ok.inj hm₁
    have hlen' := written_length E m C hlen hfit
    constructor
    · rintro ⟨m₂, h⟩
      have hopen₁ : m₁.openOk = true := by rw [hm₁']; exact hopen
      have hmmap₁ : m₁.mmapOk = true := by rw [hm₁']; exact hmmap
      have hlen₁ : m₁.ocram.length = OCRAM_END - OCRAM_START := by rw [hm₁']; exact hlen'
      obtain ⟨config, h1, h2, -, -⟩ :=
        loadConfigFromOcram_true E m₁ hopen₁ hmmap₁ hlen₁ (some C) m₂ h
      rw [Option.some.inj h1]
      exact h2
    · intro hzero
      refine ⟨{ m₁ with ocram := List.replicate (OCRAM_END - OCRAM_START) 0 }, ?_⟩
      rw [hm₁']
      rw [loadConfigFromOcram_stripe E
        { m with ocram := E.sha256 C ++ C ++ 0 :: m.ocram.drop (32 + C.length + 1) }
        (E.sha256 C) C (m.ocram.drop (32 + C.length + 1)) hopen hmmap hlen' rfl
        (E.sha256_length C) hzero, if_pos rfl]

/-- Witness for C30: the configs `{"version":1}` and `[0]` written over a zeroed
region. -/
theorem stripe_zero_bytes_witness :
    (∃ m₁, writeConfigToOcram sampleEnv zeroDevMem configV1 = .ok m₁ ∧
      ∃ m₂, loadConfigFromOcram sampleEnv m₁ = some ((some configV1, true), m₂)) ∧
    (∃ m₁, writeConfigToOcram sampleEnv zeroDevMem [0] = .ok m₁ ∧
      ¬ ∃ m₂, loadConfigFromOcram sampleEnv m₁ = some ((some [0], true), m₂)) :=
  ⟨⟨_, writeConfigToOcram_eq sampleEnv zeroDevMem configV1 rfl rfl zeroDevMem_length (by decide),
      ((stripe_zero_bytes sampleEnv zeroDevMem rfl rfl zeroDevMem_length).2.2 configV1 _
        (writeConfigToOcram_eq sampleEnv zeroDevMem configV1 rfl rfl zeroDevMem_length
          (by decide))).2 (by decide)⟩,
    ⟨_, writeConfigToOcram_eq sampleEnv zeroDevMem [0] rfl rfl zeroDevMem_length (by decide),
      fun h => ((stripe_zero_bytes sampleEnv zeroDevMem rfl rfl zeroDevMem_length).2.2 [0] _
        (writeConfigToOcram_eq sampleEnv zeroDevMem [0] rfl rfl zeroDevMem_length
          (by decide))).1 h (by decide)⟩⟩

/-! ## C21: the request cap -/

/-- With all ten slots taken, the middleware answers 429 on a path outside
`/kexec/` and returns without `Abort`, and the chain goes on with the handlers
that follow. -/
theorem rateLimit_saturated (path : String) (rest : List HandlerFunc) (ctx : GinContext)
    (hpath : isKexecPath path = false) (hfull : 10 ≤ ctx.sem) :
    ginNext (rateLimit path :: rest) ctx
      = ginNext rest { ctx with pending := rest.length,
                                log := ctx.log ++ [.tooManyRequests] } := by
  have hsem : ¬ ctx.sem < 10 := by omega
  cases rest with
  | nil => simp only [ginNext, rateLimit, hpath, hsem, Bool.false_eq_true, if_false,
      List.length_nil, if_true]
  | cons h t =>
    simp only [ginNext, rateLimit, hpath, hsem, Bool.false_eq_true, if_false, List.length_cons]
    rfl

/-- With a slot free, a request outside `/kexec/` takes one slot, runs the rest of
the chain inside the middleware and gives the slot back. -/
theorem rateLimit_admitted (path : String) (rest : List HandlerFunc) (ctx : GinContext)
    (hpath : isKexecPath path = false) (hfree : ctx.sem < 10) :
    ginNext (rateLimit path :: rest) ctx
      = { pending := 0,
          sem := (ginNext rest { pending := rest.length, sem := ctx.sem + 1,
                                 log := ctx.log ++ [.acquire] }).sem - 1,
          log := (ginNext rest { pending := rest.length, sem := ctx.sem + 1,
                                 log := ctx.log ++ [.acquire] }).log ++ [.release] } := by
  simp only [ginNext, rateLimit, hpath, hfree, Bool.false_eq_true, if_false, if_true]

/-- A request under `/kexec/` is passed on and leaves the semaphore alone. -/
theorem rateLimit_kexec (path : String) (rest : List HandlerFunc) (ctx : GinContext)
    (hpath : isKexecPath path = true) :
    ginNext (rateLimit path :: rest) ctx
      = { ginNext rest { ctx with pending := rest.length } with pending := 0 } := by
  simp only [ginNext, rateLimit, hpath, if_true]

/-- C21 fails for the eleventh request: with ten requests in flight a request to
`/tesla/x/vehicle_data` is answered 429 and its handlers run all the same,
outside the semaphore.  A request with a free slot takes and releases one slot
around its handlers, and a request to `/kexec/trigger` passes without touching
the semaphore. -/
theorem request_cap_saturated_runs_handler :
    ginNext [rateLimit "/tesla/x/vehicle_data", routeHandler] (arriving 10)
      = { pending := 0, sem := 10, log := [.tooManyRequests, .handled] } ∧
    ginNext [rateLimit "/tesla/x/vehicle_data", routeHandler] (arriving 9)
      = { pending := 0, sem := 9, log := [.acquire, .handled, .release] } ∧
    ginNext [rateLimit "/kexec/trigger", routeHandler] (arriving 10)
      = { pending := 0, sem := 10, log := [.handled] } := by
  refine ⟨?_, ?_, ?_⟩
  · rw [rateLimit_saturated _ _ _ (by decide) (by decide)]; rfl
  · rw [rateLimit_admitted _ _ _ (by decide) (by decide)]; rfl
  · rw [rateLimit_kexec _ _ _ (by decide)]; rfl

/-! ## C22: the scope groups -/

/-- The accounts after the loop has run over `clientKeys` from `accounts`: every
entry was there before or comes from a key that lists the scope with a non-empty
secret, and the map is empty exactly when it was empty before and no key
qualifies. -/
theorem scopeAccounts_loop (scope : String) (clientKeys : List ClientKey) :
    ∀ accounts : Accounts,
      (∀ id secret, (id, secret) ∈ clientKeys.foldl (fun accounts clientKey =>
          if clientKey.Scopes.contains scope && clientKey.Secret != "" then
            accounts.set clientKey.Id clientKey.Secret
          else accounts) accounts →
        (id, secret) ∈ accounts ∨ ∃ k ∈ clientKeys, k.Id = id ∧ k.Secret = secret ∧
          scope ∈ k.Scopes ∧ k.Secret ≠ "") ∧
      (clientKeys.foldl (fun accounts clientKey =>
          if clientKey.Scopes.contains scope && clientKey.Secret != "" then
            accounts.set clientKey.Id clientKey.Secret
          else accounts) accounts = [] ↔
        accounts = [] ∧ ∀ k ∈ clientKeys, ¬ (scope ∈ k.Scopes ∧ k.Secret ≠ "")) := by
  induction clientKeys with
  | nil =>
    intro accounts
    exact ⟨fun id secret h => Or.inl h, by simp⟩
  | cons key keys ih =>
    intro accounts
    rw [List.foldl_cons]
    by_cases hk : (key.Scopes.contains scope && key.Secret != "") = true
    · rw [if_pos hk]
      have hk' : scope ∈ key.Scopes ∧ key.Secret ≠ "" := by
        simpa using hk
      obtain ⟨ih1, ih2⟩ := ih (accounts.set key.Id key.Secret)
      constructor
      · intro id secret h
        rcases ih1 id secret h with h1 | ⟨k, hkm, h1⟩
        · rcases List.mem_cons.1 h1 with h2 | h2
          · have h3 := Prod.mk.inj h2
            exact Or.inr ⟨key, List.mem_cons_self _ _, h3.1.symm, h3.2.symm, hk'⟩
          · exact Or.inl (List.mem_filter.1 h2).1
        · exact Or.inr ⟨k, List.mem_cons_of_mem _ hkm, h1⟩
      · constructor
        · intro h
          exact absurd (ih2.1 h).1 (List.cons_ne_nil _ _)
        · rintro ⟨-, h⟩
          exact absurd hk' (h key (List.mem_cons_self _ _))
    · rw [if_neg hk]
      have hk' : ¬ (scope ∈ key.Scopes ∧ key.Secret ≠ "") := by
        simpa using hk
      obtain ⟨ih1, ih2⟩ := ih accounts
      constructor
      · intro id secret h
        rcases ih1 id secret h with h1 | ⟨k, hkm, h1⟩
        · exact Or.inl h1
        · exact Or.inr ⟨k, List.mem_cons_of_mem _ hkm, h1⟩
      · rw [ih2]
        constructor
        · rintro ⟨h1, h2⟩
          refine ⟨h1, fun k hkm => ?_⟩
          rcases List.mem_cons.1 hkm with h3 | h3
          · rw [h3]; exact hk'
          · exact h2 k h3
        · rintro ⟨h1, h2⟩
          exact ⟨h1, fun k hkm => h2 k (List.mem_cons_of_mem _ hkm)⟩

/-- C22: for every scope (in particular `tesla`, `kexec` and `debug`) and every
list of client keys, the route group of the scope is registered if and only if
some key lists the scope and has a non-empty secret, and every entry
`(id, secret)` of the group's Basic-auth accounts comes from a key with that id
and that secret which lists the scope and has a non-empty secret. -/
theorem scope_groups (scope : String) (clientKeys : List ClientKey) :
    (groupRegistered scope clientKeys = true ↔
      ∃ k ∈ clientKeys, scope ∈ k.Scopes ∧ k.Secret ≠ "") ∧
    (∀ id secret, (id, secret) ∈ scopeAccounts scope clientKeys →
      ∃ k ∈ clientKeys, k.Id = id ∧ k.Secret = secret ∧ scope ∈ k.Scopes ∧ k.Secret ≠ "") ∧
    ("/tesla" ∈ registeredGroups clientKeys ↔ groupRegistered "tesla" clientKeys = true) ∧
    ("/kexec" ∈ registeredGroups clientKeys ↔ groupRegistered "kexec" clientKeys = true) ∧
    ("/debug" ∈ registeredGroups clientKeys ↔ groupRegistered "debug" clientKeys = true) := by
  obtain ⟨h1, h2⟩ := scopeAccounts_loop scope clientKeys []
  refine ⟨?_, ?_, ?_, ?_, ?_⟩
  · unfold groupRegistered scopeAccounts
    rw [bne_iff_ne, Ne, List.length_eq_zero, h2]
    constructor
    · intro h
      by_contra hne
      exact h ⟨rfl, fun k hk hc => hne ⟨k, hk, hc⟩⟩
    · rintro ⟨k, hk, hc⟩ ⟨-, h⟩
      exact h k hk hc
  · intro id secret h
    rcases h1 id secret h with h3 | h3
    · exact absurd h3 (List.not_mem_nil _)
    · exact h3
  · unfold registeredGroups
    cases groupRegistered "tesla" clientKeys <;> cases groupRegistered "kexec" clientKeys <;>
      cases groupRegistered "debug" clientKeys <;> decide
  · unfold registeredGroups
    cases groupRegistered "tesla" clientKeys <;> cases groupRegistered "kexec" clientKeys <;>
      cases groupRegistered "debug" clientKeys <;> decide
  · unfold registeredGroups
    cases groupRegistered "tesla" clientKeys <;> cases groupRegistered "kexec" clientKeys <;>
      cases groupRegistered "debug" clientKeys <;> decide

theorem scope_groups_witness :
    registeredGroups sampleClientKeys = ["/tesla", "/debug"] ∧
    (groupRegistered "kexec" sampleClientKeys = true ↔
      ∃ k ∈ sampleClientKeys, "kexec" ∈ k.Scopes ∧ k.Secret ≠ "") ∧
    (∀ id secret, (id, secret) ∈ scopeAccounts "debug" sampleClientKeys →
      ∃ k ∈ sampleClientKeys, k.Id = id ∧ k.Secret = secret ∧ "debug" ∈ k.Scopes ∧
        k.Secret ≠ "") :=
  ⟨by decide, (scope_groups "kexec" sampleClientKeys).1,
    (scope_groups "debug" sampleClientKeys).2.1⟩

/-! ## C27: the SSH completion signal -/

/-- The run of `/kexec/trigger` when nobody closes `KexecSshKillCompletion`: after
`Unseal` the handler closes `KexecSshKill` and waits, the mutex held. -/
theorem kexec_blocked (E : Env) (s : ApiServer) (r : Request) (sys : Sys) (fuel : Nat)
    (pkg : UnsealedPackage)
    (h1 : s.KexecEnabled = true) (h2 : sys.kexecLocked = false)
    (h3 : r.ContentLength ≤ 128 * 1048576) (h4 : 0 ≤ r.ContentLength)
    (h5 : r.ContentLength.toNat ≤ r.Body.length)
    (hu : Unseal E s.Version s.KexecEncryptionKey (r.Body.take r.ContentLength.toNat)
        r.ExternalSignature = .ok pkg)
    (h6 : s.KexecSshKill = true) (h7 : sys.sshKillCompletes = false) :
    s.kexec E r sys fuel
      = some { events := [.tryLock true, .readBody r.ContentLength.toNat, .unseal, .sshKill],
               ending := .blocked, devMem := sys.devMem } := by
  unfold ApiServer.kexec
  simp only [h1, h2, not_lt.mpr h3, not_lt.mpr h4, not_lt.mpr h5, hu, h6, h7,
    Bool.true_eq_false, Bool.false_eq_true, if_false, gt_iff_lt, and_self, if_true]
  rfl

set_option maxRecDepth 100000 in
/-- C27 fails when `Spawn` returns early: with a `host_key` that is not base64
`Spawn` returns its error before it starts the goroutine that closes
`killCompletion`, `main` only logs the error, and the channel stays open with
nobody to close it; a `/kexec/trigger` request with a valid package then closes
`KexecSshKill` and waits for ever with the kexec mutex held.  With no
`ssh_server` section the channel is closed, and after a `Spawn` that got through
it is held by the supervisor. -/
theorem ssh_completion_abandoned :
    SshServerConfig.Spawn badHostKey = (some .decodeHostKey, false) ∧
    sshSetup (some badHostKey) = .abandoned ∧
    sampleServerSsh.kexec sampleEnv (sampleRequest sampleKernel configV1)
        (sysAfterSetup (sshSetup (some badHostKey))) 1
      = some { events := [.tryLock true, .readBody 154, .unseal, .sshKill],
               ending := .blocked, devMem := sampleSys.devMem } ∧
    lockAfter false [.tryLock true, .readBody 154, .unseal, .sshKill] = true ∧
    sshSetup none = .closed ∧
    sshSetup (some { pipeOk := true, hostKeyDecodes := true, memfdOk := true })
      = .supervised := by
  have htake : (sampleRequest sampleKernel configV1).Body.take
      (sampleRequest sampleKernel configV1).ContentLength.toNat
      = sampleEnvelope sampleKernel configV1 :=
    requestOf_take (sampleEnvelope sampleKernel configV1)
  refine ⟨by decide, by decide, ?_, by decide, by decide, by decide⟩
  exact kexec_blocked sampleEnv sampleServerSsh (sampleRequest sampleKernel configV1)
    (sysAfterSetup (sshSetup (some badHostKey))) 1
    { Kernel := sampleKernel, Config := configV1 } rfl rfl (by decide) (by decide) (by decide)
    (by rw [htake]; decide) rfl (by decide)

end Hgw
